import Mathlib

/-!
# Pomodoro timer core (`timer_core.h`, `timer_core.cpp`)

A shallow embedding of `TimerCore`.  Machine integers are natural numbers, every
operation that can leave the range of its C++ type is reduced explicitly
(`wrap8`, `wrap32`).  The millisecond clock `millis()` is the argument `now` of
each operation, the `Preferences` namespace "pomodoro" is an explicit key-value
map that the persisting operations take and return.  Serial output is dropped.
-/

namespace Pomodoro

/-! ## Constants of `timer_core.h` -/

def WORK_DURATION : Nat := 25
def SHORT_BREAK_DURATION : Nat := 5
def LONG_BREAK_DURATION : Nat := 15
def POMODOROS_BEFORE_LONG_BREAK : Nat := 4
def IDLE_TIMEOUT_BATTERY_MINUTES : Nat := 5
def IDLE_TIMEOUT_USB_MINUTES : Nat := 30
def DEFAULT_ALARM_DURATION : Nat := 2
def MAX_TASKS : Nat := 12

/-! ## Machine arithmetic -/

/-- Conversion of a mathematical integer to `uint8_t`. -/
def wrap8 (x : Int) : Nat := (x % 256).toNat

/-- Conversion of a mathematical integer to `uint32_t`. -/
def wrap32 (x : Int) : Nat := (x % 4294967296).toNat

/-! ## Enumerations -/

inductive TimerState where
  | IDLE
  | WORK
  | WIND_UP
  | SHORT_BREAK
  | LONG_BREAK
  | PAUSED_WORK
  | PAUSED_SHORT_BREAK
  | PAUSED_LONG_BREAK
  | ALERT
  deriving DecidableEq, Repr

inductive MenuState where
  | CLOSED
  | MENU_LIST
  | EDITING_VALUE
  deriving DecidableEq, Repr

/-- Modelled from the spec: the enumerator `THEME` is used by every switch of
`timer_core.cpp` but the `timer_core.h` at hand predates it.  It is placed after
`BRIGHTNESS`, where the switches of `selectMenuItem` and `confirmValue` and the
clamp table of the spec (section 4.3) have it.  The other enumerators are those of
the header, in its order. -/
inductive MenuItem where
  | POMODORO_LENGTH
  | SHORT_BREAK_LENGTH
  | LONG_BREAK_LENGTH
  | POMODOROS_BEFORE_LONG_BREAK
  | MANAGE_TASKS
  | EDIT_COMPLETED_POMODOROS
  | EDIT_INTERRUPTED_POMODOROS
  | IDLE_TIMEOUT_BATTERY
  | IDLE_TIMEOUT_USB
  | IDLE_SLEEP_ON_USB
  | BRIGHTNESS
  | THEME
  | ENABLE_WINDUP
  | ALARM_DURATION
  | ALARM_VIBRATION
  | ALARM_FLASH
  | MENU_ITEM_COUNT
  deriving DecidableEq, Repr

/-! ## The persistent store -/

/-- A stored scalar: `putUChar` and `putBool` entries of `Preferences`. -/
inductive PrefValue where
  | uchar (v : Nat)
  | bool (b : Bool)
  deriving DecidableEq, Repr

/-- Modelled from the spec: the key-value store behind `Preferences` (section 6,
SettingsStore: load a named scalar with a default, store a named scalar).  A key
that is absent, or that holds a scalar of the other kind, reads as the default. -/
abbrev Preferences := String → Option PrefValue

namespace Preferences

/-- The store of a device that has never saved. -/
def empty : Preferences := fun _ => none

def putUChar (p : Preferences) (key : String) (value : Nat) : Preferences :=
  fun k => if k = key then some (PrefValue.uchar value) else p k

def putBool (p : Preferences) (key : String) (value : Bool) : Preferences :=
  fun k => if k = key then some (PrefValue.bool value) else p k

def getUChar (p : Preferences) (key : String) (defaultValue : Nat) : Nat :=
  match p key with
  | some (PrefValue.uchar v) => v
  | _ => defaultValue

def getBool (p : Preferences) (key : String) (defaultValue : Bool) : Bool :=
  match p key with
  | some (PrefValue.bool b) => b
  | _ => defaultValue

end Preferences

/-! ## The engine -/

/-- The data members of `class TimerCore`.  `themeId` is used by `timer_core.cpp`
(constructor, `setTheme`, `loadState`, `saveState`) like the other `uint8_t`
settings. -/
structure TimerCore where
  menuState : MenuState
  currentMenuItem : MenuItem
  editingValue : Nat
  state : TimerState
  previousState : TimerState
  startTime : Nat
  pausedTime : Nat
  remainingTime : Nat
  duration : Nat
  idleStartTime : Nat
  workDuration : Nat
  shortBreakDuration : Nat
  longBreakDuration : Nat
  completedSessions : Nat
  pomodorosBeforeLongBreak : Nat
  pomodorosSinceLastLongBreak : Nat
  idleTimeoutBattery : Nat
  idleTimeoutUSB : Nat
  sleepOnUSB : Bool
  brightnessLevel : Nat
  themeId : Nat
  alarmDuration : Nat
  alarmVibrationEnabled : Bool
  alarmFlashEnabled : Bool
  alertStartTime : Nat
  alertActive : Bool
  blinkCount : Nat
  currentTaskId : Nat
  totalTasks : Nat
  completedPomodoros : List Nat
  interruptedPomodoros : List Nat
  windupEnabled : Bool
  windupValue : Nat
  deriving DecidableEq, Repr

/-- Every member holds a value of its C++ type: the `uint8_t` members are below
`2^8`, the `uint32_t` members below `2^32`, and the two counter arrays have
`MAX_TASKS` entries of `uint8_t`. -/
def TimerCore.WellFormed (c : TimerCore) : Prop :=
  c.editingValue < 256 ∧
  c.startTime < 4294967296 ∧
  c.pausedTime < 4294967296 ∧
  c.remainingTime < 4294967296 ∧
  c.duration < 4294967296 ∧
  c.idleStartTime < 4294967296 ∧
  c.workDuration < 256 ∧
  c.shortBreakDuration < 256 ∧
  c.longBreakDuration < 256 ∧
  c.completedSessions < 256 ∧
  c.pomodorosBeforeLongBreak < 256 ∧
  c.pomodorosSinceLastLongBreak < 256 ∧
  c.idleTimeoutBattery < 256 ∧
  c.idleTimeoutUSB < 256 ∧
  c.brightnessLevel < 256 ∧
  c.themeId < 256 ∧
  c.alarmDuration < 256 ∧
  c.alertStartTime < 4294967296 ∧
  c.blinkCount < 256 ∧
  c.currentTaskId < 256 ∧
  c.totalTasks < 256 ∧
  c.completedPomodoros.length = MAX_TASKS ∧
  c.interruptedPomodoros.length = MAX_TASKS ∧
  (∀ x ∈ c.completedPomodoros, x < 256) ∧
  (∀ x ∈ c.interruptedPomodoros, x < 256) ∧
  c.windupValue < 4294967296

instance (c : TimerCore) : Decidable c.WellFormed := by
  unfold TimerCore.WellFormed
  infer_instance

/-! ## Persistence (`saveState`) -/

/-- The key `"comp" + String(i)`. -/
def compKey (i : Nat) : String := "comp" ++ toString i

/-- The key `"int" + String(i)`. -/
def intKey (i : Nat) : String := "int" ++ toString i

/-- The body of the loop of `saveState`, for one index. -/
def saveTask (c : TimerCore) (p : Preferences) (i : Nat) : Preferences :=
  (p.putUChar (compKey i) (c.completedPomodoros.getD i 0)).putUChar
    (intKey i) (c.interruptedPomodoros.getD i 0)

/-- The scalar writes of `saveState`, before its loop. -/
def saveSettings (c : TimerCore) (p : Preferences) : Preferences :=
  let p := p.putUChar "totalTasks" c.totalTasks
  let p := p.putUChar "currentTask" c.currentTaskId
  let p := p.putUChar "workDuration" c.workDuration
  let p := p.putUChar "shortBreak" c.shortBreakDuration
  let p := p.putUChar "longBreak" c.longBreakDuration
  let p := p.putUChar "pomosB4Long" c.pomodorosBeforeLongBreak
  let p := p.putUChar "idleTimeout" c.idleTimeoutBattery
  let p := p.putUChar "idleTimeUSB" c.idleTimeoutUSB
  let p := p.putBool "sleepOnUSB" c.sleepOnUSB
  let p := p.putUChar "brightness" c.brightnessLevel
  let p := p.putUChar "theme" c.themeId
  let p := p.putBool "windupEn" c.windupEnabled
  let p := p.putUChar "alarmDur" c.alarmDuration
  let p := p.putBool "alarmVib" c.alarmVibrationEnabled
  p.putBool "alarmFlash" c.alarmFlashEnabled

/-- The method `TimerCore::saveState`: the scalar writes, then the loop over the task
counters. -/
def saveState (c : TimerCore) (p : Preferences) : Preferences :=
  (List.range MAX_TASKS).foldl (saveTask c) (saveSettings c p)

/-- The keys of the scalar settings, in the order `saveState` writes them. -/
def settingKeys : List String :=
  ["totalTasks", "currentTask", "workDuration", "shortBreak", "longBreak", "pomosB4Long",
    "idleTimeout", "idleTimeUSB", "sleepOnUSB", "brightness", "theme", "windupEn",
    "alarmDur", "alarmVib", "alarmFlash"]

/-! ## Timer controls -/

/-- The method `TimerCore::startBreak`. -/
def startBreak (c : TimerCore) (now : Nat) : TimerCore :=
  let c := { c with pomodorosSinceLastLongBreak := wrap8 (c.pomodorosSinceLastLongBreak + 1) }
  let c :=
    if c.pomodorosSinceLastLongBreak ≥ c.pomodorosBeforeLongBreak then
      { c with
        duration := wrap32 (c.longBreakDuration * 60)
        state := TimerState.LONG_BREAK
        pomodorosSinceLastLongBreak := 0 }
    else
      { c with
        duration := wrap32 (c.shortBreakDuration * 60)
        state := TimerState.SHORT_BREAK }
  { c with remainingTime := c.duration, startTime := now }

/-- The method `TimerCore::startWork`. -/
def startWork (c : TimerCore) (now : Nat) : TimerCore :=
  let c := { c with duration := wrap32 (c.workDuration * 60) }
  { c with remainingTime := c.duration, startTime := now, state := TimerState.WORK }

/-- The method `TimerCore::pause`. -/
def pause (c : TimerCore) (now : Nat) : TimerCore :=
  if c.state = TimerState.WORK then
    { c with pausedTime := now, state := TimerState.PAUSED_WORK }
  else if c.state = TimerState.SHORT_BREAK then
    { c with pausedTime := now, state := TimerState.PAUSED_SHORT_BREAK }
  else if c.state = TimerState.LONG_BREAK then
    { c with pausedTime := now, state := TimerState.PAUSED_LONG_BREAK }
  else c

/-- The method `TimerCore::resume`. -/
def resume (c : TimerCore) (now : Nat) : TimerCore :=
  if c.state = TimerState.PAUSED_WORK then
    { c with
      startTime := wrap32 (c.startTime + wrap32 (now - c.pausedTime))
      state := TimerState.WORK }
  else if c.state = TimerState.PAUSED_SHORT_BREAK then
    { c with
      startTime := wrap32 (c.startTime + wrap32 (now - c.pausedTime))
      state := TimerState.SHORT_BREAK }
  else if c.state = TimerState.PAUSED_LONG_BREAK then
    { c with
      startTime := wrap32 (c.startTime + wrap32 (now - c.pausedTime))
      state := TimerState.LONG_BREAK }
  else c

/-- The method `TimerCore::startAlert`. -/
def startAlert (c : TimerCore) (now : Nat) : TimerCore :=
  { c with
    previousState := c.state
    state := TimerState.ALERT
    alertStartTime := now
    alertActive := true
    blinkCount := 0 }

/-- The method `TimerCore::updateAlert`. -/
def updateAlert (c : TimerCore) (p : Preferences) (now : Nat) : TimerCore × Preferences :=
  if c.alertActive = false then (c, p)
  else
    let elapsed := wrap32 (now - c.alertStartTime)
    let alert_duration := wrap32 (c.alarmDuration * 1000)
    let blink_interval := 400
    let c := { c with blinkCount := wrap8 ((elapsed / blink_interval % 2 : Nat) : Int) }
    if elapsed ≥ alert_duration then
      let c := { c with alertActive := false }
      if c.previousState = TimerState.WORK then
        if c.currentTaskId < MAX_TASKS then
          let c := { c with
            completedPomodoros :=
              c.completedPomodoros.set c.currentTaskId
                (wrap8 (c.completedPomodoros.getD c.currentTaskId 0 + 1)) }
          let c := { c with completedSessions := wrap8 (c.completedSessions + 1) }
          (startBreak c now, saveState c p)
        else
          (startBreak c now, p)
      else
        ({ c with state := TimerState.IDLE, remainingTime := 0 }, p)
    else (c, p)

/-- The elapsed milliseconds as `TimerCore::update` computes them from
`currentTime` and `startTime`. -/
def elapsedMs (currentTime startTime : Nat) : Nat :=
  if currentTime ≥ startTime then
    wrap32 (currentTime - startTime)
  else
    wrap32 (wrap32 (wrap32 (4294967295 - startTime) + currentTime) + 1)

/-- The method `TimerCore::update`. -/
def update (c : TimerCore) (p : Preferences) (now : Nat) : TimerCore × Preferences :=
  if c.alertActive then updateAlert c p now
  else if c.state = TimerState.WORK ∨ c.state = TimerState.SHORT_BREAK ∨
      c.state = TimerState.LONG_BREAK then
    let elapsed_ms := elapsedMs now c.startTime
    let elapsed_seconds := elapsed_ms / 1000
    let duration_ms := wrap32 (c.duration * 1000)
    if elapsed_ms ≥ duration_ms ∨ elapsed_seconds ≥ c.duration then
      (startAlert { c with remainingTime := 0 } now, p)
    else
      ({ c with remainingTime :=
          if elapsed_seconds < c.duration then c.duration - elapsed_seconds else 0 }, p)
  else (c, p)

/-! ## Idle / power policy -/

/-- The method `TimerCore::resetIdleTimer` (`timer_core.h`). -/
def resetIdleTimer (c : TimerCore) (now : Nat) : TimerCore :=
  { c with idleStartTime := now }

/-- The method `TimerCore::isOnUSBPower`.  The voltage is an exact rational number; the
comparison of the `float` with `5.0` is exact for every finite reading. -/
def isOnUSBPower (batteryVoltage : ℚ) : Bool :=
  decide (batteryVoltage > 5)

/-- The method `TimerCore::checkIdleTimeout`: the returned flag and the engine afterwards.
The function-local `static lastDebug` only throttles the diagnostic print and is
no member of the engine. -/
def checkIdleTimeout (c : TimerCore) (now : Nat) (batteryVoltage : ℚ) : Bool × TimerCore :=
  if c.state ≠ TimerState.IDLE then (false, resetIdleTimer c now)
  else
    let onUSB := isOnUSBPower batteryVoltage
    if onUSB && !c.sleepOnUSB then (false, c)
    else
      let timeout_minutes := if onUSB then c.idleTimeoutUSB else c.idleTimeoutBattery
      let timeout_ms := wrap32 (timeout_minutes * 60 * 1000)
      let elapsed_ms := wrap32 (now - c.idleStartTime)
      (decide (elapsed_ms ≥ timeout_ms), c)

/-! ## Menu editor -/

/-- Conversion of a mathematical integer to `int16_t`. -/
def wrapInt16 (x : Int) : Int := (x + 32768) % 65536 - 32768

/-- The pattern `editingValue += direction; if (editingValue < lo) editingValue = lo;
if (editingValue > hi) editingValue = hi;` of `adjustValue`, on the `uint8_t`
member itself. -/
def stepU8 (editingValue : Nat) (direction : Int) (lo hi : Nat) : Nat :=
  let v := wrap8 (editingValue + direction)
  let v := if v < lo then lo else v
  if v > hi then hi else v

/-- The pattern `int16_t newValue = editingValue + direction; if (newValue < lo)
newValue = lo; if (newValue > hi) newValue = hi; editingValue = newValue;` of
`adjustValue`. -/
def stepInt16 (editingValue : Nat) (direction : Int) (lo hi : Int) : Nat :=
  let newValue := wrapInt16 (editingValue + direction)
  let newValue := if newValue < lo then lo else newValue
  let newValue := if newValue > hi then hi else newValue
  wrap8 newValue

/-- The method `TimerCore::adjustValue`; `direction` is the `int8_t` argument. -/
def adjustValue (c : TimerCore) (direction : Int) : TimerCore :=
  if c.menuState ≠ MenuState.EDITING_VALUE then c
  else
    match c.currentMenuItem with
    | MenuItem.POMODORO_LENGTH =>
      { c with editingValue := stepU8 c.editingValue direction 1 60 }
    | MenuItem.SHORT_BREAK_LENGTH =>
      { c with editingValue := stepU8 c.editingValue direction 1 15 }
    | MenuItem.LONG_BREAK_LENGTH =>
      { c with editingValue := stepU8 c.editingValue direction 5 30 }
    | MenuItem.POMODOROS_BEFORE_LONG_BREAK =>
      { c with editingValue := stepU8 c.editingValue direction 2 10 }
    | MenuItem.MANAGE_TASKS =>
      { c with editingValue := stepInt16 c.editingValue direction 1 MAX_TASKS }
    | MenuItem.EDIT_COMPLETED_POMODOROS =>
      { c with editingValue := stepInt16 c.editingValue direction 0 99 }
    | MenuItem.EDIT_INTERRUPTED_POMODOROS =>
      { c with editingValue := stepInt16 c.editingValue direction 0 99 }
    | MenuItem.IDLE_TIMEOUT_BATTERY =>
      { c with editingValue := stepU8 c.editingValue direction 1 30 }
    | MenuItem.IDLE_TIMEOUT_USB =>
      { c with editingValue := stepU8 c.editingValue direction 1 60 }
    | MenuItem.IDLE_SLEEP_ON_USB =>
      { c with editingValue := if c.editingValue ≠ 0 then 0 else 1 }
    | MenuItem.BRIGHTNESS =>
      if direction < 0 ∧ c.editingValue = 0 then { c with editingValue := 0 }
      else if direction > 0 ∧ c.editingValue = 7 then { c with editingValue := 7 }
      else { c with editingValue := wrap8 (c.editingValue + direction) }
    | MenuItem.THEME =>
      { c with editingValue := stepU8 c.editingValue direction 1 2 }
    | MenuItem.ALARM_DURATION =>
      { c with editingValue := stepU8 c.editingValue direction 1 10 }
    | MenuItem.ENABLE_WINDUP =>
      { c with editingValue := if c.editingValue ≠ 0 then 0 else 1 }
    | MenuItem.ALARM_VIBRATION =>
      { c with editingValue := if c.editingValue ≠ 0 then 0 else 1 }
    | MenuItem.ALARM_FLASH =>
      { c with editingValue := if c.editingValue ≠ 0 then 0 else 1 }
    | MenuItem.MENU_ITEM_COUNT => c

/-! ## Setters -/

/-- Ends a setter: `saveState()` on the engine just changed. -/
def persist (c : TimerCore) (p : Preferences) : TimerCore × Preferences :=
  (c, saveState c p)

def setWorkDuration (c : TimerCore) (p : Preferences) (minutes : Nat) :=
  persist { c with workDuration := minutes } p

def setShortBreakDuration (c : TimerCore) (p : Preferences) (minutes : Nat) :=
  persist { c with shortBreakDuration := minutes } p

def setLongBreakDuration (c : TimerCore) (p : Preferences) (minutes : Nat) :=
  persist { c with longBreakDuration := minutes } p

def setPomodorosBeforeLongBreak (c : TimerCore) (p : Preferences) (count : Nat) :=
  persist { c with pomodorosBeforeLongBreak := count } p

def setIdleTimeoutBattery (c : TimerCore) (p : Preferences) (minutes : Nat) :=
  persist { c with idleTimeoutBattery := minutes } p

def setIdleTimeoutUSB (c : TimerCore) (p : Preferences) (minutes : Nat) :=
  persist { c with idleTimeoutUSB := minutes } p

def setSleepOnUSB (c : TimerCore) (p : Preferences) (enabled : Bool) :=
  persist { c with sleepOnUSB := enabled } p

def setBrightnessLevel (c : TimerCore) (p : Preferences) (level : Nat) :=
  persist { c with brightnessLevel := level } p

def setTheme (c : TimerCore) (p : Preferences) (theme : Nat) :=
  persist { c with themeId := theme } p

def setWindupEnabled (c : TimerCore) (p : Preferences) (enabled : Bool) :=
  persist { c with windupEnabled := enabled } p

def setAlarmDuration (c : TimerCore) (p : Preferences) (seconds : Nat) :=
  persist { c with alarmDuration := seconds } p

def setAlarmVibration (c : TimerCore) (p : Preferences) (enabled : Bool) :=
  persist { c with alarmVibrationEnabled := enabled } p

def setAlarmFlash (c : TimerCore) (p : Preferences) (enabled : Bool) :=
  persist { c with alarmFlashEnabled := enabled } p

/-- The method `TimerCore::setTotalTasks`. -/
def setTotalTasks (c : TimerCore) (p : Preferences) (count : Nat) :=
  let c := { c with totalTasks := count }
  let c :=
    if c.currentTaskId ≥ c.totalTasks then
      { c with currentTaskId := wrap8 (c.totalTasks - 1) }
    else c
  persist c p

/-- The method `TimerCore::setTaskCompletedPomodoros`. -/
def setTaskCompletedPomodoros (c : TimerCore) (p : Preferences) (taskId count : Nat) :
    TimerCore × Preferences :=
  if taskId < MAX_TASKS then
    persist { c with completedPomodoros := c.completedPomodoros.set taskId count } p
  else (c, p)

/-- The method `TimerCore::setTaskInterruptedPomodoros`. -/
def setTaskInterruptedPomodoros (c : TimerCore) (p : Preferences) (taskId count : Nat) :
    TimerCore × Preferences :=
  if taskId < MAX_TASKS then
    persist { c with interruptedPomodoros := c.interruptedPomodoros.set taskId count } p
  else (c, p)

/-- The switch of `TimerCore::confirmValue`: the setter of the current item. -/
def applyEditingValue (c : TimerCore) (p : Preferences) : TimerCore × Preferences :=
  match c.currentMenuItem with
  | MenuItem.POMODORO_LENGTH => setWorkDuration c p c.editingValue
  | MenuItem.SHORT_BREAK_LENGTH => setShortBreakDuration c p c.editingValue
  | MenuItem.LONG_BREAK_LENGTH => setLongBreakDuration c p c.editingValue
  | MenuItem.POMODOROS_BEFORE_LONG_BREAK => setPomodorosBeforeLongBreak c p c.editingValue
  | MenuItem.MANAGE_TASKS => setTotalTasks c p c.editingValue
  | MenuItem.EDIT_COMPLETED_POMODOROS =>
    setTaskCompletedPomodoros c p c.currentTaskId c.editingValue
  | MenuItem.EDIT_INTERRUPTED_POMODOROS =>
    setTaskInterruptedPomodoros c p c.currentTaskId c.editingValue
  | MenuItem.IDLE_TIMEOUT_BATTERY => setIdleTimeoutBattery c p c.editingValue
  | MenuItem.IDLE_TIMEOUT_USB => setIdleTimeoutUSB c p c.editingValue
  | MenuItem.IDLE_SLEEP_ON_USB => setSleepOnUSB c p (decide (c.editingValue ≠ 0))
  | MenuItem.BRIGHTNESS => setBrightnessLevel c p c.editingValue
  | MenuItem.THEME => setTheme c p c.editingValue
  | MenuItem.ENABLE_WINDUP => setWindupEnabled c p (decide (c.editingValue ≠ 0))
  | MenuItem.ALARM_DURATION => setAlarmDuration c p c.editingValue
  | MenuItem.ALARM_VIBRATION => setAlarmVibration c p (decide (c.editingValue ≠ 0))
  | MenuItem.ALARM_FLASH => setAlarmFlash c p (decide (c.editingValue ≠ 0))
  | MenuItem.MENU_ITEM_COUNT => (c, p)

/-- The method `TimerCore::confirmValue`. -/
def confirmValue (c : TimerCore) (p : Preferences) : TimerCore × Preferences :=
  if c.menuState ≠ MenuState.EDITING_VALUE then (c, p)
  else
    let r := applyEditingValue c p
    ({ r.1 with menuState := MenuState.MENU_LIST }, r.2)

/-! ## Construction -/

/-- The method `TimerCore::loadState`. -/
def loadState (c : TimerCore) (p : Preferences) : TimerCore :=
  { c with
    totalTasks := p.getUChar "totalTasks" 1
    currentTaskId := p.getUChar "currentTask" 0
    workDuration := p.getUChar "workDuration" WORK_DURATION
    shortBreakDuration := p.getUChar "shortBreak" SHORT_BREAK_DURATION
    longBreakDuration := p.getUChar "longBreak" LONG_BREAK_DURATION
    pomodorosBeforeLongBreak := p.getUChar "pomosB4Long" POMODOROS_BEFORE_LONG_BREAK
    idleTimeoutBattery := p.getUChar "idleTimeout" IDLE_TIMEOUT_BATTERY_MINUTES
    idleTimeoutUSB := p.getUChar "idleTimeUSB" IDLE_TIMEOUT_USB_MINUTES
    sleepOnUSB := p.getBool "sleepOnUSB" true
    brightnessLevel := p.getUChar "brightness" 4
    themeId := p.getUChar "theme" 1
    windupEnabled := p.getBool "windupEn" false
    alarmDuration := p.getUChar "alarmDur" DEFAULT_ALARM_DURATION
    alarmVibrationEnabled := p.getBool "alarmVib" true
    alarmFlashEnabled := p.getBool "alarmFlash" true
    completedPomodoros := (List.range MAX_TASKS).map fun i => p.getUChar (compKey i) 0
    interruptedPomodoros := (List.range MAX_TASKS).map fun i => p.getUChar (intKey i) 0 }

/-- The constructor `TimerCore::TimerCore`: the member initialisers, the zeroed
counter arrays, then `loadState`. -/
def construct (p : Preferences) (now : Nat) : TimerCore :=
  loadState
    { menuState := MenuState.CLOSED
      currentMenuItem := MenuItem.POMODORO_LENGTH
      editingValue := 0
      state := TimerState.IDLE
      previousState := TimerState.IDLE
      startTime := 0
      pausedTime := 0
      remainingTime := 0
      duration := 0
      idleStartTime := now
      workDuration := WORK_DURATION
      shortBreakDuration := SHORT_BREAK_DURATION
      longBreakDuration := LONG_BREAK_DURATION
      completedSessions := 0
      pomodorosBeforeLongBreak := POMODOROS_BEFORE_LONG_BREAK
      pomodorosSinceLastLongBreak := 0
      idleTimeoutBattery := IDLE_TIMEOUT_BATTERY_MINUTES
      idleTimeoutUSB := IDLE_TIMEOUT_USB_MINUTES
      sleepOnUSB := true
      brightnessLevel := 4
      themeId := 1
      alarmDuration := DEFAULT_ALARM_DURATION
      alarmVibrationEnabled := true
      alarmFlashEnabled := true
      alertStartTime := 0
      alertActive := false
      blinkCount := 0
      currentTaskId := 0
      totalTasks := 1
      completedPomodoros := List.replicate MAX_TASKS 0
      interruptedPomodoros := List.replicate MAX_TASKS 0
      windupEnabled := false
      windupValue := 0 } p

/-! ## Unchecked array accesses -/

/-- An array read `a[i]` without a bounds check: it has a value only inside the
array. -/
def readAt (a : List Nat) (i : Nat) : Option Nat := a[i]?

/-- An array write `a[i] = v` without a bounds check: it has a result only inside
the array. -/
def writeAt (a : List Nat) (i v : Nat) : Option (List Nat) :=
  if i < a.length then some (a.set i v) else none

/-- The getter `getTaskCompletedPomodoros` of `timer_core.h`:
`return completedPomodoros[taskId];`. -/
def getTaskCompletedPomodoros (c : TimerCore) (taskId : Nat) : Option Nat :=
  readAt c.completedPomodoros taskId

/-- The getter `getTaskInterruptedPomodoros` of `timer_core.h`:
`return interruptedPomodoros[taskId];`. -/
def getTaskInterruptedPomodoros (c : TimerCore) (taskId : Nat) : Option Nat :=
  readAt c.interruptedPomodoros taskId

/-! ## Interrupt, reset and task management -/

/-- The method `TimerCore::interrupt`.  The increment
`interruptedPomodoros[currentTaskId]++` is an unchecked read and write; the result
is `none` when it falls outside the array. -/
def interrupt (c : TimerCore) (p : Preferences) : Option (TimerCore × Preferences) :=
  if c.state = TimerState.WORK ∨ c.state = TimerState.PAUSED_WORK then
    match readAt c.interruptedPomodoros c.currentTaskId with
    | none => none
    | some v =>
      match writeAt c.interruptedPomodoros c.currentTaskId (wrap8 (v + 1)) with
      | none => none
      | some a =>
        let c := { c with interruptedPomodoros := a }
        let p := saveState c p
        some ({ c with state := TimerState.IDLE, remainingTime := 0 }, p)
  else some (c, p)

/-- The method `TimerCore::reset`. -/
def reset (c : TimerCore) : TimerCore :=
  { c with state := TimerState.IDLE, remainingTime := 0, startTime := 0, pausedTime := 0 }

/-- The method `TimerCore::resetTaskStats`. -/
def resetTaskStats (c : TimerCore) : TimerCore :=
  { c with
    completedSessions := 0
    completedPomodoros := List.replicate MAX_TASKS 0
    interruptedPomodoros := List.replicate MAX_TASKS 0 }

/-- The method `TimerCore::resetSaveState`. -/
def resetSaveState (c : TimerCore) (p : Preferences) : TimerCore × Preferences :=
  persist
    { c with
      totalTasks := 1
      currentTaskId := 0
      completedSessions := 0
      pomodorosSinceLastLongBreak := 0
      completedPomodoros := List.replicate MAX_TASKS 0
      interruptedPomodoros := List.replicate MAX_TASKS 0 } p

/-- The method `TimerCore::addTask`. -/
def addTask (c : TimerCore) (p : Preferences) : TimerCore × Preferences :=
  if c.totalTasks < MAX_TASKS then
    let c := { c with totalTasks := wrap8 (c.totalTasks + 1) }
    let c := { c with currentTaskId := wrap8 (c.totalTasks - 1) }
    persist c p
  else (c, p)

/-- The method `TimerCore::selectTask`. -/
def selectTask (c : TimerCore) (taskId : Nat) : TimerCore :=
  if taskId < c.totalTasks then { c with currentTaskId := taskId } else c

/-! ## Wind-up -/

/-- Conversion of a mathematical integer to `int32_t`. -/
def wrapInt32 (x : Int) : Int := (x + 2147483648) % 4294967296 - 2147483648

/-- The method `TimerCore::startWorkFromWindup`. -/
def startWorkFromWindup (c : TimerCore) (now : Nat) : TimerCore :=
  if c.state ≠ TimerState.WIND_UP then c
  else
    let c := { c with duration := c.windupValue }
    { c with
      remainingTime := c.duration
      startTime := now
      state := TimerState.WORK
      windupValue := 0 }

/-- The method `TimerCore::startWindup`. -/
def startWindup (c : TimerCore) (now : Nat) : TimerCore :=
  if c.windupEnabled = false then startWork c now
  else { c with state := TimerState.WIND_UP, windupValue := 0 }

/-- The method `TimerCore::cancelWindup`. -/
def cancelWindup (c : TimerCore) : TimerCore :=
  if c.state = TimerState.WIND_UP then
    { c with state := TimerState.IDLE, windupValue := 0 }
  else c

/-- The method `TimerCore::incrementWindup`.  `windupValue + (direction * 60)` is
an unsigned 32-bit sum stored in the `int32_t newValue`; `newValue > maxSeconds`
compares as `uint32_t`. -/
def incrementWindup (c : TimerCore) (direction : Int) (now : Nat) : TimerCore :=
  if c.state ≠ TimerState.WIND_UP then c
  else
    let maxSeconds := wrap32 (c.workDuration * 60)
    let newValue := wrapInt32 (wrap32 (c.windupValue + direction * 60))
    let newValue := if newValue < 0 then 0 else newValue
    let newValue := if wrap32 newValue > maxSeconds then wrapInt32 maxSeconds else newValue
    let c := { c with windupValue := wrap32 newValue }
    if c.windupValue ≥ maxSeconds then startWorkFromWindup c now else c

/-! ## Menu navigation -/

/-- The ordinal of an enumerator, `static_cast<int8_t>(item)`. -/
def MenuItem.ordinal : MenuItem → Nat
  | MenuItem.POMODORO_LENGTH => 0
  | MenuItem.SHORT_BREAK_LENGTH => 1
  | MenuItem.LONG_BREAK_LENGTH => 2
  | MenuItem.POMODOROS_BEFORE_LONG_BREAK => 3
  | MenuItem.MANAGE_TASKS => 4
  | MenuItem.EDIT_COMPLETED_POMODOROS => 5
  | MenuItem.EDIT_INTERRUPTED_POMODOROS => 6
  | MenuItem.IDLE_TIMEOUT_BATTERY => 7
  | MenuItem.IDLE_TIMEOUT_USB => 8
  | MenuItem.IDLE_SLEEP_ON_USB => 9
  | MenuItem.BRIGHTNESS => 10
  | MenuItem.THEME => 11
  | MenuItem.ENABLE_WINDUP => 12
  | MenuItem.ALARM_DURATION => 13
  | MenuItem.ALARM_VIBRATION => 14
  | MenuItem.ALARM_FLASH => 15
  | MenuItem.MENU_ITEM_COUNT => 16

/-- The enumerator of an ordinal, `static_cast<MenuItem>(n)`.  `navigateMenu` only
casts ordinals below `MENU_ITEM_COUNT`; every other number is sent to the end
marker here. -/
def MenuItem.ofOrdinal : Nat → MenuItem
  | 0 => MenuItem.POMODORO_LENGTH
  | 1 => MenuItem.SHORT_BREAK_LENGTH
  | 2 => MenuItem.LONG_BREAK_LENGTH
  | 3 => MenuItem.POMODOROS_BEFORE_LONG_BREAK
  | 4 => MenuItem.MANAGE_TASKS
  | 5 => MenuItem.EDIT_COMPLETED_POMODOROS
  | 6 => MenuItem.EDIT_INTERRUPTED_POMODOROS
  | 7 => MenuItem.IDLE_TIMEOUT_BATTERY
  | 8 => MenuItem.IDLE_TIMEOUT_USB
  | 9 => MenuItem.IDLE_SLEEP_ON_USB
  | 10 => MenuItem.BRIGHTNESS
  | 11 => MenuItem.THEME
  | 12 => MenuItem.ENABLE_WINDUP
  | 13 => MenuItem.ALARM_DURATION
  | 14 => MenuItem.ALARM_VIBRATION
  | 15 => MenuItem.ALARM_FLASH
  | _ => MenuItem.MENU_ITEM_COUNT

/-- Conversion of a mathematical integer to `int8_t`. -/
def wrapInt8 (x : Int) : Int := (x + 128) % 256 - 128

/-- The method `TimerCore::openMenu`. -/
def openMenu (c : TimerCore) : TimerCore :=
  if c.state = TimerState.IDLE then
    { c with menuState := MenuState.MENU_LIST, currentMenuItem := MenuItem.POMODORO_LENGTH }
  else c

/-- The method `TimerCore::closeMenu`. -/
def closeMenu (c : TimerCore) : TimerCore :=
  { c with menuState := MenuState.CLOSED }

/-- The method `TimerCore::navigateMenu`; `direction` is the `int8_t` argument. -/
def navigateMenu (c : TimerCore) (direction : Int) : TimerCore :=
  if c.menuState ≠ MenuState.MENU_LIST then c
  else
    let newItem := wrapInt8 (c.currentMenuItem.ordinal + direction)
    let newItem :=
      if newItem < 0 then wrapInt8 (MenuItem.MENU_ITEM_COUNT.ordinal - 1)
      else if newItem ≥ wrapInt8 MenuItem.MENU_ITEM_COUNT.ordinal then 0
      else newItem
    { c with currentMenuItem := MenuItem.ofOrdinal newItem.toNat }

/-- The method `TimerCore::selectMenuItem`.  The two per-task items read
`completedPomodoros[currentTaskId]` and `interruptedPomodoros[currentTaskId]`
without a bounds check; the result is `none` when the read falls outside the
array. -/
def selectMenuItem (c : TimerCore) : Option TimerCore :=
  if c.menuState = MenuState.MENU_LIST then
    let c := { c with menuState := MenuState.EDITING_VALUE }
    match c.currentMenuItem with
    | MenuItem.POMODORO_LENGTH => some { c with editingValue := c.workDuration }
    | MenuItem.SHORT_BREAK_LENGTH => some { c with editingValue := c.shortBreakDuration }
    | MenuItem.LONG_BREAK_LENGTH => some { c with editingValue := c.longBreakDuration }
    | MenuItem.POMODOROS_BEFORE_LONG_BREAK =>
      some { c with editingValue := c.pomodorosBeforeLongBreak }
    | MenuItem.MANAGE_TASKS => some { c with editingValue := c.totalTasks }
    | MenuItem.EDIT_COMPLETED_POMODOROS =>
      match readAt c.completedPomodoros c.currentTaskId with
      | none => none
      | some v => some { c with editingValue := v }
    | MenuItem.EDIT_INTERRUPTED_POMODOROS =>
      match readAt c.interruptedPomodoros c.currentTaskId with
      | none => none
      | some v => some { c with editingValue := v }
    | MenuItem.IDLE_TIMEOUT_BATTERY => some { c with editingValue := c.idleTimeoutBattery }
    | MenuItem.IDLE_TIMEOUT_USB => some { c with editingValue := c.idleTimeoutUSB }
    | MenuItem.IDLE_SLEEP_ON_USB =>
      some { c with editingValue := if c.sleepOnUSB then 1 else 0 }
    | MenuItem.BRIGHTNESS => some { c with editingValue := c.brightnessLevel }
    | MenuItem.THEME => some { c with editingValue := c.themeId }
    | MenuItem.ENABLE_WINDUP =>
      some { c with editingValue := if c.windupEnabled then 1 else 0 }
    | MenuItem.ALARM_DURATION => some { c with editingValue := c.alarmDuration }
    | MenuItem.ALARM_VIBRATION =>
      some { c with editingValue := if c.alarmVibrationEnabled then 1 else 0 }
    | MenuItem.ALARM_FLASH =>
      some { c with editingValue := if c.alarmFlashEnabled then 1 else 0 }
    | MenuItem.MENU_ITEM_COUNT => some { c with editingValue := 0 }
  else some c

/-! ## The public commands -/

/-- The state-changing public methods of `TimerCore` (spec, section 6).  The
`int8_t` arguments are integers, the `uint8_t` arguments natural numbers, the
battery voltage a rational number. -/
inductive Command where
  | openMenu
  | closeMenu
  | navigateMenu (direction : Int)
  | selectMenuItem
  | adjustValue (direction : Int)
  | confirmValue
  | resetSaveState
  | startWork
  | startBreak
  | pause
  | resume
  | reset
  | update
  | interrupt
  | checkIdleTimeout (batteryVoltage : ℚ)
  | resetIdleTimer
  | addTask
  | selectTask (taskId : Nat)
  | resetTaskStats
  | startAlert
  | updateAlert
  | startWindup
  | cancelWindup
  | incrementWindup (direction : Int)
  | startWorkFromWindup
  | setWindupEnabled (enabled : Bool)
  | setPomodorosBeforeLongBreak (count : Nat)
  | setWorkDuration (minutes : Nat)
  | setShortBreakDuration (minutes : Nat)
  | setLongBreakDuration (minutes : Nat)
  | setIdleTimeoutBattery (minutes : Nat)
  | setIdleTimeoutUSB (minutes : Nat)
  | setSleepOnUSB (enabled : Bool)
  | setBrightnessLevel (level : Nat)
  | setTheme (theme : Nat)
  | setTotalTasks (count : Nat)
  | setTaskCompletedPomodoros (taskId count : Nat)
  | setTaskInterruptedPomodoros (taskId count : Nat)
  | setAlarmDuration (seconds : Nat)
  | setAlarmVibration (enabled : Bool)
  | setAlarmFlash (enabled : Bool)

/-- One command at clock value `now` on the engine and the store; `none` when the
command makes an array access outside the counter arrays. -/
def step (cmd : Command) (now : Nat) (c : TimerCore) (p : Preferences) :
    Option (TimerCore × Preferences) :=
  match cmd with
  | Command.openMenu => some (openMenu c, p)
  | Command.closeMenu => some (closeMenu c, p)
  | Command.navigateMenu direction => some (navigateMenu c direction, p)
  | Command.selectMenuItem =>
    match selectMenuItem c with
    | none => none
    | some c1 => some (c1, p)
  | Command.adjustValue direction => some (adjustValue c direction, p)
  | Command.confirmValue => some (confirmValue c p)
  | Command.resetSaveState => some (resetSaveState c p)
  | Command.startWork => some (startWork c now, p)
  | Command.startBreak => some (startBreak c now, p)
  | Command.pause => some (pause c now, p)
  | Command.resume => some (resume c now, p)
  | Command.reset => some (reset c, p)
  | Command.update => some (update c p now)
  | Command.interrupt => interrupt c p
  | Command.checkIdleTimeout batteryVoltage => some ((checkIdleTimeout c now batteryVoltage).2, p)
  | Command.resetIdleTimer => some (resetIdleTimer c now, p)
  | Command.addTask => some (addTask c p)
  | Command.selectTask taskId => some (selectTask c taskId, p)
  | Command.resetTaskStats => some (resetTaskStats c, p)
  | Command.startAlert => some (startAlert c now, p)
  | Command.updateAlert => some (updateAlert c p now)
  | Command.startWindup => some (startWindup c now, p)
  | Command.cancelWindup => some (cancelWindup c, p)
  | Command.incrementWindup direction => some (incrementWindup c direction now, p)
  | Command.startWorkFromWindup => some (startWorkFromWindup c now, p)
  | Command.setWindupEnabled enabled => some (setWindupEnabled c p enabled)
  | Command.setPomodorosBeforeLongBreak count => some (setPomodorosBeforeLongBreak c p count)
  | Command.setWorkDuration minutes => some (setWorkDuration c p minutes)
  | Command.setShortBreakDuration minutes => some (setShortBreakDuration c p minutes)
  | Command.setLongBreakDuration minutes => some (setLongBreakDuration c p minutes)
  | Command.setIdleTimeoutBattery minutes => some (setIdleTimeoutBattery c p minutes)
  | Command.setIdleTimeoutUSB minutes => some (setIdleTimeoutUSB c p minutes)
  | Command.setSleepOnUSB enabled => some (setSleepOnUSB c p enabled)
  | Command.setBrightnessLevel level => some (setBrightnessLevel c p level)
  | Command.setTheme theme => some (setTheme c p theme)
  | Command.setTotalTasks count => some (setTotalTasks c p count)
  | Command.setTaskCompletedPomodoros taskId count =>
    some (setTaskCompletedPomodoros c p taskId count)
  | Command.setTaskInterruptedPomodoros taskId count =>
    some (setTaskInterruptedPomodoros c p taskId count)
  | Command.setAlarmDuration seconds => some (setAlarmDuration c p seconds)
  | Command.setAlarmVibration enabled => some (setAlarmVibration c p enabled)
  | Command.setAlarmFlash enabled => some (setAlarmFlash c p enabled)

/-- A sequence of commands, each with the clock value of its call. -/
def run : List (Command × Nat) → TimerCore → Preferences → Option (TimerCore × Preferences)
  | [], c, p => some (c, p)
  | (cmd, now) :: rest, c, p =>
    match step cmd now c p with
    | none => none
    | some r => run rest r.1 r.2

/-- The task invariant of the spec (section 3): `1 <= totalTasks <= MAX_TASKS` and
`currentTaskId < totalTasks`. -/
def TaskInvariant (c : TimerCore) : Prop :=
  1 ≤ c.totalTasks ∧ c.totalTasks ≤ MAX_TASKS ∧ c.currentTaskId < c.totalTasks

/-- The task invariant together with what keeps it through the commands: counter
arrays of `MAX_TASKS` entries, and an `editingValue` within `1..MAX_TASKS` while
the total-tasks item is being edited. -/
def TaskInvariantEditing (c : TimerCore) : Prop :=
  TaskInvariant c ∧
  c.completedPomodoros.length = MAX_TASKS ∧
  c.interruptedPomodoros.length = MAX_TASKS ∧
  (c.menuState = MenuState.EDITING_VALUE → c.currentMenuItem = MenuItem.MANAGE_TASKS →
    1 ≤ c.editingValue ∧ c.editingValue ≤ MAX_TASKS)

/-- The commands the task invariant is shown for: every command, `setTotalTasks`
only with a count within `1..MAX_TASKS`. -/
def Command.KeepsTaskRange : Command → Prop
  | Command.setTotalTasks count => 1 ≤ count ∧ count ≤ MAX_TASKS
  | _ => True

/-- The k-fold turn of the wind-up by one step up, the calls at the clock values of
the list. -/
def windUps (c : TimerCore) (ts : List Nat) : TimerCore :=
  ts.foldl (fun c t => incrementWindup c 1 t) c

/-- All keys of `saveState`: the setting keys and the two keys of each task. -/
def allKeys : List String :=
  settingKeys ++ (List.range MAX_TASKS).map compKey ++ (List.range MAX_TASKS).map intKey

/-! ## Sample engines -/

/-- The engine of a first start: constructed at clock 0 on a store without
entries. -/
def sampleCore : TimerCore := construct Preferences.empty 0

/-- The sample engine after `startWork()` at clock 0. -/
def workingCore : TimerCore := startWork sampleCore 0

/-- The sample engine after the public setter call `setTotalTasks(0)`:
`totalTasks = 0` and `currentTaskId = 255`, outside the counter arrays. -/
def strayCore : TimerCore := (setTotalTasks sampleCore Preferences.empty 0).1

/-! ## Scenarios -/

/-- The clock `ms` milliseconds after `t`, on the 32-bit millisecond counter. -/
def clockAfter (t ms : Nat) : Nat := wrap32 (t + ms)

/-- A work period run to its expiry: `startWork()` at `t0`, then `update()` at
`t0 + workDuration*60*1000` ms. -/
def workToAlert (c : TimerCore) (p : Preferences) (t0 : Nat) : TimerCore × Preferences :=
  update (startWork c t0) p (clockAfter t0 (c.workDuration * 60 * 1000))

/-- A work period run to its completion: `workToAlert`, then `update()` another
`alarmDuration*1000` ms later. -/
def workToBreak (c : TimerCore) (p : Preferences) (t0 : Nat) : TimerCore × Preferences :=
  update (workToAlert c p t0).1 (workToAlert c p t0).2
    (clockAfter (clockAfter t0 (c.workDuration * 60 * 1000)) (c.alarmDuration * 1000))

/-- Work periods completed in a row: one `workToBreak` per start time of the
list, each started from the break that the one before left. -/
def workRounds (c : TimerCore) (p : Preferences) : List Nat → TimerCore × Preferences
  | [] => (c, p)
  | t :: ts => workRounds (workToBreak c p t).1 (workToBreak c p t).2 ts

/-- What the cadence needs of an engine: no alert active and the settings read by
a round within `uint8_t`. -/
def RoundReady (c : TimerCore) : Prop :=
  c.alertActive = false ∧ c.workDuration < 256 ∧ c.alarmDuration < 256 ∧
  c.shortBreakDuration < 256 ∧ c.longBreakDuration < 256 ∧
  c.pomodorosBeforeLongBreak < 256

/-- The sample engine in Alert: work started at clock 0 and expired at 1500000 ms. -/
def alertCore : TimerCore := (workToAlert sampleCore Preferences.empty 0).1

/-- The engine with the stray task id in Alert after the same work period. -/
def strayAlertCore : TimerCore := (workToAlert strayCore Preferences.empty 0).1

/-- The sample engine in Work with the alert of the period before still active:
`startWork()` called at 1500000 ms, during the alarm that began then. -/
def restartedCore : TimerCore := startWork alertCore 1500000

/-! ## The clamp table of the spec -/

/-- The linear rows of the clamp table (spec, section 4.3): minimum and maximum of
each item that is stepped; no row for the toggles and for the end marker. -/
def clampRange : MenuItem → Option (Nat × Nat)
  | MenuItem.POMODORO_LENGTH => some (1, 60)
  | MenuItem.SHORT_BREAK_LENGTH => some (1, 15)
  | MenuItem.LONG_BREAK_LENGTH => some (5, 30)
  | MenuItem.POMODOROS_BEFORE_LONG_BREAK => some (2, 10)
  | MenuItem.MANAGE_TASKS => some (1, MAX_TASKS)
  | MenuItem.EDIT_COMPLETED_POMODOROS => some (0, 99)
  | MenuItem.EDIT_INTERRUPTED_POMODOROS => some (0, 99)
  | MenuItem.IDLE_TIMEOUT_BATTERY => some (1, 30)
  | MenuItem.IDLE_TIMEOUT_USB => some (1, 60)
  | MenuItem.BRIGHTNESS => some (0, 7)
  | MenuItem.THEME => some (1, 2)
  | MenuItem.ALARM_DURATION => some (1, 10)
  | _ => none

/-- The toggle row of the clamp table: sleep-on-USB, wind-up enable, alarm
vibration, alarm flash. -/
def isToggle : MenuItem → Bool
  | MenuItem.IDLE_SLEEP_ON_USB => true
  | MenuItem.ENABLE_WINDUP => true
  | MenuItem.ALARM_VIBRATION => true
  | MenuItem.ALARM_FLASH => true
  | _ => false

/-- The value `v` lies in the documented range of the item: within the bounds of
its linear row, 0 or 1 for a toggle. -/
def inClampRange (item : MenuItem) (v : Nat) : Prop :=
  match clampRange item with
  | some (lo, hi) => lo ≤ v ∧ v ≤ hi
  | none => isToggle item = true → v ≤ 1

instance (item : MenuItem) (v : Nat) : Decidable (inClampRange item v) := by
  unfold inClampRange
  split <;> infer_instance

/-- The sample engine editing the brightness, value 6 (menu opened from Idle,
brightness selected at level 4 and stepped up twice). -/
def brightnessEditCore : TimerCore :=
  { sampleCore with
    menuState := MenuState.EDITING_VALUE
    currentMenuItem := MenuItem.BRIGHTNESS
    editingValue := 6 }

/-- The sample engine editing the completed count of task 0, value 5 (menu opened
from Idle, item selected, stepped up five times). -/
def countEditCore : TimerCore :=
  { sampleCore with
    menuState := MenuState.EDITING_VALUE
    currentMenuItem := MenuItem.EDIT_COMPLETED_POMODOROS
    editingValue := 5 }

/-- The same edit after the public setter call `setTotalTasks(0)`: the current
task id is 255. -/
def strayEditCore : TimerCore := (setTotalTasks countEditCore Preferences.empty 0).1

/-! ## Scenarios and predicates of the invariants -/

/-- A reset during the alarm: work started at clock 0, expired at 1500000 ms, then
`reset()` 1 s into the alarm. -/
def resetDuringAlarm : List (Command × Nat) :=
  [(Command.startWork, 0), (Command.update, 1500000), (Command.reset, 1501000)]

/-- A new work period started during the alarm of the one before. -/
def restartDuringAlarm : List (Command × Nat) :=
  [(Command.startWork, 0), (Command.update, 1500000), (Command.startWork, 1501000)]

/-- A wind-up begun during a work period and cancelled. -/
def windupDuringWork : List (Command × Nat) :=
  [(Command.setWindupEnabled true, 0), (Command.startWork, 0), (Command.startWindup, 1000),
    (Command.cancelWindup, 2000)]

/-- A one-minute work period started during the alarm of the one before, up to the
end of that alarm. -/
def shortWorkDuringAlarm : List (Command × Nat) :=
  [(Command.setWorkDuration 1, 0), (Command.startWork, 0), (Command.update, 60000),
    (Command.startWork, 60000), (Command.update, 62000)]

/-- An interrupt after `setTotalTasks(0)` has made the current task id 255. -/
def interruptStray : List (Command × Nat) :=
  [(Command.setTotalTasks 0, 0), (Command.startWork, 0), (Command.interrupt, 1000)]

/-- The edit of a completed count selected after `setTotalTasks(0)`. -/
def selectStray : List (Command × Nat) :=
  [(Command.setTotalTasks 0, 0), (Command.openMenu, 0), (Command.navigateMenu 1, 0),
    (Command.navigateMenu 1, 0), (Command.navigateMenu 1, 0), (Command.navigateMenu 1, 0),
    (Command.navigateMenu 1, 0), (Command.selectMenuItem, 0)]

/-- A completed count of 5 confirmed for task 0 (and so saved), then
`resetTaskStats()`. -/
def resetStatsAfterSave : List (Command × Nat) :=
  [(Command.confirmValue, 0), (Command.resetTaskStats, 0)]

/-- Every command of the sequence is one the task invariant is shown for. -/
def KeepTaskRange (cmds : List (Command × Nat)) : Prop :=
  ∀ x ∈ cmds, x.1.KeepsTaskRange

instance Command.decKeepsTaskRange (cmd : Command) : Decidable cmd.KeepsTaskRange := by
  cases cmd
  case setTotalTasks count => exact inferInstanceAs (Decidable (1 ≤ count ∧ count ≤ MAX_TASKS))
  all_goals exact inferInstanceAs (Decidable True)

instance decKeepTaskRange (cmds : List (Command × Nat)) : Decidable (KeepTaskRange cmds) := by
  unfold KeepTaskRange
  infer_instance

/-- Task management from a first start: tasks added and selected, the number of
tasks edited through the menu, a work period interrupted, the statistics reset. -/
def taskSession : List (Command × Nat) :=
  [(Command.addTask, 0), (Command.addTask, 10), (Command.selectTask 1, 20),
    (Command.setTotalTasks 2, 30), (Command.openMenu, 40), (Command.navigateMenu 1, 50),
    (Command.navigateMenu 1, 60), (Command.navigateMenu 1, 70), (Command.navigateMenu 1, 80),
    (Command.selectMenuItem, 90), (Command.adjustValue (-1), 100), (Command.confirmValue, 110),
    (Command.closeMenu, 120), (Command.startWork, 1000), (Command.interrupt, 2000),
    (Command.resetTaskStats, 3000)]

/-- A morning of use from a first start: a work period begun, paused and resumed,
run to its alarm and into the break, a setting changed through the menu on the
way. -/
def sampleSession : List (Command × Nat) :=
  [(Command.openMenu, 0), (Command.selectMenuItem, 100), (Command.adjustValue 1, 200),
    (Command.confirmValue, 300), (Command.closeMenu, 400), (Command.startWork, 1000),
    (Command.update, 61000), (Command.pause, 62000), (Command.resume, 92000),
    (Command.update, 1591000), (Command.update, 1593000), (Command.update, 1600000)]

/-- The calls made during a period: `update`, `pause` and `resume`. -/
def Command.isPeriodCall : Command → Bool
  | Command.update => true
  | Command.pause => true
  | Command.resume => true
  | _ => false

/-- The remaining time after each call of a sequence made during a period that
started at clock value `t0`, each call at the clock value `offset` ms after `t0`;
the list ends with the call that expires the period. -/
def periodTrace (t0 : Nat) : List (Command × Nat) → TimerCore → Preferences → List Nat
  | [], _, _ => []
  | (cmd, offset) :: rest, c, p =>
    match step cmd (clockAfter t0 offset) c p with
    | none => []
    | some r =>
      r.1.remainingTime :: (if r.1.alertActive then [] else periodTrace t0 rest r.1 r.2)

/-- A sequence of `update`, `pause` and `resume` calls at non-decreasing offsets
from `start` on, each less than `2^32` ms. -/
def periodCalls : Nat → List (Command × Nat) → Bool
  | _, [] => true
  | start, (cmd, offset) :: rest =>
    cmd.isPeriodCall && decide (start ≤ offset) && decide (offset < 4294967296) &&
      periodCalls offset rest

/-- The engine is within a period that started at clock value `t0`, seen `offset`
ms later: no alert, the start time is `t0` moved on by the time spent paused
(`lag`), and the remaining time is not below what the next tick will compute. -/
def InPeriod (t0 : Nat) (c : TimerCore) (offset : Nat) : Prop :=
  c.alertActive = false ∧ t0 < 4294967296 ∧
  ∃ lag, lag ≤ offset ∧ c.startTime = clockAfter t0 lag ∧
    (((c.state = TimerState.WORK ∨ c.state = TimerState.SHORT_BREAK ∨
        c.state = TimerState.LONG_BREAK) ∧
      c.duration - (offset - lag) / 1000 ≤ c.remainingTime) ∨
     ((c.state = TimerState.PAUSED_WORK ∨ c.state = TimerState.PAUSED_SHORT_BREAK ∨
        c.state = TimerState.PAUSED_LONG_BREAK) ∧
      ∃ paused, lag ≤ paused ∧ paused ≤ offset ∧ c.pausedTime = clockAfter t0 paused ∧
        c.duration - (paused - lag) / 1000 ≤ c.remainingTime))

/-- A one-minute work period with ticks, a pause of 20 s and the tick of its
expiry. -/
def pausedMinute : List (Command × Nat) :=
  [(Command.update, 1500), (Command.update, 30000), (Command.pause, 30500),
    (Command.update, 40000), (Command.resume, 50500), (Command.update, 51000),
    (Command.update, 79999), (Command.update, 80000)]

/-- The sample engine in WindUp with 24 of 25 minutes wound up (wind-up enabled
and started from Idle, 24 steps up). -/
def windupCore : TimerCore :=
  { sampleCore with windupEnabled := true, state := TimerState.WIND_UP, windupValue := 1440 }

/-- The version of `update` that the spec compares with: as `update`, the expiry
decided by the millisecond comparison alone. -/
def updateMsOnly (c : TimerCore) (p : Preferences) (now : Nat) : TimerCore × Preferences :=
  if c.alertActive then updateAlert c p now
  else if c.state = TimerState.WORK ∨ c.state = TimerState.SHORT_BREAK ∨
      c.state = TimerState.LONG_BREAK then
    let elapsed_ms := elapsedMs now c.startTime
    let elapsed_seconds := elapsed_ms / 1000
    let duration_ms := wrap32 (c.duration * 1000)
    if elapsed_ms ≥ duration_ms then
      (startAlert { c with remainingTime := 0 } now, p)
    else
      ({ c with remainingTime :=
          if elapsed_seconds < c.duration then c.duration - elapsed_seconds else 0 }, p)
  else (c, p)

/-- The menu n steps on in one direction. -/
def navigateSteps (c : TimerCore) (direction : Int) : Nat → TimerCore
  | 0 => c
  | n + 1 => navigateSteps (navigateMenu c direction) direction n

/-- An edit that is abandoned: the item is selected at `t0`, the value adjusted by
the steps of `ds` at their clock values, and the menu closed at `t1`. -/
def abandonedEdit (t0 : Nat) (ds : List (Int × Nat)) (t1 : Nat) : List (Command × Nat) :=
  (Command.selectMenuItem, t0) :: ds.map (fun d => (Command.adjustValue d.1, d.2)) ++
    [(Command.closeMenu, t1)]

/-! ## Theorems -/

theorem sampleCore_wellFormed : sampleCore.WellFormed := by decide

/-! ### Ticks of a running period -/

theorem elapsedMs_eq_wrap32 (startTime now : Nat)
    (hs : startTime < 4294967296) (hn : now < 4294967296) :
    elapsedMs now startTime = wrap32 (now - startTime) := by
  unfold elapsedMs wrap32
  split <;> omega

/-- With an alert active, `update` is `updateAlert`. -/
theorem update_of_alertActive (c : TimerCore) (p : Preferences) (now : Nat)
    (halert : c.alertActive = true) : update c p now = updateAlert c p now := by
  simp [update, halert]

/-- The tick of a running period whose time is up. -/
theorem update_expired (c : TimerCore) (p : Preferences) (now : Nat)
    (hs : c.startTime < 4294967296) (hnow : now < 4294967296)
    (halert : c.alertActive = false)
    (hstate : c.state = TimerState.WORK ∨ c.state = TimerState.SHORT_BREAK ∨
      c.state = TimerState.LONG_BREAK)
    (hdur : c.duration * 1000 < 4294967296)
    (h : c.duration * 1000 ≤ wrap32 (now - c.startTime)) :
    update c p now = (startAlert { c with remainingTime := 0 } now, p) := by
  have he := elapsedMs_eq_wrap32 c.startTime now hs hnow
  have hms : wrap32 (c.duration * 1000) = c.duration * 1000 := by
    unfold wrap32; omega
  simp only [update, halert, hstate, he, hms]
  simp [h]

/-- The tick of a running period with time left. -/
theorem update_counting (c : TimerCore) (p : Preferences) (now : Nat)
    (hs : c.startTime < 4294967296) (hnow : now < 4294967296)
    (halert : c.alertActive = false)
    (hstate : c.state = TimerState.WORK ∨ c.state = TimerState.SHORT_BREAK ∨
      c.state = TimerState.LONG_BREAK)
    (hdur : c.duration * 1000 < 4294967296)
    (h : wrap32 (now - c.startTime) < c.duration * 1000) :
    update c p now =
      ({ c with remainingTime := c.duration - wrap32 (now - c.startTime) / 1000 }, p) := by
  have he := elapsedMs_eq_wrap32 c.startTime now hs hnow
  have hms : wrap32 (c.duration * 1000) = c.duration * 1000 := by
    unfold wrap32; omega
  have h1 : ¬ (c.duration * 1000 ≤ wrap32 (now - c.startTime)) := by omega
  have h2 : wrap32 (now - c.startTime) / 1000 < c.duration := by omega
  have h3 : ¬ (c.duration ≤ wrap32 (now - c.startTime) / 1000) := by omega
  simp only [update, halert, hstate, he, hms]
  simp [h1, h2, h3]

/-- C2: for 32-bit `startTime` and `now`, also when `now < startTime`, the elapsed
time that `update` computes with its two branches is `(now - startTime) mod 2^32`. -/
theorem elapsedMs_eq_sub_mod (startTime now : Nat)
    (hs : startTime < 4294967296) (hn : now < 4294967296) :
    (elapsedMs now startTime : Int) = ((now : Int) - (startTime : Int)) % 4294967296 := by
  unfold elapsedMs wrap32
  split <;> omega

/-- Witness of C2 across the wrap: the clock has wrapped from 4294967000 to 500. -/
theorem elapsedMs_eq_sub_mod_witness :
    (elapsedMs 500 4294967000 : Int) = ((500 : Int) - (4294967000 : Int)) % 4294967296 :=
  elapsedMs_eq_sub_mod 4294967000 500 (by decide) (by decide)

/-- C1: a tick of a running period (no alert active, state Work, ShortBreak or
LongBreak, duration at most 255*60 s).  With `e = (now - startTime) mod 2^32`:
when `e >= duration*1000` the engine enters Alert (state Alert, remainingTime 0,
previousState the period that ended, alertActive, alertStartTime = now,
blinkCount 0); otherwise the state stays and `remainingTime = duration - e/1000`,
which lies in `1 .. duration`.  Nothing else changes, the store included. -/
theorem update_running (c : TimerCore) (p : Preferences) (now : Nat)
    (hwf : c.WellFormed) (hnow : now < 4294967296)
    (halert : c.alertActive = false)
    (hstate : c.state = TimerState.WORK ∨ c.state = TimerState.SHORT_BREAK ∨
      c.state = TimerState.LONG_BREAK)
    (hdur : c.duration ≤ 255 * 60) :
    (c.duration * 1000 ≤ wrap32 (now - c.startTime) →
      update c p now =
        ({ c with
            state := TimerState.ALERT
            remainingTime := 0
            previousState := c.state
            alertActive := true
            alertStartTime := now
            blinkCount := 0 }, p)) ∧
    (wrap32 (now - c.startTime) < c.duration * 1000 →
      update c p now =
        ({ c with remainingTime := c.duration - wrap32 (now - c.startTime) / 1000 }, p) ∧
      1 ≤ c.duration - wrap32 (now - c.startTime) / 1000 ∧
      c.duration - wrap32 (now - c.startTime) / 1000 ≤ c.duration) := by
  have hs : c.startTime < 4294967296 := hwf.2.1
  refine ⟨fun h => ?_, fun h => ⟨?_, by omega, by omega⟩⟩
  · rw [update_expired c p now hs hnow halert hstate (by omega) h]
    rfl
  · exact update_counting c p now hs hnow halert hstate (by omega) h

/-- Witness of C1 on the sample engine in Work since clock 0 (duration 1500 s): the
tick at 1500000 ms enters Alert, the tick at 61000 ms leaves 1439 s. -/
theorem update_running_witness :
    workingCore.WellFormed ∧ workingCore.alertActive = false ∧
    workingCore.state = TimerState.WORK ∧ workingCore.duration ≤ 255 * 60 ∧
    (update workingCore Preferences.empty 1500000).1.state = TimerState.ALERT ∧
    (update workingCore Preferences.empty 61000).1.remainingTime = 1439 := by
  have h1 := update_running workingCore Preferences.empty 1500000 (by decide) (by decide)
    rfl (Or.inl rfl) (by decide)
  have h2 := update_running workingCore Preferences.empty 61000 (by decide) (by decide)
    rfl (Or.inl rfl) (by decide)
  refine ⟨by decide, rfl, rfl, by decide, ?_, ?_⟩
  · rw [h1.1 (by decide)]
  · rw [(h2.2 (by decide)).1]
    decide

/-! ### Alert ticks and the start of a break -/

/-- A short break starts while the count of pomodoros since the last long break,
this one included, is below `pomodorosBeforeLongBreak`. -/
theorem startBreak_short (c : TimerCore) (now : Nat)
    (hsb : c.shortBreakDuration < 256)
    (h : c.pomodorosSinceLastLongBreak + 1 < c.pomodorosBeforeLongBreak)
    (hpb : c.pomodorosBeforeLongBreak < 256) :
    startBreak c now =
      { c with
        pomodorosSinceLastLongBreak := c.pomodorosSinceLastLongBreak + 1
        duration := c.shortBreakDuration * 60
        state := TimerState.SHORT_BREAK
        remainingTime := c.shortBreakDuration * 60
        startTime := now } := by
  have h1 : wrap8 (c.pomodorosSinceLastLongBreak + 1) = c.pomodorosSinceLastLongBreak + 1 := by
    unfold wrap8; omega
  have h2 : wrap32 (c.shortBreakDuration * 60) = c.shortBreakDuration * 60 := by
    unfold wrap32; omega
  have h3 : ¬ (c.pomodorosBeforeLongBreak ≤ c.pomodorosSinceLastLongBreak + 1) := by omega
  simp [startBreak, h1, h2, h3]

/-- A long break starts when the count reaches `pomodorosBeforeLongBreak`, and the
count restarts at 0. -/
theorem startBreak_long (c : TimerCore) (now : Nat)
    (hlb : c.longBreakDuration < 256)
    (h : c.pomodorosBeforeLongBreak ≤ c.pomodorosSinceLastLongBreak + 1)
    (hps : c.pomodorosSinceLastLongBreak + 1 < 256) :
    startBreak c now =
      { c with
        pomodorosSinceLastLongBreak := 0
        duration := c.longBreakDuration * 60
        state := TimerState.LONG_BREAK
        remainingTime := c.longBreakDuration * 60
        startTime := now } := by
  have h1 : wrap8 (c.pomodorosSinceLastLongBreak + 1) = c.pomodorosSinceLastLongBreak + 1 := by
    unfold wrap8; omega
  have h2 : wrap32 (c.longBreakDuration * 60) = c.longBreakDuration * 60 := by
    unfold wrap32; omega
  simp [startBreak, h1, h2, h]

/-- The blink phase is 0 or 1, so its conversion to `uint8_t` changes nothing. -/
theorem wrap8_blink (e : Nat) : wrap8 ((e : Int) / 400 % 2) = e / 400 % 2 := by
  unfold wrap8; omega

/-- An alert tick before the alarm is over only updates the blink phase. -/
theorem updateAlert_ringing (c : TimerCore) (p : Preferences) (now : Nat)
    (halert : c.alertActive = true) (had : c.alarmDuration < 256)
    (h : wrap32 (now - c.alertStartTime) < c.alarmDuration * 1000) :
    updateAlert c p now =
      ({ c with blinkCount := wrap32 (now - c.alertStartTime) / 400 % 2 }, p) := by
  have h1 : wrap32 (c.alarmDuration * 1000) = c.alarmDuration * 1000 := by
    unfold wrap32; omega
  have h2 : ¬ (c.alarmDuration * 1000 ≤ wrap32 (now - c.alertStartTime)) := by omega
  have h3 := wrap8_blink (wrap32 (now - c.alertStartTime))
  simp [updateAlert, halert, h1, h2, h3]

/-- The alert tick that ends the alarm after a work period, current task within
the counter arrays: both completion counters go up, the engine is saved, the break
starts. -/
theorem updateAlert_work_done (c : TimerCore) (p : Preferences) (now : Nat)
    (halert : c.alertActive = true) (had : c.alarmDuration < 256)
    (h : c.alarmDuration * 1000 ≤ wrap32 (now - c.alertStartTime))
    (hprev : c.previousState = TimerState.WORK) (htask : c.currentTaskId < MAX_TASKS) :
    updateAlert c p now =
      (startBreak
        { c with
          blinkCount := wrap32 (now - c.alertStartTime) / 400 % 2
          alertActive := false
          completedPomodoros :=
            c.completedPomodoros.set c.currentTaskId
              ((c.completedPomodoros.getD c.currentTaskId 0 + 1) % 256)
          completedSessions := (c.completedSessions + 1) % 256 } now,
       saveState
        { c with
          blinkCount := wrap32 (now - c.alertStartTime) / 400 % 2
          alertActive := false
          completedPomodoros :=
            c.completedPomodoros.set c.currentTaskId
              ((c.completedPomodoros.getD c.currentTaskId 0 + 1) % 256)
          completedSessions := (c.completedSessions + 1) % 256 } p) := by
  have h1 : wrap32 (c.alarmDuration * 1000) = c.alarmDuration * 1000 := by
    unfold wrap32; omega
  have h3 := wrap8_blink (wrap32 (now - c.alertStartTime))
  have h4 : ∀ n : Nat, wrap8 ((n : Int) + 1) = (n + 1) % 256 := by
    intro n; unfold wrap8; omega
  simp [updateAlert, halert, h1, h, h3, h4, hprev, htask]

/-- The same tick with a current task outside the counter arrays: no counter
changes and nothing is saved, the break starts all the same. -/
theorem updateAlert_work_done_untracked (c : TimerCore) (p : Preferences) (now : Nat)
    (halert : c.alertActive = true) (had : c.alarmDuration < 256)
    (h : c.alarmDuration * 1000 ≤ wrap32 (now - c.alertStartTime))
    (hprev : c.previousState = TimerState.WORK) (htask : MAX_TASKS ≤ c.currentTaskId) :
    updateAlert c p now =
      (startBreak
        { c with
          blinkCount := wrap32 (now - c.alertStartTime) / 400 % 2
          alertActive := false } now, p) := by
  have h1 : wrap32 (c.alarmDuration * 1000) = c.alarmDuration * 1000 := by
    unfold wrap32; omega
  have h3 := wrap8_blink (wrap32 (now - c.alertStartTime))
  have h5 : ¬ (c.currentTaskId < MAX_TASKS) := by omega
  simp [updateAlert, halert, h1, h, h3, hprev, h5]

/-- The alert tick that ends the alarm after a break: back to Idle. -/
theorem updateAlert_break_done (c : TimerCore) (p : Preferences) (now : Nat)
    (halert : c.alertActive = true) (had : c.alarmDuration < 256)
    (h : c.alarmDuration * 1000 ≤ wrap32 (now - c.alertStartTime))
    (hprev : c.previousState ≠ TimerState.WORK) :
    updateAlert c p now =
      ({ c with
          blinkCount := wrap32 (now - c.alertStartTime) / 400 % 2
          alertActive := false
          state := TimerState.IDLE
          remainingTime := 0 }, p) := by
  have h1 : wrap32 (c.alarmDuration * 1000) = c.alarmDuration * 1000 := by
    unfold wrap32; omega
  have h3 := wrap8_blink (wrap32 (now - c.alertStartTime))
  simp [updateAlert, halert, h1, h, h3, hprev]

/-! ### A work period from start to break -/

/-- The engine that `workToAlert` leaves: Alert, entered from Work. -/
theorem workToAlert_eq (c : TimerCore) (p : Preferences) (t0 : Nat)
    (hw : c.workDuration < 256) (ht0 : t0 < 4294967296)
    (halert : c.alertActive = false) :
    workToAlert c p t0 =
      ({ c with
          duration := c.workDuration * 60
          startTime := t0
          remainingTime := 0
          previousState := TimerState.WORK
          state := TimerState.ALERT
          alertStartTime := clockAfter t0 (c.workDuration * 60 * 1000)
          alertActive := true
          blinkCount := 0 }, p) := by
  have hd : wrap32 (c.workDuration * 60) = c.workDuration * 60 := by
    unfold wrap32; omega
  have hn : clockAfter t0 (c.workDuration * 60 * 1000) < 4294967296 := by
    unfold clockAfter wrap32; omega
  unfold workToAlert
  rw [update_expired _ p _ (by simpa [startWork] using ht0) hn
    (by simpa [startWork] using halert) (Or.inl (by simp [startWork]))
    (by simp only [startWork, hd]; omega)
    (by simp only [startWork, hd]; unfold clockAfter wrap32; omega)]
  simp [startWork, startAlert, hd]

/-- The alert tick of `workToBreak` comes exactly `alarmDuration*1000` ms after the
alert began. -/
theorem clockAfter_elapsed (t ms : Nat) (ht : t < 4294967296) (hms : ms < 4294967296) :
    wrap32 ((clockAfter t ms : Nat) - (t : Nat)) = ms := by
  unfold clockAfter wrap32; omega

theorem clockAfter_lt (t ms : Nat) : clockAfter t ms < 4294967296 := by
  unfold clockAfter wrap32; omega

/-- The completion tick of `workToBreak`, as an `updateAlert` of the Alert engine. -/
theorem workToBreak_eq_updateAlert (c : TimerCore) (p : Preferences) (t0 : Nat)
    (hw : c.workDuration < 256) (ht0 : t0 < 4294967296)
    (halert : c.alertActive = false) :
    workToBreak c p t0 =
      updateAlert
        { c with
          duration := c.workDuration * 60
          startTime := t0
          remainingTime := 0
          previousState := TimerState.WORK
          state := TimerState.ALERT
          alertStartTime := clockAfter t0 (c.workDuration * 60 * 1000)
          alertActive := true
          blinkCount := 0 } p
        (clockAfter (clockAfter t0 (c.workDuration * 60 * 1000)) (c.alarmDuration * 1000)) := by
  unfold workToBreak
  rw [workToAlert_eq c p t0 hw ht0 halert, update_of_alertActive _ _ _ rfl]

/-- C3: end-to-end work completion.  With no alert active, a valid current task
whose completed count is below 255 and a long break not yet due: `startWork()` at
`t0`, a tick `workDuration*60*1000` ms later (Alert, remainingTime 0) and a tick
`alarmDuration*1000` ms after that give ShortBreak with
`remainingTime = shortBreakDuration*60` and one more completed pomodoro for the
current task.  Clock values are taken modulo `2^32`. -/
theorem work_completion_end_to_end (c : TimerCore) (p : Preferences) (t0 : Nat)
    (hwf : c.WellFormed) (ht0 : t0 < 4294967296)
    (halert : c.alertActive = false)
    (htask : c.currentTaskId < MAX_TASKS)
    (hcount : c.completedPomodoros.getD c.currentTaskId 0 < 255)
    (hlong : c.pomodorosSinceLastLongBreak + 1 < c.pomodorosBeforeLongBreak) :
    (workToAlert c p t0).1.state = TimerState.ALERT ∧
    (workToAlert c p t0).1.remainingTime = 0 ∧
    (workToBreak c p t0).1.state = TimerState.SHORT_BREAK ∧
    (workToBreak c p t0).1.remainingTime = c.shortBreakDuration * 60 ∧
    (workToBreak c p t0).1.currentTaskId = c.currentTaskId ∧
    (workToBreak c p t0).1.completedPomodoros.getD c.currentTaskId 0 =
      c.completedPomodoros.getD c.currentTaskId 0 + 1 := by
  rcases hwf with ⟨hEV, hST, hPT, hRT, hD, hIST, hWD, hSBD, hLBD, hCS, hPB, hPS, hITB,
    hITU, hBL, hTH, hAD, hAST, hBC, hCT, hTT, hCPl, hIPl, hCPb, hIPb, hWV⟩
  have ha := workToAlert_eq c p t0 hWD ht0 halert
  refine ⟨by rw [ha], by rw [ha], ?_⟩
  have hel := clockAfter_elapsed (clockAfter t0 (c.workDuration * 60 * 1000))
    (c.alarmDuration * 1000) (clockAfter_lt _ _) (by omega)
  have hidx : c.currentTaskId < c.completedPomodoros.length := by rw [hCPl]; exact htask
  rw [workToBreak_eq_updateAlert c p t0 hWD ht0 halert, updateAlert_work_done,
    startBreak_short]
  · refine ⟨rfl, rfl, rfl, ?_⟩
    simp only [List.getD_eq_getElem?_getD, List.getElem?_set_self hidx,
      Option.getD_some] at hcount ⊢
    omega
  · exact hSBD
  · exact hlong
  · exact hPB
  · rfl
  · exact hAD
  · exact le_of_eq hel.symm
  · rfl
  · exact htask

/-- Witness of C3, the scenario of the spec: the sample engine (workDuration 25,
alarmDuration 2, shortBreakDuration 5, four pomodoros before a long break, none
counted) started at clock 0 is in ShortBreak with 300 s left after the tick at
1502000 ms, with one completed pomodoro for task 0. -/
theorem work_completion_end_to_end_witness :
    sampleCore.WellFormed ∧ sampleCore.alertActive = false ∧
    sampleCore.currentTaskId < MAX_TASKS ∧
    (workToAlert sampleCore Preferences.empty 0).1.state = TimerState.ALERT ∧
    (workToBreak sampleCore Preferences.empty 0).1.state = TimerState.SHORT_BREAK ∧
    (workToBreak sampleCore Preferences.empty 0).1.remainingTime = 300 ∧
    (workToBreak sampleCore Preferences.empty 0).1.completedPomodoros.getD 0 0 = 1 := by
  have h := work_completion_end_to_end sampleCore Preferences.empty 0 (by decide)
    (by decide) rfl (by decide) (by decide) (by decide)
  exact ⟨by decide, rfl, by decide, h.1, h.2.2.1, h.2.2.2.1, h.2.2.2.2.2⟩

/-! ### C4: alert ticks -/

/-- Counterexample to C4 as stated: with the current task id outside the counter
arrays (255, after `setTotalTasks(0)`), the tick that ends the alarm of a work
period increments neither `completedSessions` nor any per-task counter and saves
nothing; only the break starts. -/
theorem update_alert_untracked_counterexample :
    strayAlertCore.WellFormed ∧ strayAlertCore.alertActive = true ∧
    strayAlertCore.previousState = TimerState.WORK ∧
    strayAlertCore.alarmDuration * 1000 ≤ wrap32 (1502000 - strayAlertCore.alertStartTime) ∧
    (update strayAlertCore Preferences.empty 1502000).1.completedSessions ≠
      (strayAlertCore.completedSessions + 1) % 256 ∧
    (update strayAlertCore Preferences.empty 1502000).1.completedPomodoros =
      strayAlertCore.completedPomodoros ∧
    (update strayAlertCore Preferences.empty 1502000).2 "totalTasks" = none ∧
    (update strayAlertCore Preferences.empty 1502000).1.state = TimerState.SHORT_BREAK := by
  have h : update strayAlertCore Preferences.empty 1502000 =
      (startBreak { strayAlertCore with
        blinkCount := wrap32 (1502000 - strayAlertCore.alertStartTime) / 400 % 2
        alertActive := false } 1502000, Preferences.empty) := by
    rw [update_of_alertActive _ _ _ rfl]
    exact updateAlert_work_done_untracked strayAlertCore Preferences.empty 1502000 rfl
      (by decide) (by decide) rfl (by decide)
  rw [h]
  exact ⟨by decide, rfl, rfl, by decide, by decide, by decide, rfl, by decide⟩

/-- C4 (amended): a tick with the alert active.  With
`e = (now - alertStartTime) mod 2^32` the blink phase becomes `(e / 400) mod 2`.
While `e < alarmDuration*1000` nothing else changes.  From `e >= alarmDuration*1000`
on the alert ends (`alertActive = false`) and: after a work period with
`currentTaskId < MAX_TASKS`, `completedPomodoros[currentTaskId]` and
`completedSessions` go up by 1 modulo 256, the engine is saved and `startBreak` is
applied; after a work period with `currentTaskId >= MAX_TASKS` no counter changes
and nothing is saved, `startBreak` is applied all the same; after a break the state
becomes Idle with `remainingTime = 0` and no counter changes. -/
theorem update_alert (c : TimerCore) (p : Preferences) (now : Nat)
    (hwf : c.WellFormed) (halert : c.alertActive = true) :
    (wrap32 (now - c.alertStartTime) < c.alarmDuration * 1000 →
      update c p now =
        ({ c with blinkCount := wrap32 (now - c.alertStartTime) / 400 % 2 }, p)) ∧
    (c.alarmDuration * 1000 ≤ wrap32 (now - c.alertStartTime) →
      c.previousState = TimerState.WORK → c.currentTaskId < MAX_TASKS →
      update c p now =
        (startBreak
          { c with
            blinkCount := wrap32 (now - c.alertStartTime) / 400 % 2
            alertActive := false
            completedPomodoros :=
              c.completedPomodoros.set c.currentTaskId
                ((c.completedPomodoros.getD c.currentTaskId 0 + 1) % 256)
            completedSessions := (c.completedSessions + 1) % 256 } now,
         saveState
          { c with
            blinkCount := wrap32 (now - c.alertStartTime) / 400 % 2
            alertActive := false
            completedPomodoros :=
              c.completedPomodoros.set c.currentTaskId
                ((c.completedPomodoros.getD c.currentTaskId 0 + 1) % 256)
            completedSessions := (c.completedSessions + 1) % 256 } p)) ∧
    (c.alarmDuration * 1000 ≤ wrap32 (now - c.alertStartTime) →
      c.previousState = TimerState.WORK → MAX_TASKS ≤ c.currentTaskId →
      update c p now =
        (startBreak
          { c with
            blinkCount := wrap32 (now - c.alertStartTime) / 400 % 2
            alertActive := false } now, p)) ∧
    (c.alarmDuration * 1000 ≤ wrap32 (now - c.alertStartTime) →
      c.previousState ≠ TimerState.WORK →
      update c p now =
        ({ c with
            blinkCount := wrap32 (now - c.alertStartTime) / 400 % 2
            alertActive := false
            state := TimerState.IDLE
            remainingTime := 0 }, p)) := by
  have had : c.alarmDuration < 256 := hwf.2.2.2.2.2.2.2.2.2.2.2.2.2.2.2.2.1
  rw [update_of_alertActive c p now halert]
  exact ⟨fun h => updateAlert_ringing c p now halert had h,
    fun h hp ht => updateAlert_work_done c p now halert had h hp ht,
    fun h hp ht => updateAlert_work_done_untracked c p now halert had h hp ht,
    fun h hp => updateAlert_break_done c p now halert had h hp⟩

/-- Witness of C4 (amended) on the sample engine in Alert since 1500000 ms: the tick
at 1500900 ms shows blink phase 0 of the third 400 ms interval and keeps Alert, the
tick at 1502000 ms starts the short break with one completed session. -/
theorem update_alert_witness :
    alertCore.WellFormed ∧ alertCore.alertActive = true ∧
    (update alertCore Preferences.empty 1500900).1.blinkCount = 0 ∧
    (update alertCore Preferences.empty 1500900).1.state = TimerState.ALERT ∧
    (update alertCore Preferences.empty 1502000).1.state = TimerState.SHORT_BREAK ∧
    (update alertCore Preferences.empty 1502000).1.completedSessions = 1 := by
  have h := update_alert alertCore Preferences.empty 1500900 (by decide) rfl
  have h2 := update_alert alertCore Preferences.empty 1502000 (by decide) rfl
  refine ⟨by decide, rfl, ?_, ?_, ?_, ?_⟩
  · rw [h.1 (by decide)]; decide
  · rw [h.1 (by decide)]; decide
  · rw [h2.2.1 (by decide) rfl (by decide)]; decide
  · rw [h2.2.1 (by decide) rfl (by decide)]; decide

/-! ### C5: pause and resume -/

/-- A tick of a running period without alert, as a function of the elapsed time. -/
theorem update_active_eq (c : TimerCore) (p : Preferences) (now : Nat)
    (halert : c.alertActive = false)
    (hstate : c.state = TimerState.WORK ∨ c.state = TimerState.SHORT_BREAK ∨
      c.state = TimerState.LONG_BREAK) :
    update c p now =
      if elapsedMs now c.startTime ≥ wrap32 (c.duration * 1000) ∨
          elapsedMs now c.startTime / 1000 ≥ c.duration then
        (startAlert { c with remainingTime := 0 } now, p)
      else
        ({ c with remainingTime :=
            if elapsedMs now c.startTime / 1000 < c.duration then
              c.duration - elapsedMs now c.startTime / 1000
            else 0 }, p) := by
  simp [update, halert, hstate]

/-- Pause at `tp`, resume at `tr`: only `pausedTime` and `startTime` differ. -/
theorem resume_pause_eq (c : TimerCore) (tp tr : Nat)
    (hstate : c.state = TimerState.WORK ∨ c.state = TimerState.SHORT_BREAK ∨
      c.state = TimerState.LONG_BREAK) :
    resume (pause c tp) tr =
      { c with
        pausedTime := tp
        startTime := wrap32 (c.startTime + wrap32 (tr - tp)) } := by
  rcases hstate with h | h | h <;> simp [pause, resume, h]

/-- The elapsed time `d` ms after the resume equals the elapsed time `d` ms after
the pause on the engine that kept running. -/
theorem elapsedMs_after_resume (startTime tp tr d : Nat)
    (hs : startTime < 4294967296) (hp : tp < 4294967296) (hr : tr < 4294967296) :
    elapsedMs (clockAfter tr d) (wrap32 (startTime + wrap32 (tr - tp))) =
      elapsedMs (clockAfter tp d) startTime := by
  rw [elapsedMs_eq_wrap32 _ _ (by unfold wrap32; omega) (clockAfter_lt _ _),
    elapsedMs_eq_wrap32 _ _ hs (clockAfter_lt _ _)]
  unfold clockAfter wrap32
  omega

/-- Counterexample to C5 as stated: the sample engine in Work with the alert of
the period before still active (`startWork()` during the alarm).  Paused at
1500000 ms and resumed at 1503000 ms, its next tick ends the alarm and starts a
short break; the engine that was never paused is still in Work at the
corresponding tick. -/
theorem pause_resume_alert_counterexample :
    restartedCore.WellFormed ∧ restartedCore.state = TimerState.WORK ∧
    (update (resume (pause restartedCore 1500000) 1503000) Preferences.empty
      (clockAfter 1503000 0)).1.state = TimerState.SHORT_BREAK ∧
    (update restartedCore Preferences.empty (clockAfter 1500000 0)).1.state
      = TimerState.WORK ∧
    (update (resume (pause restartedCore 1500000) 1503000) Preferences.empty
      (clockAfter 1503000 0)).1.remainingTime = 300 ∧
    (update restartedCore Preferences.empty (clockAfter 1500000 0)).1.remainingTime
      = 1500 := by
  decide

/-- C5 (amended): pause/resume is time-neutral.  For every engine in Work,
ShortBreak or LongBreak, `pause()` at `tp` then `resume()` at `tr` returns to the
same state with `startTime` advanced by `(tr - tp) mod 2^32` (modulo `2^32`) and
`duration`, `remainingTime` and all else but `pausedTime` unchanged; and when no
alert is active, for every `d` the tick at `tr + d` after the pause/resume gives the
same state and remainingTime as the tick at `tp + d` on the engine never paused. -/
theorem pause_resume_time_neutral (c : TimerCore) (p : Preferences) (tp tr : Nat)
    (hwf : c.WellFormed) (hp : tp < 4294967296) (hr : tr < 4294967296)
    (hstate : c.state = TimerState.WORK ∨ c.state = TimerState.SHORT_BREAK ∨
      c.state = TimerState.LONG_BREAK) :
    resume (pause c tp) tr =
      { c with
        pausedTime := tp
        startTime := wrap32 (c.startTime + wrap32 (tr - tp)) } ∧
    (c.alertActive = false → ∀ d : Nat,
      (update (resume (pause c tp) tr) p (clockAfter tr d)).1.state =
        (update c p (clockAfter tp d)).1.state ∧
      (update (resume (pause c tp) tr) p (clockAfter tr d)).1.remainingTime =
        (update c p (clockAfter tp d)).1.remainingTime) := by
  have hs : c.startTime < 4294967296 := hwf.2.1
  refine ⟨resume_pause_eq c tp tr hstate, fun halert d => ?_⟩
  rw [resume_pause_eq c tp tr hstate,
    update_active_eq _ p _ (by simpa using halert) (by simpa using hstate),
    update_active_eq c p _ halert hstate]
  simp only [elapsedMs_after_resume c.startTime tp tr d hs hp hr]
  split <;> simp [startAlert]

/-- Witness of C5 (amended): the sample engine in Work since clock 0, paused at
60000 ms for 100 s; 5 s after the resume 1435 s remain, as 5 s after the pause
without it. -/
theorem pause_resume_time_neutral_witness :
    workingCore.WellFormed ∧ workingCore.state = TimerState.WORK ∧
    workingCore.alertActive = false ∧
    (resume (pause workingCore 60000) 160000).startTime = 100000 ∧
    (update (resume (pause workingCore 60000) 160000) Preferences.empty
      (clockAfter 160000 5000)).1.remainingTime = 1435 := by
  have h := pause_resume_time_neutral workingCore Preferences.empty 60000 160000
    (by decide) (by decide) (by decide) (Or.inl rfl)
  refine ⟨by decide, rfl, rfl, ?_, ?_⟩
  · rw [h.1]; decide
  · rw [(h.2 rfl 5000).2]; decide

/-! ### C6: long-break cadence -/

/-- One completed work period: the settings stay, and the break is short while the
count stays below `pomodorosBeforeLongBreak`, long (count back to 0) otherwise. -/
theorem workToBreak_round (c : TimerCore) (p : Preferences) (t : Nat)
    (hr : RoundReady c) (ht : t < 4294967296)
    (hps : c.pomodorosSinceLastLongBreak + 1 < 256) :
    RoundReady (workToBreak c p t).1 ∧
    (workToBreak c p t).1.shortBreakDuration = c.shortBreakDuration ∧
    (workToBreak c p t).1.longBreakDuration = c.longBreakDuration ∧
    (workToBreak c p t).1.pomodorosBeforeLongBreak = c.pomodorosBeforeLongBreak ∧
    (c.pomodorosSinceLastLongBreak + 1 < c.pomodorosBeforeLongBreak →
      (workToBreak c p t).1.state = TimerState.SHORT_BREAK ∧
      (workToBreak c p t).1.duration = c.shortBreakDuration * 60 ∧
      (workToBreak c p t).1.remainingTime = c.shortBreakDuration * 60 ∧
      (workToBreak c p t).1.pomodorosSinceLastLongBreak =
        c.pomodorosSinceLastLongBreak + 1) ∧
    (c.pomodorosBeforeLongBreak ≤ c.pomodorosSinceLastLongBreak + 1 →
      (workToBreak c p t).1.state = TimerState.LONG_BREAK ∧
      (workToBreak c p t).1.duration = c.longBreakDuration * 60 ∧
      (workToBreak c p t).1.remainingTime = c.longBreakDuration * 60 ∧
      (workToBreak c p t).1.pomodorosSinceLastLongBreak = 0) := by
  obtain ⟨halert, hWD, hAD, hSBD, hLBD, hPB⟩ := hr
  have hel := clockAfter_elapsed (clockAfter t (c.workDuration * 60 * 1000))
    (c.alarmDuration * 1000) (clockAfter_lt _ _) (by omega)
  rw [workToBreak_eq_updateAlert c p t hWD ht halert]
  by_cases htask : c.currentTaskId < MAX_TASKS
  · rw [updateAlert_work_done]
    · by_cases hlong : c.pomodorosSinceLastLongBreak + 1 < c.pomodorosBeforeLongBreak
      · rw [startBreak_short]
        · exact ⟨⟨rfl, hWD, hAD, hSBD, hLBD, hPB⟩, rfl, rfl, rfl,
            fun _ => ⟨rfl, rfl, rfl, rfl⟩, fun h => absurd hlong (by omega)⟩
        · exact hSBD
        · exact hlong
        · exact hPB
      · rw [startBreak_long]
        · exact ⟨⟨rfl, hWD, hAD, hSBD, hLBD, hPB⟩, rfl, rfl, rfl,
            fun h => absurd h hlong, fun _ => ⟨rfl, rfl, rfl, rfl⟩⟩
        · exact hLBD
        · exact not_lt.mp hlong
        · exact hps
    · rfl
    · exact hAD
    · exact le_of_eq hel.symm
    · rfl
    · exact htask
  · rw [updateAlert_work_done_untracked]
    · by_cases hlong : c.pomodorosSinceLastLongBreak + 1 < c.pomodorosBeforeLongBreak
      · rw [startBreak_short]
        · exact ⟨⟨rfl, hWD, hAD, hSBD, hLBD, hPB⟩, rfl, rfl, rfl,
            fun _ => ⟨rfl, rfl, rfl, rfl⟩, fun h => absurd hlong (by omega)⟩
        · exact hSBD
        · exact hlong
        · exact hPB
      · rw [startBreak_long]
        · exact ⟨⟨rfl, hWD, hAD, hSBD, hLBD, hPB⟩, rfl, rfl, rfl,
            fun h => absurd h hlong, fun _ => ⟨rfl, rfl, rfl, rfl⟩⟩
        · exact hLBD
        · exact not_lt.mp hlong
        · exact hps
    · rfl
    · exact hAD
    · exact le_of_eq hel.symm
    · rfl
    · exact not_lt.mp htask

/-- The cadence from any count below the threshold: after the rounds of a
non-empty list that does not pass the threshold, the engine is in the short break
of the last round, or in the long break when the threshold is reached. -/
theorem workRounds_cadence (ts : List Nat) :
    ∀ (c : TimerCore) (p : Preferences), RoundReady c → (∀ t ∈ ts, t < 4294967296) →
      ts ≠ [] → c.pomodorosSinceLastLongBreak + ts.length ≤ c.pomodorosBeforeLongBreak →
      (c.pomodorosSinceLastLongBreak + ts.length < c.pomodorosBeforeLongBreak →
        (workRounds c p ts).1.state = TimerState.SHORT_BREAK ∧
        (workRounds c p ts).1.duration = c.shortBreakDuration * 60 ∧
        (workRounds c p ts).1.remainingTime = c.shortBreakDuration * 60) ∧
      (c.pomodorosSinceLastLongBreak + ts.length = c.pomodorosBeforeLongBreak →
        (workRounds c p ts).1.state = TimerState.LONG_BREAK ∧
        (workRounds c p ts).1.duration = c.longBreakDuration * 60 ∧
        (workRounds c p ts).1.remainingTime = c.longBreakDuration * 60 ∧
        (workRounds c p ts).1.pomodorosSinceLastLongBreak = 0) := by
  induction ts with
  | nil => intro c p _ _ hne; exact absurd rfl hne
  | cons t ts ih =>
    intro c p hr hts _ hlen
    have hPB : c.pomodorosBeforeLongBreak < 256 := hr.2.2.2.2.2
    simp only [List.length_cons] at hlen ⊢
    obtain ⟨hr1, hsb, hlb, hpb, hshort, hlong⟩ :=
      workToBreak_round c p t hr (hts t (List.mem_cons_self _ _)) (by omega)
    cases ts with
    | nil =>
      simp only [workRounds, List.length_nil]
      exact ⟨fun h => by
          obtain ⟨h1, h2, h3, _⟩ := hshort (by simpa using h)
          exact ⟨h1, h2, h3⟩,
        fun h => hlong (by simp at h; omega)⟩
    | cons u us =>
      simp only [List.length_cons] at hlen
      obtain ⟨_, _, _, hcount⟩ := hshort (by omega)
      have := ih (workToBreak c p t).1 (workToBreak c p t).2 hr1
        (fun x hx => hts x (List.mem_cons_of_mem _ hx)) (List.cons_ne_nil _ _)
        (by rw [hcount, hpb]; simp only [List.length_cons]; omega)
      rw [hcount, hpb, hsb, hlb] at this
      simp only [List.length_cons] at this ⊢
      refine ⟨fun h => this.1 (by omega), fun h => this.2 (by omega)⟩

/-- C6: long-break cadence.  From `pomodorosSinceLastLongBreak = 0` with
`pomodorosBeforeLongBreak = N >= 1`, `N` work periods completed in a row (each
started by `startWork()`, expired, and completed by the tick that ends its alarm,
which calls `startBreak`) leave the engine in ShortBreak with
`duration = remainingTime = shortBreakDuration*60` after each of the first `N-1`
and in LongBreak with `duration = remainingTime = longBreakDuration*60` and
`pomodorosSinceLastLongBreak = 0` after the `N`-th. -/
theorem long_break_cadence (c : TimerCore) (p : Preferences) (ts : List Nat)
    (hwf : c.WellFormed) (halert : c.alertActive = false)
    (hzero : c.pomodorosSinceLastLongBreak = 0)
    (_hN : 1 ≤ c.pomodorosBeforeLongBreak)
    (hlen : ts.length = c.pomodorosBeforeLongBreak)
    (hts : ∀ t ∈ ts, t < 4294967296) :
    ∀ k, k < c.pomodorosBeforeLongBreak →
      (k + 1 < c.pomodorosBeforeLongBreak →
        (workRounds c p (ts.take (k + 1))).1.state = TimerState.SHORT_BREAK ∧
        (workRounds c p (ts.take (k + 1))).1.duration = c.shortBreakDuration * 60 ∧
        (workRounds c p (ts.take (k + 1))).1.remainingTime = c.shortBreakDuration * 60) ∧
      (k + 1 = c.pomodorosBeforeLongBreak →
        (workRounds c p (ts.take (k + 1))).1.state = TimerState.LONG_BREAK ∧
        (workRounds c p (ts.take (k + 1))).1.duration = c.longBreakDuration * 60 ∧
        (workRounds c p (ts.take (k + 1))).1.remainingTime = c.longBreakDuration * 60 ∧
        (workRounds c p (ts.take (k + 1))).1.pomodorosSinceLastLongBreak = 0) := by
  intro k hk
  rcases hwf with ⟨hEV, hST, hPT, hRT, hD, hIST, hWD, hSBD, hLBD, hCS, hPB, hPS, hITB,
    hITU, hBL, hTH, hAD, hAST, hBC, hCT, hTT, hCPl, hIPl, hCPb, hIPb, hWV⟩
  have hl : (ts.take (k + 1)).length = k + 1 := by
    rw [List.length_take]; omega
  have hne : ts.take (k + 1) ≠ [] := by
    intro h; rw [h] at hl; simp at hl
  have := workRounds_cadence (ts.take (k + 1)) c p ⟨halert, hWD, hAD, hSBD, hLBD, hPB⟩
    (fun t h => hts t (List.mem_of_mem_take h)) hne (by rw [hl, hzero]; omega)
  rw [hl, hzero] at this
  exact ⟨fun h => this.1 (by omega), fun h => this.2 (by omega)⟩

/-- Witness of C6 on the sample engine (`N = 4`): work started at 0, 2000000,
4000000 and 6000000 ms; short breaks of 300 s after the first three completions, a
long break of 900 s after the fourth. -/
theorem long_break_cadence_witness :
    sampleCore.WellFormed ∧ sampleCore.pomodorosSinceLastLongBreak = 0 ∧
    sampleCore.pomodorosBeforeLongBreak = 4 ∧
    (workRounds sampleCore Preferences.empty [0, 2000000, 4000000]).1.state
      = TimerState.SHORT_BREAK ∧
    (workRounds sampleCore Preferences.empty [0, 2000000, 4000000, 6000000]).1.state
      = TimerState.LONG_BREAK ∧
    (workRounds sampleCore Preferences.empty
      [0, 2000000, 4000000, 6000000]).1.remainingTime = 900 ∧
    (workRounds sampleCore Preferences.empty
      [0, 2000000, 4000000, 6000000]).1.pomodorosSinceLastLongBreak = 0 := by
  have h := long_break_cadence sampleCore Preferences.empty [0, 2000000, 4000000, 6000000]
    (by decide) rfl rfl (by decide) rfl (by decide)
  exact ⟨by decide, rfl, rfl, ((h 2 (by decide)).1 (by decide)).1,
    ((h 3 (by decide)).2 rfl).1, ((h 3 (by decide)).2 rfl).2.2.1,
    ((h 3 (by decide)).2 rfl).2.2.2⟩

/-! ### C7: idle timeout -/

/-- C7: `checkIdleTimeout(v)` returns true exactly when the state is Idle, not
(USB-powered with `sleepOnUSB = false`), and `(now - idleStartTime) mod 2^32` has
reached `T*60*1000` ms, `T` being `idleTimeoutUSB` when `v > 5.0` and
`idleTimeoutBattery` otherwise.  It sets `idleStartTime = now` when the state is
not Idle and changes nothing when it is. -/
theorem checkIdleTimeout_spec (c : TimerCore) (now : Nat) (v : ℚ)
    (hwf : c.WellFormed) :
    ((checkIdleTimeout c now v).1 = true ↔
      c.state = TimerState.IDLE ∧ ¬ (v > 5 ∧ c.sleepOnUSB = false) ∧
      wrap32 (now - c.idleStartTime) ≥
        (if v > 5 then c.idleTimeoutUSB else c.idleTimeoutBattery) * 60 * 1000) ∧
    (c.state ≠ TimerState.IDLE →
      (checkIdleTimeout c now v).2 = { c with idleStartTime := now }) ∧
    (c.state = TimerState.IDLE → (checkIdleTimeout c now v).2 = c) := by
  rcases hwf with ⟨hEV, hST, hPT, hRT, hD, hIST, hWD, hSBD, hLBD, hCS, hPB, hPS, hITB,
    hITU, hBL, hTH, hAD, hAST, hBC, hCT, hTT, hCPl, hIPl, hCPb, hIPb, hWV⟩
  have hu : wrap32 (c.idleTimeoutUSB * 60 * 1000) = c.idleTimeoutUSB * 60 * 1000 := by
    unfold wrap32; omega
  have hb : wrap32 (c.idleTimeoutBattery * 60 * 1000) = c.idleTimeoutBattery * 60 * 1000 := by
    unfold wrap32; omega
  by_cases hs : c.state = TimerState.IDLE
  · by_cases hv : v > 5
    · cases hsl : c.sleepOnUSB <;>
        simp [checkIdleTimeout, isOnUSBPower, hs, hv, hsl, hu]
    · simp [checkIdleTimeout, isOnUSBPower, hs, hv, hb]
  · simp [checkIdleTimeout, resetIdleTimer, hs]

/-- Witness of C7 on the sample engine, idle since clock 0 with 5 min on battery:
at 300000 ms on 4 V it is time to sleep and the engine is unchanged; the engine in
Work has its idle timer reset instead. -/
theorem checkIdleTimeout_spec_witness :
    sampleCore.WellFormed ∧
    (checkIdleTimeout sampleCore 300000 4).1 = true ∧
    (checkIdleTimeout sampleCore 300000 4).2 = sampleCore ∧
    (checkIdleTimeout workingCore 77 4).2.idleStartTime = 77 := by
  have h2 := checkIdleTimeout_spec sampleCore 300000 4 (by decide)
  have h5 := checkIdleTimeout_spec workingCore 77 4 (by decide)
  refine ⟨by decide, ?_, h2.2.2 rfl, ?_⟩
  · refine h2.1.mpr ⟨rfl, ?_, ?_⟩
    · norm_num
    · have h45 : ¬ ((4 : ℚ) > 5) := by norm_num
      rw [if_neg h45]
      decide
  · rw [h5.2.1 (by decide)]

/-! ### C8, C9: the clamp table -/

/-- C8 (clamp table conformance for every signed 8-bit step) fails on the
brightness item: from the in-range value 6 the step `+2` gives 8, and from 1 the
step `-2` wraps to 255, both outside the documented `0..7`. -/
theorem adjustValue_brightness_out_of_range :
    brightnessEditCore.WellFormed ∧
    inClampRange MenuItem.BRIGHTNESS brightnessEditCore.editingValue ∧
    (adjustValue brightnessEditCore 2).editingValue = 8 ∧
    ¬ inClampRange MenuItem.BRIGHTNESS (adjustValue brightnessEditCore 2).editingValue ∧
    (adjustValue { brightnessEditCore with editingValue := 1 } (-2)).editingValue = 255 := by
  decide

/-- Range conformance where it holds: every item but the brightness stays in its
documented range for every `int8_t` step, and the brightness does for the steps
-1, 0 and +1. -/
theorem adjustValue_in_range (c : TimerCore) (d : Int)
    (hedit : c.menuState = MenuState.EDITING_VALUE)
    (hd : -128 ≤ d ∧ d ≤ 127)
    (hv : inClampRange c.currentMenuItem c.editingValue)
    (hb : c.currentMenuItem = MenuItem.BRIGHTNESS → -1 ≤ d ∧ d ≤ 1) :
    inClampRange c.currentMenuItem (adjustValue c d).editingValue ∧
    (adjustValue c d).currentMenuItem = c.currentMenuItem := by
  cases hitem : c.currentMenuItem <;>
    simp only [hitem, inClampRange, clampRange, isToggle, adjustValue, hedit, stepU8,
      stepInt16, wrap8, wrapInt16, MAX_TASKS, ne_eq, not_true_eq_false, if_false,
      reduceCtorEq, forall_true_left, forall_false, false_implies, implies_true,
      and_true] at hv hb ⊢ <;>
    first
      | trivial
      | omega
      | (split_ifs <;> omega)
      | (split_ifs <;> exact ⟨by dsimp only; omega, rfl⟩)


/-- C9: `adjustValue` reproduces the clamp table for single steps.  In
EditingValue mode, for a linear item with row `[lo, hi]`, a value `v` in that range
and a step `d` of -1 or +1, the new `editingValue` is `min(hi, max(lo, v + d))`;
for a toggle item and every step, it is 1 when `v = 0` and 0 otherwise.  Nothing
but `editingValue` changes. -/
theorem adjustValue_single_step (c : TimerCore) (d : Int)
    (hedit : c.menuState = MenuState.EDITING_VALUE) :
    (∀ lo hi : Nat, clampRange c.currentMenuItem = some (lo, hi) →
      lo ≤ c.editingValue → c.editingValue ≤ hi → d = 1 ∨ d = -1 →
      adjustValue c d =
        { c with editingValue := (min (hi : Int) (max (lo : Int) (c.editingValue + d))).toNat }) ∧
    (isToggle c.currentMenuItem = true →
      adjustValue c d = { c with editingValue := if c.editingValue = 0 then 1 else 0 }) := by
  constructor
  · intro lo hi hrow hlo hhi hd
    have hstep : ∀ a b : Nat, a ≤ c.editingValue → c.editingValue ≤ b → 1 ≤ a → b ≤ 200 →
        stepU8 c.editingValue d a b = (min (b : Int) (max (a : Int) (c.editingValue + d))).toNat := by
      intro a b ha hb h1 h2
      simp only [stepU8, wrap8, min_def, max_def]
      rcases hd with rfl | rfl <;> split_ifs <;> omega
    have hstep16 : ∀ a b : Nat, a ≤ c.editingValue → c.editingValue ≤ b → b ≤ 200 →
        stepInt16 c.editingValue d a b =
          (min (b : Int) (max (a : Int) (c.editingValue + d))).toNat := by
      intro a b ha hb h1
      simp only [stepInt16, wrap8, wrapInt16, min_def, max_def]
      rcases hd with rfl | rfl <;> split_ifs <;> omega
    cases hitem : c.currentMenuItem <;>
      simp only [hitem, clampRange, Option.some.injEq, Prod.mk.injEq, reduceCtorEq] at hrow <;>
      obtain ⟨rfl, rfl⟩ := hrow <;>
      simp only [adjustValue, hedit, hitem, ne_eq, not_true_eq_false, if_false]
    all_goals first
      | rw [hstep _ _ hlo hhi (by decide) (by decide)]
      | (congr 1; exact hstep16 _ _ hlo hhi (by decide))
      | (rcases hd with rfl | rfl <;> split_ifs <;> congr 1 <;>
          simp only [min_def, max_def, wrap8] <;> split_ifs <;> omega)
  · intro ht
    cases hitem : c.currentMenuItem <;>
      simp only [hitem, isToggle, reduceCtorEq] at ht <;>
      simp [adjustValue, hedit, hitem]


/-- Witness of C9: the brightness at its maximum 7 stays at 7 on a step up and
goes to 6 on a step down; the alarm-flash toggle at 1 flips to 0 on a step down. -/
theorem adjustValue_single_step_witness :
    brightnessEditCore.menuState = MenuState.EDITING_VALUE ∧
    (adjustValue { brightnessEditCore with editingValue := 7 } 1).editingValue = 7 ∧
    (adjustValue { brightnessEditCore with editingValue := 7 } (-1)).editingValue = 6 ∧
    (adjustValue { brightnessEditCore with
        currentMenuItem := MenuItem.ALARM_FLASH, editingValue := 1 } (-1)).editingValue = 0 := by
  have h1 := adjustValue_single_step { brightnessEditCore with editingValue := 7 } 1 rfl
  have h2 := adjustValue_single_step { brightnessEditCore with editingValue := 7 } (-1) rfl
  have h3 := adjustValue_single_step { brightnessEditCore with
    currentMenuItem := MenuItem.ALARM_FLASH, editingValue := 1 } (-1) rfl
  refine ⟨rfl, ?_, ?_, ?_⟩
  · rw [h1.1 0 7 rfl (by decide) (by decide) (Or.inl rfl)]; decide
  · rw [h2.1 0 7 rfl (by decide) (by decide) (Or.inr rfl)]; decide
  · rw [h3.2 rfl]; decide

/-! ### What the store holds after `saveState` -/

set_option maxRecDepth 100000 in
/-- No setting key is the key of a task counter. -/
theorem settingKeys_ne_taskKeys :
    ∀ i < MAX_TASKS, ∀ k ∈ settingKeys, k ≠ compKey i ∧ k ≠ intKey i := by decide

set_option maxRecDepth 100000 in
/-- The task counter keys are pairwise distinct. -/
theorem taskKeys_distinct :
    ∀ i < MAX_TASKS, ∀ j < MAX_TASKS, compKey i ≠ intKey j ∧
      (compKey i = compKey j → i = j) ∧ (intKey i = intKey j → i = j) := by decide

/-- The loop of `saveState` leaves a key alone that is no counter key of the
indices it runs through. -/
theorem foldl_saveTask_other (c : TimerCore) (k : String) (l : List Nat) :
    ∀ p : Preferences, (∀ i ∈ l, k ≠ compKey i ∧ k ≠ intKey i) →
      (l.foldl (saveTask c) p) k = p k := by
  induction l with
  | nil => intro p _; rfl
  | cons a l ih =>
    intro p h
    rw [List.foldl_cons, ih _ (fun i hi => h i (List.mem_cons_of_mem _ hi))]
    have ha := h a (List.mem_cons_self _ _)
    simp [saveTask, Preferences.putUChar, ha.1, ha.2]

/-- After the loop, the key `comp<i>` holds the completed count of task `i`. -/
theorem foldl_saveTask_comp (c : TimerCore) (i : Nat) (hi : i < MAX_TASKS) (l : List Nat) :
    ∀ p : Preferences, (∀ j ∈ l, j < MAX_TASKS) → i ∈ l →
      (l.foldl (saveTask c) p) (compKey i) =
        some (PrefValue.uchar (c.completedPomodoros.getD i 0)) := by
  induction l with
  | nil => intro p _ h; exact absurd h (List.not_mem_nil _)
  | cons a l ih =>
    intro p hl hmem
    rw [List.foldl_cons]
    by_cases hil : i ∈ l
    · exact ih _ (fun j hj => hl j (List.mem_cons_of_mem _ hj)) hil
    · have hia : i = a := by
        rcases List.mem_cons.mp hmem with h | h
        · exact h
        · exact absurd h hil
      subst hia
      rw [foldl_saveTask_other c (compKey i) l _ (fun j hj => by
        have hj12 := hl j (List.mem_cons_of_mem _ hj)
        have hd := taskKeys_distinct i hi j hj12
        refine ⟨fun h => ?_, hd.1⟩
        exact hil (hd.2.1 h ▸ hj))]
      have hne := (taskKeys_distinct i hi i hi).1
      simp [saveTask, Preferences.putUChar, hne]

/-- After the loop, the key `int<i>` holds the interrupted count of task `i`. -/
theorem foldl_saveTask_int (c : TimerCore) (i : Nat) (hi : i < MAX_TASKS) (l : List Nat) :
    ∀ p : Preferences, (∀ j ∈ l, j < MAX_TASKS) → i ∈ l →
      (l.foldl (saveTask c) p) (intKey i) =
        some (PrefValue.uchar (c.interruptedPomodoros.getD i 0)) := by
  induction l with
  | nil => intro p _ h; exact absurd h (List.not_mem_nil _)
  | cons a l ih =>
    intro p hl hmem
    rw [List.foldl_cons]
    by_cases hil : i ∈ l
    · exact ih _ (fun j hj => hl j (List.mem_cons_of_mem _ hj)) hil
    · have hia : i = a := by
        rcases List.mem_cons.mp hmem with h | h
        · exact h
        · exact absurd h hil
      subst hia
      rw [foldl_saveTask_other c (intKey i) l _ (fun j hj => by
        have hj12 := hl j (List.mem_cons_of_mem _ hj)
        have hd := taskKeys_distinct i hi j hj12
        have hd2 := taskKeys_distinct j hj12 i hi
        refine ⟨fun h => hd2.1 h.symm, fun h => ?_⟩
        exact hil (hd.2.2 h ▸ hj))]
      simp [saveTask, Preferences.putUChar]

/-- A setting key reads after `saveState` what the scalar writes left there. -/
theorem saveState_settingKey (c : TimerCore) (p : Preferences) (k : String)
    (hk : k ∈ settingKeys) : saveState c p k = saveSettings c p k := by
  unfold saveState
  exact foldl_saveTask_other c k _ _ (fun i hi =>
    settingKeys_ne_taskKeys i (List.mem_range.mp hi) k hk)

/-- A power cycle after `saveState`: `loadState` restores every persisted member
of the saved engine, whatever engine it loads into and whatever the store held. -/
theorem loadState_saveState (c c0 : TimerCore) (p : Preferences)
    (hc : c.completedPomodoros.length = MAX_TASKS)
    (hi : c.interruptedPomodoros.length = MAX_TASKS) :
    loadState c0 (saveState c p) =
      { c0 with
        totalTasks := c.totalTasks
        currentTaskId := c.currentTaskId
        workDuration := c.workDuration
        shortBreakDuration := c.shortBreakDuration
        longBreakDuration := c.longBreakDuration
        pomodorosBeforeLongBreak := c.pomodorosBeforeLongBreak
        idleTimeoutBattery := c.idleTimeoutBattery
        idleTimeoutUSB := c.idleTimeoutUSB
        sleepOnUSB := c.sleepOnUSB
        brightnessLevel := c.brightnessLevel
        themeId := c.themeId
        windupEnabled := c.windupEnabled
        alarmDuration := c.alarmDuration
        alarmVibrationEnabled := c.alarmVibrationEnabled
        alarmFlashEnabled := c.alarmFlashEnabled
        completedPomodoros := c.completedPomodoros
        interruptedPomodoros := c.interruptedPomodoros } := by
  have hcomp : ((List.range MAX_TASKS).map fun i =>
      Preferences.getUChar (saveState c p) (compKey i) 0) = c.completedPomodoros := by
    apply List.ext_getElem
    · simp [hc]
    · intro n h1 h2
      have hn : n < MAX_TASKS := by simpa using h1
      simp only [List.getElem_map, List.getElem_range, Preferences.getUChar, saveState]
      rw [foldl_saveTask_comp c n hn _ _ (fun j hj => List.mem_range.mp hj)
        (List.mem_range.mpr hn)]
      simp [List.getD_eq_getElem?_getD, List.getElem?_eq_getElem h2]
  have hint : ((List.range MAX_TASKS).map fun i =>
      Preferences.getUChar (saveState c p) (intKey i) 0) = c.interruptedPomodoros := by
    apply List.ext_getElem
    · simp [hi]
    · intro n h1 h2
      have hn : n < MAX_TASKS := by simpa using h1
      simp only [List.getElem_map, List.getElem_range, Preferences.getUChar, saveState]
      rw [foldl_saveTask_int c n hn _ _ (fun j hj => List.mem_range.mp hj)
        (List.mem_range.mpr hn)]
      simp [List.getD_eq_getElem?_getD, List.getElem?_eq_getElem h2]
  unfold loadState
  rw [hcomp, hint]
  simp only [Preferences.getUChar, Preferences.getBool]
  simp only [saveState_settingKey c p _ (by decide : "totalTasks" ∈ settingKeys),
    saveState_settingKey c p _ (by decide : "currentTask" ∈ settingKeys),
    saveState_settingKey c p _ (by decide : "workDuration" ∈ settingKeys),
    saveState_settingKey c p _ (by decide : "shortBreak" ∈ settingKeys),
    saveState_settingKey c p _ (by decide : "longBreak" ∈ settingKeys),
    saveState_settingKey c p _ (by decide : "pomosB4Long" ∈ settingKeys),
    saveState_settingKey c p _ (by decide : "idleTimeout" ∈ settingKeys),
    saveState_settingKey c p _ (by decide : "idleTimeUSB" ∈ settingKeys),
    saveState_settingKey c p _ (by decide : "sleepOnUSB" ∈ settingKeys),
    saveState_settingKey c p _ (by decide : "brightness" ∈ settingKeys),
    saveState_settingKey c p _ (by decide : "theme" ∈ settingKeys),
    saveState_settingKey c p _ (by decide : "windupEn" ∈ settingKeys),
    saveState_settingKey c p _ (by decide : "alarmDur" ∈ settingKeys),
    saveState_settingKey c p _ (by decide : "alarmVib" ∈ settingKeys),
    saveState_settingKey c p _ (by decide : "alarmFlash" ∈ settingKeys)]
  simp [saveSettings, Preferences.putUChar, Preferences.putBool]

/-! ### C10: confirming an edit -/

/-- Counterexample to C10 as stated: with the current task id outside the counter
arrays (255, after `setTotalTasks(0)`), confirming the edit of the completed count
writes no counter and saves nothing; only the menu returns to the list. -/
theorem confirmValue_untracked_counterexample :
    strayEditCore.WellFormed ∧
    strayEditCore.menuState = MenuState.EDITING_VALUE ∧
    strayEditCore.currentMenuItem = MenuItem.EDIT_COMPLETED_POMODOROS ∧
    strayEditCore.editingValue = 5 ∧ strayEditCore.currentTaskId = 255 ∧
    (confirmValue strayEditCore Preferences.empty).1 =
      { strayEditCore with menuState := MenuState.MENU_LIST } ∧
    5 ∉ (confirmValue strayEditCore Preferences.empty).1.completedPomodoros ∧
    (confirmValue strayEditCore Preferences.empty).2 "totalTasks" = none := by
  refine ⟨by decide, rfl, rfl, rfl, by decide, by decide, by decide, rfl⟩


/-- Saving reads no menu member: the store written by `saveState` is the same
before and after the return to the list. -/
theorem saveState_menuState (c : TimerCore) (p : Preferences) (m : MenuState) :
    saveState { c with menuState := m } p = saveState c p := rfl

/-- C10 (amended): `confirmValue()` in EditingValue mode, for each of the sixteen
menu items.  The setting selected by `currentMenuItem` becomes `editingValue`
(`editingValue != 0` for the four booleans); total tasks goes through
`setTotalTasks`, which also clamps `currentTaskId`; the completed and interrupted
items write the counter of `currentTaskId` when `currentTaskId < MAX_TASKS` and
otherwise write and save nothing.  Every other setting and counter,
`currentMenuItem` and the timer state are unchanged, `menuState` becomes ListView,
and except in the guarded case the engine is saved: a load from the store gives
back its settings, task fields and counters. -/
theorem confirmValue_spec (c : TimerCore) (p : Preferences)
    (hwf : c.WellFormed)
    (hedit : c.menuState = MenuState.EDITING_VALUE)
    (hitem : c.currentMenuItem ≠ MenuItem.MENU_ITEM_COUNT) :
    ((confirmValue c p).1.workDuration =
      if c.currentMenuItem = MenuItem.POMODORO_LENGTH then c.editingValue
      else c.workDuration) ∧
    ((confirmValue c p).1.shortBreakDuration =
      if c.currentMenuItem = MenuItem.SHORT_BREAK_LENGTH then c.editingValue
      else c.shortBreakDuration) ∧
    ((confirmValue c p).1.longBreakDuration =
      if c.currentMenuItem = MenuItem.LONG_BREAK_LENGTH then c.editingValue
      else c.longBreakDuration) ∧
    ((confirmValue c p).1.pomodorosBeforeLongBreak =
      if c.currentMenuItem = MenuItem.POMODOROS_BEFORE_LONG_BREAK then c.editingValue
      else c.pomodorosBeforeLongBreak) ∧
    ((confirmValue c p).1.idleTimeoutBattery =
      if c.currentMenuItem = MenuItem.IDLE_TIMEOUT_BATTERY then c.editingValue
      else c.idleTimeoutBattery) ∧
    ((confirmValue c p).1.idleTimeoutUSB =
      if c.currentMenuItem = MenuItem.IDLE_TIMEOUT_USB then c.editingValue
      else c.idleTimeoutUSB) ∧
    ((confirmValue c p).1.sleepOnUSB =
      if c.currentMenuItem = MenuItem.IDLE_SLEEP_ON_USB then decide (c.editingValue ≠ 0)
      else c.sleepOnUSB) ∧
    ((confirmValue c p).1.brightnessLevel =
      if c.currentMenuItem = MenuItem.BRIGHTNESS then c.editingValue
      else c.brightnessLevel) ∧
    ((confirmValue c p).1.themeId =
      if c.currentMenuItem = MenuItem.THEME then c.editingValue else c.themeId) ∧
    ((confirmValue c p).1.windupEnabled =
      if c.currentMenuItem = MenuItem.ENABLE_WINDUP then decide (c.editingValue ≠ 0)
      else c.windupEnabled) ∧
    ((confirmValue c p).1.alarmDuration =
      if c.currentMenuItem = MenuItem.ALARM_DURATION then c.editingValue
      else c.alarmDuration) ∧
    ((confirmValue c p).1.alarmVibrationEnabled =
      if c.currentMenuItem = MenuItem.ALARM_VIBRATION then decide (c.editingValue ≠ 0)
      else c.alarmVibrationEnabled) ∧
    ((confirmValue c p).1.alarmFlashEnabled =
      if c.currentMenuItem = MenuItem.ALARM_FLASH then decide (c.editingValue ≠ 0)
      else c.alarmFlashEnabled) ∧
    ((confirmValue c p).1.totalTasks =
      if c.currentMenuItem = MenuItem.MANAGE_TASKS then c.editingValue
      else c.totalTasks) ∧
    ((confirmValue c p).1.currentTaskId =
      if c.currentMenuItem = MenuItem.MANAGE_TASKS ∧ c.currentTaskId ≥ c.editingValue then
        wrap8 (c.editingValue - 1)
      else c.currentTaskId) ∧
    ((confirmValue c p).1.completedPomodoros =
      if c.currentMenuItem = MenuItem.EDIT_COMPLETED_POMODOROS ∧
          c.currentTaskId < MAX_TASKS then
        c.completedPomodoros.set c.currentTaskId c.editingValue
      else c.completedPomodoros) ∧
    ((confirmValue c p).1.interruptedPomodoros =
      if c.currentMenuItem = MenuItem.EDIT_INTERRUPTED_POMODOROS ∧
          c.currentTaskId < MAX_TASKS then
        c.interruptedPomodoros.set c.currentTaskId c.editingValue
      else c.interruptedPomodoros) ∧
    (confirmValue c p).1.menuState = MenuState.MENU_LIST ∧
    (confirmValue c p).1.currentMenuItem = c.currentMenuItem ∧
    (confirmValue c p).1.state = c.state ∧
    (confirmValue c p).1.startTime = c.startTime ∧
    (confirmValue c p).1.duration = c.duration ∧
    (confirmValue c p).1.remainingTime = c.remainingTime ∧
    (confirmValue c p).1.completedSessions = c.completedSessions ∧
    (confirmValue c p).1.pomodorosSinceLastLongBreak = c.pomodorosSinceLastLongBreak ∧
    (((c.currentMenuItem = MenuItem.EDIT_COMPLETED_POMODOROS ∨
        c.currentMenuItem = MenuItem.EDIT_INTERRUPTED_POMODOROS) ∧
        MAX_TASKS ≤ c.currentTaskId) →
      (confirmValue c p).2 = p) ∧
    (¬ ((c.currentMenuItem = MenuItem.EDIT_COMPLETED_POMODOROS ∨
        c.currentMenuItem = MenuItem.EDIT_INTERRUPTED_POMODOROS) ∧
        MAX_TASKS ≤ c.currentTaskId) →
      (confirmValue c p).2 = saveState (confirmValue c p).1 p ∧
      loadState (confirmValue c p).1 (confirmValue c p).2 = (confirmValue c p).1) := by
  rcases hwf with ⟨hEV, hST, hPT, hRT, hD, hIST, hWD, hSBD, hLBD, hCS, hPB, hPS, hITB,
    hITU, hBL, hTH, hAD, hAST, hBC, hCT, hTT, hCPl, hIPl, hCPb, hIPb, hWV⟩
  by_cases hlt : c.currentTaskId < MAX_TASKS <;>
    by_cases hge : c.editingValue ≤ c.currentTaskId <;>
    cases hcur : c.currentMenuItem <;>
    first
      | exact absurd hcur hitem
      | (have hle : (MAX_TASKS ≤ c.currentTaskId) = ¬ (c.currentTaskId < MAX_TASKS) := by
           simp only [not_lt]
         simp only [confirmValue, applyEditingValue, hedit, hcur, hlt, hle, hge, setWorkDuration,
          setShortBreakDuration, setLongBreakDuration, setPomodorosBeforeLongBreak,
          setTotalTasks, setTaskCompletedPomodoros, setTaskInterruptedPomodoros,
          setIdleTimeoutBattery, setIdleTimeoutUSB, setSleepOnUSB, setBrightnessLevel,
          setTheme, setWindupEnabled, setAlarmDuration, setAlarmVibration, setAlarmFlash,
          persist, ne_eq, ge_iff_le, not_true_eq_false, if_false, if_true, reduceCtorEq,
          true_and, false_and, and_true, and_false, or_true, or_false, true_or, false_or,
          not_false_eq_true, forall_true_left, false_implies, true_implies, implies_true,
          saveState_menuState]
         first
           | done
           | exact ⟨rfl, by
               rw [loadState_saveState] <;>
                 first | exact hCPl | exact hIPl | simp [hCPl, hIPl]⟩)

/-- Witness of C10 (amended): confirming the value 5 for the completed count of
task 0 on the sample engine writes that counter, keeps the work duration, returns
to the list and saves, so that a load gives the engine back. -/
theorem confirmValue_spec_witness :
    countEditCore.WellFormed ∧ countEditCore.menuState = MenuState.EDITING_VALUE ∧
    (confirmValue countEditCore Preferences.empty).1.completedPomodoros
      = [5, 0, 0, 0, 0, 0, 0, 0, 0, 0, 0, 0] ∧
    (confirmValue countEditCore Preferences.empty).1.menuState = MenuState.MENU_LIST ∧
    (confirmValue countEditCore Preferences.empty).1.workDuration = 25 ∧
    loadState (confirmValue countEditCore Preferences.empty).1
      (confirmValue countEditCore Preferences.empty).2 =
        (confirmValue countEditCore Preferences.empty).1 := by
  obtain ⟨hw, -, -, -, -, -, -, -, -, -, -, -, -, -, -, hc, -, hm, -, -, -, -, -, -, -, -, hs⟩ :=
    confirmValue_spec countEditCore Preferences.empty (by decide) rfl (by decide)
  exact ⟨by decide, rfl, by rw [hc]; decide, hm, hw.trans (by decide), (hs (by decide)).2⟩


/-! ### C11: interrupt -/

/-- Inside the array an unchecked read gives the entry. -/
theorem readAt_of_lt (a : List Nat) (i : Nat) (h : i < a.length) :
    readAt a i = some (a.getD i 0) := by
  simp [readAt, List.getD_eq_getElem?_getD, List.getElem?_eq_getElem h]

/-- Inside the array an unchecked write sets the entry. -/
theorem writeAt_of_lt (a : List Nat) (i v : Nat) (h : i < a.length) :
    writeAt a i v = some (a.set i v) := by
  simp [writeAt, h]

/-- The engine and the store after `interrupt()` in Work or PausedWork with the
current task inside the counter arrays. -/
theorem interrupt_eq (c : TimerCore) (p : Preferences)
    (hlen : c.interruptedPomodoros.length = MAX_TASKS)
    (hstate : c.state = TimerState.WORK ∨ c.state = TimerState.PAUSED_WORK)
    (htask : c.currentTaskId < MAX_TASKS) :
    interrupt c p =
      some
        ({ c with
            interruptedPomodoros :=
              c.interruptedPomodoros.set c.currentTaskId
                ((c.interruptedPomodoros.getD c.currentTaskId 0 + 1) % 256)
            state := TimerState.IDLE
            remainingTime := 0 },
         saveState
          { c with
            interruptedPomodoros :=
              c.interruptedPomodoros.set c.currentTaskId
                ((c.interruptedPomodoros.getD c.currentTaskId 0 + 1) % 256) } p) := by
  have hi : c.currentTaskId < c.interruptedPomodoros.length := by rw [hlen]; exact htask
  have h4 : ∀ n : Nat, wrap8 ((n : Int) + 1) = (n + 1) % 256 := by
    intro n; unfold wrap8; omega
  simp only [interrupt, hstate, if_true, readAt_of_lt _ _ hi, writeAt_of_lt _ _ _ hi, h4]

/-- C11: `interrupt()` in Work or PausedWork with `currentTaskId < MAX_TASKS`
leaves state Idle and `remainingTime = 0`, increments
`interruptedPomodoros[currentTaskId]` by 1 modulo 256 and changes nothing else
(no completed count, no other interrupted count, not `completedSessions`); the
store then holds the incremented count under the key of the task. -/
theorem interrupt_spec (c : TimerCore) (p : Preferences)
    (hwf : c.WellFormed)
    (hstate : c.state = TimerState.WORK ∨ c.state = TimerState.PAUSED_WORK)
    (htask : c.currentTaskId < MAX_TASKS) :
    ∃ c1 p1, interrupt c p = some (c1, p1) ∧
      c1 =
        { c with
          interruptedPomodoros :=
            c.interruptedPomodoros.set c.currentTaskId
              ((c.interruptedPomodoros.getD c.currentTaskId 0 + 1) % 256)
          state := TimerState.IDLE
          remainingTime := 0 } ∧
      c1.interruptedPomodoros.getD c.currentTaskId 0 =
        (c.interruptedPomodoros.getD c.currentTaskId 0 + 1) % 256 ∧
      (∀ j, j ≠ c.currentTaskId →
        c1.interruptedPomodoros.getD j 0 = c.interruptedPomodoros.getD j 0) ∧
      c1.completedPomodoros = c.completedPomodoros ∧
      c1.completedSessions = c.completedSessions ∧
      p1 (intKey c.currentTaskId) =
        some (PrefValue.uchar ((c.interruptedPomodoros.getD c.currentTaskId 0 + 1) % 256)) ∧
      Preferences.getUChar p1 (intKey c.currentTaskId) 0 =
        c1.interruptedPomodoros.getD c.currentTaskId 0 := by
  rcases hwf with ⟨hEV, hST, hPT, hRT, hD, hIST, hWD, hSBD, hLBD, hCS, hPB, hPS, hITB,
    hITU, hBL, hTH, hAD, hAST, hBC, hCT, hTT, hCPl, hIPl, hCPb, hIPb, hWV⟩
  have hi : c.currentTaskId < c.interruptedPomodoros.length := by rw [hIPl]; exact htask
  have hget : (c.interruptedPomodoros.set c.currentTaskId
      ((c.interruptedPomodoros.getD c.currentTaskId 0 + 1) % 256)).getD c.currentTaskId 0 =
      (c.interruptedPomodoros.getD c.currentTaskId 0 + 1) % 256 := by
    simp [List.getD_eq_getElem?_getD, List.getElem?_set_self hi]
  have hstore : saveState
      { c with
        interruptedPomodoros :=
          c.interruptedPomodoros.set c.currentTaskId
            ((c.interruptedPomodoros.getD c.currentTaskId 0 + 1) % 256) } p
      (intKey c.currentTaskId) =
      some (PrefValue.uchar ((c.interruptedPomodoros.getD c.currentTaskId 0 + 1) % 256)) := by
    unfold saveState
    rw [foldl_saveTask_int _ _ htask _ _ (fun j hj => List.mem_range.mp hj)
      (List.mem_range.mpr htask)]
    exact congrArg (fun v => some (PrefValue.uchar v)) hget
  refine ⟨_, _, interrupt_eq c p hIPl hstate htask, rfl, hget, ?_, rfl, rfl, hstore, ?_⟩
  · intro j hj
    simp [List.getD_eq_getElem?_getD, List.getElem?_set_ne (Ne.symm hj)]
  · simp only [Preferences.getUChar, hstore]
    exact hget.symm

/-- Witness of C11, the interrupt scenario of the spec: the sample engine in Work
since clock 0 is Idle after `interrupt()`, with one interrupted pomodoro for task 0
in the engine and in the store and no completed one. -/
theorem interrupt_spec_witness :
    workingCore.WellFormed ∧ workingCore.state = TimerState.WORK ∧
    workingCore.currentTaskId < MAX_TASKS ∧
    ∃ c1 p1, interrupt workingCore Preferences.empty = some (c1, p1) ∧
      c1.state = TimerState.IDLE ∧ c1.remainingTime = 0 ∧
      c1.interruptedPomodoros = [1, 0, 0, 0, 0, 0, 0, 0, 0, 0, 0, 0] ∧
      c1.completedPomodoros = workingCore.completedPomodoros ∧
      p1 (intKey 0) = some (PrefValue.uchar 1) := by
  obtain ⟨c1, p1, h, hc, -, -, hcp, -, hst, -⟩ :=
    interrupt_spec workingCore Preferences.empty (by decide) (Or.inl rfl) (by decide)
  refine ⟨by decide, rfl, by decide, c1, p1, h, ?_, ?_, ?_, hcp, hst⟩
  · rw [hc]
  · rw [hc]
  · rw [hc]; decide


/-! ### C13: setTotalTasks -/

/-- C13: for `1 <= n <= MAX_TASKS`, `setTotalTasks(n)` leaves `totalTasks = n` and
`currentTaskId = min(old currentTaskId, n - 1)`: the current task id changes only
when it was `>= n`.  Nothing else in the engine changes, in particular no per-task
counter, and the engine is saved. -/
theorem setTotalTasks_spec (c : TimerCore) (p : Preferences) (n : Nat)
    (h1 : 1 ≤ n) (h2 : n ≤ MAX_TASKS) :
    (setTotalTasks c p n).1 =
      { c with totalTasks := n, currentTaskId := min c.currentTaskId (n - 1) } ∧
    (c.currentTaskId < n → (setTotalTasks c p n).1.currentTaskId = c.currentTaskId) ∧
    (setTotalTasks c p n).1.completedPomodoros = c.completedPomodoros ∧
    (setTotalTasks c p n).1.interruptedPomodoros = c.interruptedPomodoros ∧
    (setTotalTasks c p n).2 = saveState (setTotalTasks c p n).1 p := by
  have h12 : n ≤ 12 := h2
  have hw : wrap8 ((n : Int) - 1) = n - 1 := by unfold wrap8; omega
  by_cases hge : n ≤ c.currentTaskId
  · have hmin : min c.currentTaskId (n - 1) = n - 1 := by omega
    simp only [setTotalTasks, persist, ge_iff_le, hge, if_true, hw, hmin]
    exact ⟨trivial, fun h => absurd hge (by omega), trivial, trivial, trivial⟩
  · have hmin : min c.currentTaskId (n - 1) = c.currentTaskId := by omega
    simp only [setTotalTasks, persist, ge_iff_le, hge, if_false, hmin]
    exact ⟨trivial, fun _ => trivial, trivial, trivial, trivial⟩

/-- Witness of C13: with three tasks and task 2 current, `setTotalTasks(2)` makes
task 1 current; `setTotalTasks(12)` keeps task 2. -/
theorem setTotalTasks_spec_witness :
    (setTotalTasks { sampleCore with totalTasks := 3, currentTaskId := 2 }
      Preferences.empty 2).1.currentTaskId = 1 ∧
    (setTotalTasks { sampleCore with totalTasks := 3, currentTaskId := 2 }
      Preferences.empty 2).1.totalTasks = 2 ∧
    (setTotalTasks { sampleCore with totalTasks := 3, currentTaskId := 2 }
      Preferences.empty 12).1.currentTaskId = 2 := by
  have h := setTotalTasks_spec { sampleCore with totalTasks := 3, currentTaskId := 2 }
    Preferences.empty 2 (by decide) (by decide)
  have h' := setTotalTasks_spec { sampleCore with totalTasks := 3, currentTaskId := 2 }
    Preferences.empty 12 (by decide) (by decide)
  refine ⟨?_, ?_, h'.2.1 (by decide)⟩
  · rw [h.1]; decide
  · rw [h.1]

/-! ### C16: invalid calls -/

/-- C16: invalid calls are absorbed.  Each of these leaves the whole engine and the
store unchanged: `pause()` outside Work/ShortBreak/LongBreak; `resume()` outside
the Paused states; `interrupt()` outside Work/PausedWork; `openMenu()` outside
Idle; `navigateMenu(d)` and `selectMenuItem()` outside ListView; `adjustValue(d)`
and `confirmValue()` outside EditingValue; `selectTask(id)` with
`id >= totalTasks`; `addTask()` at `totalTasks = MAX_TASKS`; `incrementWindup(d)`,
`startWorkFromWindup()` and `cancelWindup()` outside WindUp. -/
theorem invalid_calls_absorbed (c : TimerCore) (p : Preferences) (now : Nat) (d : Int)
    (taskId : Nat) :
    (c.state ≠ TimerState.WORK → c.state ≠ TimerState.SHORT_BREAK →
      c.state ≠ TimerState.LONG_BREAK → step Command.pause now c p = some (c, p)) ∧
    (c.state ≠ TimerState.PAUSED_WORK → c.state ≠ TimerState.PAUSED_SHORT_BREAK →
      c.state ≠ TimerState.PAUSED_LONG_BREAK → step Command.resume now c p = some (c, p)) ∧
    (c.state ≠ TimerState.WORK → c.state ≠ TimerState.PAUSED_WORK →
      step Command.interrupt now c p = some (c, p)) ∧
    (c.state ≠ TimerState.IDLE → step Command.openMenu now c p = some (c, p)) ∧
    (c.menuState ≠ MenuState.MENU_LIST →
      step (Command.navigateMenu d) now c p = some (c, p) ∧
      step Command.selectMenuItem now c p = some (c, p)) ∧
    (c.menuState ≠ MenuState.EDITING_VALUE →
      step (Command.adjustValue d) now c p = some (c, p) ∧
      step Command.confirmValue now c p = some (c, p)) ∧
    (taskId ≥ c.totalTasks → step (Command.selectTask taskId) now c p = some (c, p)) ∧
    (c.totalTasks = MAX_TASKS → step Command.addTask now c p = some (c, p)) ∧
    (c.state ≠ TimerState.WIND_UP →
      step (Command.incrementWindup d) now c p = some (c, p) ∧
      step Command.startWorkFromWindup now c p = some (c, p) ∧
      step Command.cancelWindup now c p = some (c, p)) := by
  refine ⟨?_, ?_, ?_, ?_, ?_, ?_, ?_, ?_, ?_⟩
  · intro h1 h2 h3
    simp [step, pause, h1, h2, h3]
  · intro h1 h2 h3
    simp [step, resume, h1, h2, h3]
  · intro h1 h2
    simp [step, interrupt, h1, h2]
  · intro h
    simp [step, openMenu, h]
  · intro h
    simp [step, navigateMenu, selectMenuItem, h]
  · intro h
    simp [step, adjustValue, confirmValue, h]
  · intro h
    have : ¬ taskId < c.totalTasks := by omega
    simp [step, selectTask, this]
  · intro h
    simp [step, addTask, h]
  · intro h
    simp [step, incrementWindup, startWorkFromWindup, cancelWindup, h]

/-- Witness of C16 on the sample engine, Idle with the menu closed and one task:
`pause()`, `interrupt()`, `adjustValue(1)`, `selectTask(7)` and `cancelWindup()`
change nothing. -/
theorem invalid_calls_absorbed_witness :
    step Command.pause 5 sampleCore Preferences.empty = some (sampleCore, Preferences.empty) ∧
    step Command.interrupt 5 sampleCore Preferences.empty
      = some (sampleCore, Preferences.empty) ∧
    step (Command.adjustValue 1) 5 sampleCore Preferences.empty
      = some (sampleCore, Preferences.empty) ∧
    step (Command.selectTask 7) 5 sampleCore Preferences.empty
      = some (sampleCore, Preferences.empty) ∧
    step Command.cancelWindup 5 sampleCore Preferences.empty
      = some (sampleCore, Preferences.empty) := by
  obtain ⟨h1, -, h3, -, -, h6, h7, -, h9⟩ :=
    invalid_calls_absorbed sampleCore Preferences.empty 5 1 7
  exact ⟨h1 (by decide) (by decide) (by decide), h3 (by decide) (by decide),
    (h6 (by decide)).1, h7 (by decide), (h9 (by decide)).2.2⟩

/-! ### C17: persistence round trip -/

/-- The keys of `saveState` are pairwise distinct. -/
theorem allKeys_nodup : allKeys.Nodup := by decide

/-- C17: persistence round trip.  Whatever the store held and whatever engine is
loaded into, `loadState` after `saveState` gives `totalTasks`, `currentTaskId`,
the thirteen settings (the battery idle timeout under the key "idleTimeout") and
all `MAX_TASKS` completed and interrupted counters of the saved engine; the keys
written are pairwise distinct. -/
theorem persistence_round_trip (c c0 : TimerCore) (p : Preferences)
    (hwf : c.WellFormed) :
    loadState c0 (saveState c p) =
      { c0 with
        totalTasks := c.totalTasks
        currentTaskId := c.currentTaskId
        workDuration := c.workDuration
        shortBreakDuration := c.shortBreakDuration
        longBreakDuration := c.longBreakDuration
        pomodorosBeforeLongBreak := c.pomodorosBeforeLongBreak
        idleTimeoutBattery := c.idleTimeoutBattery
        idleTimeoutUSB := c.idleTimeoutUSB
        sleepOnUSB := c.sleepOnUSB
        brightnessLevel := c.brightnessLevel
        themeId := c.themeId
        windupEnabled := c.windupEnabled
        alarmDuration := c.alarmDuration
        alarmVibrationEnabled := c.alarmVibrationEnabled
        alarmFlashEnabled := c.alarmFlashEnabled
        completedPomodoros := c.completedPomodoros
        interruptedPomodoros := c.interruptedPomodoros } ∧
    saveState c p "idleTimeout" = some (PrefValue.uchar c.idleTimeoutBattery) ∧
    allKeys.Nodup ∧ allKeys.length = 15 + 2 * MAX_TASKS := by
  have hc : c.completedPomodoros.length = MAX_TASKS := hwf.2.2.2.2.2.2.2.2.2.2.2.2.2.2.2.2.2.2.2.2.2.1
  have hi : c.interruptedPomodoros.length = MAX_TASKS :=
    hwf.2.2.2.2.2.2.2.2.2.2.2.2.2.2.2.2.2.2.2.2.2.2.1
  refine ⟨loadState_saveState c c0 p hc hi, ?_, allKeys_nodup, by decide⟩
  rw [saveState_settingKey c p _ (by decide : "idleTimeout" ∈ settingKeys)]
  simp [saveSettings, Preferences.putUChar, Preferences.putBool]

/-- Witness of C17: a power cycle of the sample engine after `startWork()`, on a
store that held a stale count, gives the sample engine of a first start (the
persisted members of the saved engine, the timer members of the constructor). -/
theorem persistence_round_trip_witness :
    workingCore.WellFormed ∧
    loadState sampleCore
      (saveState workingCore (Preferences.empty.putUChar "comp3" 9)) = sampleCore := by
  refine ⟨by decide, ?_⟩
  rw [(persistence_round_trip workingCore sampleCore (Preferences.empty.putUChar "comp3" 9)
    (by decide)).1]
  decide


/-! ### C15: wind-up -/

/-- The sum `workDuration * 60` fits `uint32_t`. -/
theorem wrap32_minutes (w : Nat) (hw : w < 256) : wrap32 ((w : Int) * 60) = w * 60 := by
  unfold wrap32; omega

/-- One step up from a wind-up value below `2^31 - 60` does not wrap. -/
theorem wrapInt32_step_up (v : Nat) (hv : v + 60 < 2147483648) :
    wrapInt32 (wrap32 ((v : Int) + 1 * 60)) = (v : Int) + 60 := by
  unfold wrapInt32 wrap32; omega

theorem wrap32_step_up (v : Nat) (hv : v + 60 < 2147483648) :
    wrap32 ((v : Int) + 60) = v + 60 := by
  unfold wrap32; omega

/-- One step up below the maximum: the wind-up value grows by 60 s. -/
theorem incrementWindup_below (c : TimerCore) (t : Nat)
    (hs : c.state = TimerState.WIND_UP) (hw : c.workDuration < 256)
    (h : c.windupValue + 60 < c.workDuration * 60) :
    incrementWindup c 1 t = { c with windupValue := c.windupValue + 60 } := by
  have hnn : ¬ ((c.windupValue : Int) + 60 < 0) := by omega
  have hgt : ¬ (c.windupValue + 60 > c.workDuration * 60) := by omega
  have hge : ¬ (c.windupValue + 60 ≥ c.workDuration * 60) := by omega
  have hv : c.windupValue + 60 < 2147483648 := by omega
  have hguard : ¬ (c.state ≠ TimerState.WIND_UP) := by simp [hs]
  have hmax := wrap32_minutes c.workDuration hw
  have hsum := wrapInt32_step_up c.windupValue hv
  have hw32 := wrap32_step_up c.windupValue hv
  unfold incrementWindup
  rw [if_neg hguard]
  dsimp only
  simp only [hsum, if_neg hnn, hw32]
  rw [hmax]
  simp only [if_neg hgt, hw32, if_neg hge]

/-- The step up that reaches the maximum starts the work period. -/
theorem incrementWindup_full (c : TimerCore) (t : Nat)
    (hs : c.state = TimerState.WIND_UP) (hw : c.workDuration < 256)
    (h : c.windupValue + 60 = c.workDuration * 60) :
    incrementWindup c 1 t =
      { c with
        duration := c.workDuration * 60
        remainingTime := c.workDuration * 60
        startTime := t
        state := TimerState.WORK
        windupValue := 0 } := by
  have hnn : ¬ ((c.windupValue : Int) + 60 < 0) := by omega
  have hgt : ¬ (c.windupValue + 60 > c.workDuration * 60) := by omega
  have hge : c.windupValue + 60 ≥ c.workDuration * 60 := by omega
  have hv : c.windupValue + 60 < 2147483648 := by omega
  have hguard : ¬ (c.state ≠ TimerState.WIND_UP) := by simp [hs]
  have hmax := wrap32_minutes c.workDuration hw
  have hsum := wrapInt32_step_up c.windupValue hv
  have hw32 := wrap32_step_up c.windupValue hv
  unfold incrementWindup
  rw [if_neg hguard]
  dsimp only
  simp only [hsum, if_neg hnn, hw32]
  rw [hmax]
  simp only [if_neg hgt, hw32, if_pos hge]
  unfold startWorkFromWindup
  dsimp only
  rw [if_neg hguard, h]

/-- Steps up that stay below the maximum keep WindUp and add 60 s each. -/
theorem windUps_below (ts : List Nat) :
    ∀ c : TimerCore, c.state = TimerState.WIND_UP → c.workDuration < 256 →
      c.windupValue + 60 * ts.length < c.workDuration * 60 →
      windUps c ts = { c with windupValue := c.windupValue + 60 * ts.length } := by
  induction ts with
  | nil => intro c _ _ _; rfl
  | cons t ts ih =>
    intro c hs hw h
    simp only [List.length_cons] at h
    have h1 := incrementWindup_below c t hs hw (by omega)
    show windUps (incrementWindup c 1 t) ts = _
    rw [h1, ih]
    · simp only [List.length_cons]
      congr 1
      omega
    · exact hs
    · exact hw
    · show c.windupValue + 60 + 60 * ts.length < c.workDuration * 60
      omega

/-- C15: wind-up auto-start.  With `windupEnabled = true` and
`workDuration = W >= 1`: after `startWindup()` the state is WindUp with
`windupValue = 0`; after `k < W` calls of `incrementWindup(+1)` the state is still
WindUp with `windupValue = 60*k`; the `W`-th call, at clock value `t`, reaches
`W*60` and starts the work period: state Work, `duration = remainingTime = W*60`,
`startTime = t`, and `windupValue` back at 0. -/
theorem windup_auto_start (c : TimerCore) (t0 : Nat)
    (hwf : c.WellFormed) (hen : c.windupEnabled = true) (_hW : 1 ≤ c.workDuration) :
    (startWindup c t0).state = TimerState.WIND_UP ∧
    (startWindup c t0).windupValue = 0 ∧
    (∀ ts : List Nat, ts.length < c.workDuration →
      (windUps (startWindup c t0) ts).state = TimerState.WIND_UP ∧
      (windUps (startWindup c t0) ts).windupValue = 60 * ts.length) ∧
    (∀ (ts : List Nat) (t : Nat), ts.length + 1 = c.workDuration →
      (windUps (startWindup c t0) (ts ++ [t])).state = TimerState.WORK ∧
      (windUps (startWindup c t0) (ts ++ [t])).duration = c.workDuration * 60 ∧
      (windUps (startWindup c t0) (ts ++ [t])).remainingTime = c.workDuration * 60 ∧
      (windUps (startWindup c t0) (ts ++ [t])).startTime = t ∧
      (windUps (startWindup c t0) (ts ++ [t])).windupValue = 0) := by
  have hw : c.workDuration < 256 := hwf.2.2.2.2.2.2.1
  have hstart : startWindup c t0 =
      { c with state := TimerState.WIND_UP, windupValue := 0 } := by
    simp [startWindup, hen]
  have hbelow : ∀ ts : List Nat, ts.length < c.workDuration →
      windUps (startWindup c t0) ts =
        { c with state := TimerState.WIND_UP, windupValue := 60 * ts.length } := by
    intro ts hlen
    rw [hstart, windUps_below]
    · simp
    · rfl
    · exact hw
    · show 0 + 60 * ts.length < c.workDuration * 60
      omega
  refine ⟨by rw [hstart], by rw [hstart], ?_, ?_⟩
  · intro ts hlen
    rw [hbelow ts hlen]
    exact ⟨rfl, rfl⟩
  · intro ts t hlen
    have hfold : windUps (startWindup c t0) (ts ++ [t]) =
        incrementWindup (windUps (startWindup c t0) ts) 1 t := by
      simp [windUps, List.foldl_append]
    rw [hfold, hbelow ts (by omega), incrementWindup_full]
    · exact ⟨rfl, rfl, rfl, rfl, rfl⟩
    · rfl
    · exact hw
    · show 60 * ts.length + 60 = c.workDuration * 60
      omega

/-- Witness of C15 with `W = 25`: the sample engine with the wind-up enabled is
still in WindUp at 1440 s after 24 steps and in Work with 1500 s after the 25th,
made at 9000 ms. -/
theorem windup_auto_start_witness :
    ({ sampleCore with windupEnabled := true } : TimerCore).WellFormed ∧
    (windUps (startWindup { sampleCore with windupEnabled := true } 0)
      (List.replicate 24 5000)).windupValue = 1440 ∧
    (windUps (startWindup { sampleCore with windupEnabled := true } 0)
      (List.replicate 24 5000 ++ [9000])).state = TimerState.WORK ∧
    (windUps (startWindup { sampleCore with windupEnabled := true } 0)
      (List.replicate 24 5000 ++ [9000])).duration = 1500 ∧
    (windUps (startWindup { sampleCore with windupEnabled := true } 0)
      (List.replicate 24 5000 ++ [9000])).startTime = 9000 := by
  obtain ⟨-, -, h3, h4⟩ := windup_auto_start { sampleCore with windupEnabled := true } 0
    (by decide) rfl (by decide)
  have hb := h3 (List.replicate 24 5000) (by decide)
  have hf := h4 (List.replicate 24 5000) 9000 (by decide)
  exact ⟨by decide, hb.2, hf.1, hf.2.1, hf.2.2.2.1⟩

/-! ### What the menu commands leave alone -/

/-- The counter arrays of a well-formed engine have `MAX_TASKS` entries. -/
theorem wellFormed_lengths (c : TimerCore) (h : c.WellFormed) :
    c.completedPomodoros.length = MAX_TASKS ∧ c.interruptedPomodoros.length = MAX_TASKS := by
  obtain ⟨_, _, _, _, _, _, _, _, _, _, _, _, _, _, _, _, _, _, _, _, _, h1, h2, _⟩ := h
  exact ⟨h1, h2⟩

/-- Writing back the entry just read leaves the array as it was. -/
theorem set_getD_self (a : List Nat) : ∀ i, i < a.length →
    a.set i (a[i]?.getD 0) = a := by
  induction a with
  | nil => intro i h; simp at h
  | cons x xs ih =>
    intro i h
    cases i with
    | zero => simp
    | succ j =>
      have hj : j < xs.length := by simpa using h
      simp [ih j hj]

theorem toggle_round_trip (b : Bool) : decide ((if b then 1 else 0 : Nat) ≠ 0) = b := by
  cases b <;> rfl

/-- The method `adjustValue` changes `editingValue` only. -/
theorem adjustValue_frame (c : TimerCore) (d : Int) :
    adjustValue c d = { c with editingValue := (adjustValue c d).editingValue } := by
  unfold adjustValue
  repeat' (first | rfl | split)

/-- The method `selectMenuItem`, where it returns, changes `menuState` and
`editingValue` only. -/
theorem selectMenuItem_frame (c c1 : TimerCore) (h : selectMenuItem c = some c1) :
    c1 = { c with menuState := c1.menuState, editingValue := c1.editingValue } := by
  unfold selectMenuItem at h
  dsimp only at h
  repeat' split at h
  all_goals first | (cases h; rfl) | exact absurd h (by simp)

/-- The method `navigateMenu` changes `currentMenuItem` only. -/
theorem navigateMenu_frame (c : TimerCore) (d : Int) :
    navigateMenu c d = { c with currentMenuItem := (navigateMenu c d).currentMenuItem } := by
  unfold navigateMenu
  split <;> rfl

/-! ### C12: the task invariant -/

/-- The task invariant with its editing part depends on seven members only. -/
theorem taskInvariantEditing_of_same (c c1 : TimerCore) (h : TaskInvariantEditing c)
    (e1 : c1.totalTasks = c.totalTasks) (e2 : c1.currentTaskId = c.currentTaskId)
    (e3 : c1.completedPomodoros.length = c.completedPomodoros.length)
    (e4 : c1.interruptedPomodoros.length = c.interruptedPomodoros.length)
    (e5 : c1.menuState = c.menuState) (e6 : c1.currentMenuItem = c.currentMenuItem)
    (e7 : c1.editingValue = c.editingValue) : TaskInvariantEditing c1 := by
  unfold TaskInvariantEditing TaskInvariant at *
  rw [e1, e2, e3, e4, e5, e6, e7]
  exact h

/-- Outside the editing mode the editing part of the invariant is void. -/
theorem taskInvariantEditing_of_list (c c1 : TimerCore) (h : TaskInvariantEditing c)
    (e1 : c1.totalTasks = c.totalTasks) (e2 : c1.currentTaskId = c.currentTaskId)
    (e3 : c1.completedPomodoros.length = c.completedPomodoros.length)
    (e4 : c1.interruptedPomodoros.length = c.interruptedPomodoros.length)
    (e5 : c1.menuState ≠ MenuState.EDITING_VALUE) : TaskInvariantEditing c1 := by
  unfold TaskInvariantEditing TaskInvariant at *
  rw [e1, e2, e3, e4]
  exact ⟨h.1, h.2.1, h.2.2.1, fun hm => absurd hm e5⟩

theorem list_ne_editing : MenuState.MENU_LIST ≠ MenuState.EDITING_VALUE := by decide

theorem closed_ne_editing : MenuState.CLOSED ≠ MenuState.EDITING_VALUE := by decide

/-- The step of the total-tasks item stays within `1..MAX_TASKS`. -/
theorem stepInt16_tasks (v : Nat) (d : Int) :
    1 ≤ stepInt16 v d 1 MAX_TASKS ∧ stepInt16 v d 1 MAX_TASKS ≤ MAX_TASKS := by
  unfold stepInt16 wrapInt16 wrap8 MAX_TASKS
  dsimp only
  simp only [Nat.cast_ofNat]
  split_ifs <;> omega

theorem startBreak_taskInvariant (c : TimerCore) (now : Nat) (h : TaskInvariantEditing c) :
    TaskInvariantEditing (startBreak c now) := by
  unfold startBreak
  dsimp only
  split <;> exact taskInvariantEditing_of_same _ _ h rfl rfl rfl rfl rfl rfl rfl

theorem updateAlert_taskInvariant (c : TimerCore) (p : Preferences) (now : Nat)
    (h : TaskInvariantEditing c) : TaskInvariantEditing (updateAlert c p now).1 := by
  unfold updateAlert
  dsimp only
  repeat' split
  all_goals
    first
    | exact h
    | exact taskInvariantEditing_of_same _ _ h rfl rfl rfl rfl rfl rfl rfl
    | exact startBreak_taskInvariant _ _
        (taskInvariantEditing_of_same _ _ h rfl rfl (by first | rfl | simp) rfl rfl rfl rfl)

theorem update_taskInvariant (c : TimerCore) (p : Preferences) (now : Nat)
    (h : TaskInvariantEditing c) : TaskInvariantEditing (update c p now).1 := by
  unfold update
  dsimp only
  repeat' split
  all_goals
    first
    | exact h
    | exact updateAlert_taskInvariant _ _ _ h

theorem startWorkFromWindup_taskInvariant (c : TimerCore) (now : Nat)
    (h : TaskInvariantEditing c) : TaskInvariantEditing (startWorkFromWindup c now) := by
  unfold startWorkFromWindup
  dsimp only
  split
  · exact h
  · exact taskInvariantEditing_of_same _ _ h rfl rfl rfl rfl rfl rfl rfl

theorem confirmValue_taskInvariant (c : TimerCore) (p : Preferences)
    (h : TaskInvariantEditing c) : TaskInvariantEditing (confirmValue c p).1 := by
  unfold confirmValue
  dsimp only
  split
  · exact h
  · rename_i hedit
    have hedit2 : c.menuState = MenuState.EDITING_VALUE := by
      by_contra hne; exact hedit hne
    cases hitem : c.currentMenuItem
    case MANAGE_TASKS =>
      have hev := h.2.2.2 hedit2 hitem
      have hw : wrap8 ((c.editingValue : Int) - 1) = c.editingValue - 1 := by
        unfold wrap8; have := hev.2; unfold MAX_TASKS at this; omega
      unfold TaskInvariantEditing TaskInvariant at *
      simp only [applyEditingValue, hitem, setTotalTasks, persist]
      split
      · dsimp only
        rw [hw]
        exact ⟨⟨hev.1, hev.2, by omega⟩, h.2.1, h.2.2.1, fun a => absurd a list_ne_editing⟩
      · dsimp only
        exact ⟨⟨hev.1, hev.2, by omega⟩, h.2.1, h.2.2.1, fun a => absurd a list_ne_editing⟩
    all_goals
      simp only [applyEditingValue, hitem]
      first
      | exact taskInvariantEditing_of_list _ _ h rfl rfl rfl rfl list_ne_editing
      | (unfold setTaskCompletedPomodoros; split <;>
          exact taskInvariantEditing_of_list _ _ h rfl rfl (by simp only [persist, List.length_set])
            rfl list_ne_editing)
      | (unfold setTaskInterruptedPomodoros; split <;>
          exact taskInvariantEditing_of_list _ _ h rfl rfl rfl
            (by simp only [persist, List.length_set]) list_ne_editing)


theorem selectMenuItem_taskInvariant (c : TimerCore) (h : TaskInvariantEditing c) :
    ∃ c1, selectMenuItem c = some c1 ∧ TaskInvariantEditing c1 := by
  have hic : c.currentTaskId < c.completedPomodoros.length := by
    have h1 := h.1.2.2; have h2 := h.1.2.1; have h3 := h.2.1; omega
  have hii : c.currentTaskId < c.interruptedPomodoros.length := by
    have h1 := h.1.2.2; have h2 := h.1.2.1; have h3 := h.2.2.1; omega
  cases hs : selectMenuItem c with
  | none =>
    exfalso
    by_cases hm : c.menuState = MenuState.MENU_LIST
    · cases hitem : c.currentMenuItem <;>
        simp [selectMenuItem, hm, hitem, readAt_of_lt _ _ hic, readAt_of_lt _ _ hii] at hs
    · simp [selectMenuItem, hm] at hs
  | some c1 =>
    refine ⟨c1, rfl, ?_⟩
    have hf := selectMenuItem_frame c c1 hs
    by_cases hm : c.menuState = MenuState.MENU_LIST
    · have hrest : TaskInvariant c1 ∧ c1.completedPomodoros.length = MAX_TASKS ∧
          c1.interruptedPomodoros.length = MAX_TASKS := by
        rw [hf]
        exact ⟨h.1, h.2.1, h.2.2.1⟩
      refine ⟨hrest.1, hrest.2.1, hrest.2.2, ?_⟩
      intro _ hitem1
      have hitem : c.currentMenuItem = MenuItem.MANAGE_TASKS := by
        rw [hf] at hitem1
        exact hitem1
      simp only [selectMenuItem, hm, hitem, if_true, Option.some.injEq] at hs
      subst hs
      exact ⟨h.1.1, h.1.2.1⟩
    · simp only [selectMenuItem, hm, if_false, Option.some.injEq] at hs
      subst hs
      exact h

theorem adjustValue_taskInvariant (c : TimerCore) (d : Int) (h : TaskInvariantEditing c) :
    TaskInvariantEditing (adjustValue c d) := by
  have hf := adjustValue_frame c d
  have hrest : TaskInvariant (adjustValue c d) ∧
      (adjustValue c d).completedPomodoros.length = MAX_TASKS ∧
      (adjustValue c d).interruptedPomodoros.length = MAX_TASKS := by
    rw [hf]
    exact ⟨h.1, h.2.1, h.2.2.1⟩
  refine ⟨hrest.1, hrest.2.1, hrest.2.2, ?_⟩
  intro hm1 hitem1
  have hm : c.menuState = MenuState.EDITING_VALUE := by
    rw [hf] at hm1
    exact hm1
  have hitem : c.currentMenuItem = MenuItem.MANAGE_TASKS := by
    rw [hf] at hitem1
    exact hitem1
  simp only [adjustValue, hm, hitem, ne_eq, not_true_eq_false, if_false]
  exact stepInt16_tasks c.editingValue d

theorem interrupt_taskInvariant (c : TimerCore) (p : Preferences)
    (h : TaskInvariantEditing c) :
    ∃ r, interrupt c p = some r ∧ TaskInvariantEditing r.1 := by
  have hii : c.currentTaskId < c.interruptedPomodoros.length := by
    have h1 := h.1.2.2; have h2 := h.1.2.1; have h3 := h.2.2.1; omega
  have htask : c.currentTaskId < MAX_TASKS := by
    have h1 := h.1.2.2; have h2 := h.1.2.1; omega
  by_cases hst : c.state = TimerState.WORK ∨ c.state = TimerState.PAUSED_WORK
  · rw [interrupt_eq c p h.2.2.1 hst htask]
    exact ⟨_, rfl, taskInvariantEditing_of_same _ _ h rfl rfl rfl (by simp) rfl rfl rfl⟩
  · simp only [interrupt, hst, if_false]
    exact ⟨_, rfl, h⟩

/-- One command keeps the task invariant, and returns. -/
theorem step_taskInvariant (cmd : Command) (now : Nat) (c : TimerCore) (p : Preferences)
    (h : TaskInvariantEditing c) (hk : cmd.KeepsTaskRange) :
    ∃ r, step cmd now c p = some r ∧ TaskInvariantEditing r.1 := by
  cases cmd
  case selectMenuItem =>
    obtain ⟨c1, h1, h2⟩ := selectMenuItem_taskInvariant c h
    exact ⟨(c1, p), by simp only [step, h1], h2⟩
  case interrupt => exact interrupt_taskInvariant c p h
  case adjustValue d => exact ⟨_, rfl, adjustValue_taskInvariant c d h⟩
  case confirmValue => exact ⟨_, rfl, confirmValue_taskInvariant c p h⟩
  case update => exact ⟨_, rfl, update_taskInvariant c p now h⟩
  case updateAlert => exact ⟨_, rfl, updateAlert_taskInvariant c p now h⟩
  case startBreak => exact ⟨_, rfl, startBreak_taskInvariant c now h⟩
  case startWorkFromWindup => exact ⟨_, rfl, startWorkFromWindup_taskInvariant c now h⟩
  case setTotalTasks n =>
    refine ⟨_, rfl, ?_⟩
    have hn : 1 ≤ n ∧ n ≤ MAX_TASKS := hk
    have h12 : n ≤ 12 := hn.2
    have hw : wrap8 ((n : Int) - 1) = n - 1 := by unfold wrap8; omega
    unfold TaskInvariantEditing TaskInvariant at *
    show _ ∧ _ ∧ _ ∧ _
    unfold setTotalTasks persist
    dsimp only
    split
    · dsimp only
      rw [hw]
      exact ⟨⟨hn.1, hn.2, by omega⟩, h.2.1, h.2.2.1, h.2.2.2⟩
    · dsimp only
      exact ⟨⟨hn.1, hn.2, by omega⟩, h.2.1, h.2.2.1, h.2.2.2⟩
  case addTask =>
    refine ⟨_, rfl, ?_⟩
    have hw1 : ∀ t : Nat, t < 12 → wrap8 ((t : Int) + 1) = t + 1 := by
      intro t ht; unfold wrap8; omega
    have hw2 : ∀ t : Nat, t < 12 → wrap8 (((t + 1 : Nat) : Int) - 1) = t := by
      intro t ht; unfold wrap8; omega
    unfold TaskInvariantEditing TaskInvariant at *
    show _ ∧ _ ∧ _ ∧ _
    unfold addTask persist
    dsimp only
    split
    · rename_i hlt
      have hlt2 : c.totalTasks < 12 := hlt
      dsimp only
      rw [hw1 _ hlt2, hw2 _ hlt2]
      exact ⟨⟨by omega, hlt, by omega⟩, h.2.1, h.2.2.1, h.2.2.2⟩
    · exact h
  case selectTask taskId =>
    refine ⟨_, rfl, ?_⟩
    unfold TaskInvariantEditing TaskInvariant at *
    show _ ∧ _ ∧ _ ∧ _
    unfold selectTask
    split
    · rename_i hlt
      exact ⟨⟨h.1.1, h.1.2.1, hlt⟩, h.2.1, h.2.2.1, h.2.2.2⟩
    · exact h
  case resetSaveState =>
    refine ⟨_, rfl, ?_⟩
    unfold TaskInvariantEditing TaskInvariant at *
    exact ⟨⟨Nat.le_refl 1, (by decide : 1 ≤ MAX_TASKS), Nat.zero_lt_one⟩,
      List.length_replicate _ _, List.length_replicate _ _, h.2.2.2⟩
  case resetTaskStats =>
    refine ⟨_, rfl, ?_⟩
    exact taskInvariantEditing_of_same _ _ h rfl rfl
      ((List.length_replicate _ _).trans h.2.1.symm)
      ((List.length_replicate _ _).trans h.2.2.1.symm) rfl rfl rfl
  case openMenu =>
    refine ⟨_, rfl, ?_⟩
    show TaskInvariantEditing (openMenu c)
    unfold openMenu
    split
    · exact taskInvariantEditing_of_list _ _ h rfl rfl rfl rfl list_ne_editing
    · exact h
  case closeMenu =>
    exact ⟨_, rfl, taskInvariantEditing_of_list _ _ h rfl rfl rfl rfl closed_ne_editing⟩
  case navigateMenu d =>
    refine ⟨_, rfl, ?_⟩
    show TaskInvariantEditing (navigateMenu c d)
    unfold navigateMenu
    split
    · exact h
    · rename_i hm
      have hm2 : c.menuState = MenuState.MENU_LIST := by
        by_contra hne; exact hm hne
      exact taskInvariantEditing_of_list _ _ h rfl rfl rfl rfl
        (by show c.menuState ≠ _; rw [hm2]; exact list_ne_editing)
  all_goals
    refine ⟨_, rfl, ?_⟩
    first
    | exact taskInvariantEditing_of_same _ _ h rfl rfl rfl rfl rfl rfl rfl
    | (show TaskInvariantEditing (pause c now)
       unfold pause
       repeat' split
       all_goals exact taskInvariantEditing_of_same _ _ h rfl rfl rfl rfl rfl rfl rfl)
    | (show TaskInvariantEditing (resume c now)
       unfold resume
       repeat' split
       all_goals exact taskInvariantEditing_of_same _ _ h rfl rfl rfl rfl rfl rfl rfl)
    | (show TaskInvariantEditing (checkIdleTimeout c now _).2
       unfold checkIdleTimeout
       dsimp only
       repeat' split
       all_goals exact taskInvariantEditing_of_same _ _ h rfl rfl rfl rfl rfl rfl rfl)
    | (show TaskInvariantEditing (startWindup c now)
       unfold startWindup
       repeat' split
       all_goals exact taskInvariantEditing_of_same _ _ h rfl rfl rfl rfl rfl rfl rfl)
    | (show TaskInvariantEditing (cancelWindup c)
       unfold cancelWindup
       repeat' split
       all_goals exact taskInvariantEditing_of_same _ _ h rfl rfl rfl rfl rfl rfl rfl)
    | (show TaskInvariantEditing (incrementWindup c _ now)
       unfold incrementWindup
       dsimp only
       repeat' split
       all_goals
         first
         | exact startWorkFromWindup_taskInvariant _ _
             (taskInvariantEditing_of_same _ _ h rfl rfl rfl rfl rfl rfl rfl)
         | exact taskInvariantEditing_of_same _ _ h rfl rfl rfl rfl rfl rfl rfl)
    | (show TaskInvariantEditing (setTaskCompletedPomodoros c p _ _).1
       unfold setTaskCompletedPomodoros
       repeat' split
       all_goals
         exact taskInvariantEditing_of_same _ _ h rfl rfl
           (by simp only [persist, List.length_set]) rfl rfl rfl rfl)
    | (show TaskInvariantEditing (setTaskInterruptedPomodoros c p _ _).1
       unfold setTaskInterruptedPomodoros
       repeat' split
       all_goals
         exact taskInvariantEditing_of_same _ _ h rfl rfl rfl
           (by simp only [persist, List.length_set]) rfl rfl rfl)

/-- A sequence of commands keeps the task invariant, and returns. -/
theorem run_taskInvariant (cmds : List (Command × Nat)) :
    ∀ (c : TimerCore) (p : Preferences), TaskInvariantEditing c → KeepTaskRange cmds →
      ∃ r, run cmds c p = some r ∧ TaskInvariantEditing r.1 := by
  induction cmds with
  | nil => intro c p h _; exact ⟨(c, p), rfl, h⟩
  | cons x rest ih =>
    intro c p h hk
    obtain ⟨cmd, now⟩ := x
    obtain ⟨r1, hs, h1⟩ := step_taskInvariant cmd now c p h (hk (cmd, now) (by simp))
    obtain ⟨r, hr, h2⟩ := ih r1.1 r1.2 h1 (fun y hy => hk y (by simp [hy]))
    exact ⟨r, by simp only [run, hs, hr], h2⟩

/-- A fresh engine on the empty store has the task invariant with its editing
part. -/
theorem construct_taskInvariant (t : Nat) :
    TaskInvariantEditing (construct Preferences.empty t) := by
  exact taskInvariantEditing_of_same sampleCore _
    (by unfold TaskInvariantEditing TaskInvariant; decide) rfl rfl rfl rfl rfl rfl rfl

/-- Counterexample to C12 as stated: the fresh engine has the task invariant, and
the public call `setTotalTasks(0)` leaves `totalTasks = 0` and
`currentTaskId = 255`, the call `setTotalTasks(13)` leaves `totalTasks = 13`,
above `MAX_TASKS`. -/
theorem setTotalTasks_breaks_invariant :
    TaskInvariant sampleCore ∧
    (run [(Command.setTotalTasks 0, 0)] sampleCore Preferences.empty).map
      (fun r => (r.1.totalTasks, r.1.currentTaskId)) = some (0, 255) ∧
    (run [(Command.setTotalTasks 13, 0)] sampleCore Preferences.empty).map
      (fun r => (r.1.totalTasks, r.1.currentTaskId)) = some (13, 0) ∧
    ¬ TaskInvariant strayCore := by
  unfold TaskInvariant
  decide

/-- C12 (amended): `1 <= totalTasks <= MAX_TASKS` and `currentTaskId < totalTasks`
hold for a freshly constructed engine on an empty store, and every sequence of
public commands in which `setTotalTasks(n)` is called only with
`1 <= n <= MAX_TASKS` returns and leaves them holding: `addTask`, `selectTask(id)`
for every id, `confirmValue`, `resetSaveState`, `resetTaskStats` and all timer,
menu and wind-up commands, for every argument and clock value. -/
theorem taskInvariant_preserved (t : Nat) (cmds : List (Command × Nat))
    (hk : KeepTaskRange cmds) :
    TaskInvariant (construct Preferences.empty t) ∧
    ∃ r, run cmds (construct Preferences.empty t) Preferences.empty = some r ∧
      TaskInvariant r.1 := by
  obtain ⟨r, hr, h⟩ := run_taskInvariant cmds (construct Preferences.empty t)
    Preferences.empty (construct_taskInvariant t) hk
  exact ⟨(construct_taskInvariant t).1, r, hr, h.1⟩

/-- Witness of C12 (amended) on the task session: it returns, with one task left
of two and task 0 current. -/
theorem taskInvariant_preserved_witness :
    KeepTaskRange taskSession ∧
    (run taskSession sampleCore Preferences.empty).map
      (fun r => (r.1.totalTasks, r.1.currentTaskId)) = some (1, 0) ∧
    ∃ r, run taskSession (construct Preferences.empty 0) Preferences.empty = some r ∧
      TaskInvariant r.1 :=
  ⟨by decide, by decide, (taskInvariant_preserved 0 taskSession (by decide)).2⟩

/-! ### C14: bounds of the counter arrays -/

/-- C14 (every access to the per-task counters is bounds-checked) fails: the
getters index with any `taskId`, and `interrupt()` and `selectMenuItem()` index
with `currentTaskId` unchecked.  A read at index 12 and, after `setTotalTasks(0)`
has made `currentTaskId = 255`, the increment of `interrupt()` and the read of
`selectMenuItem()` fall outside the `MAX_TASKS`-entry arrays. -/
theorem counter_access_out_of_bounds :
    sampleCore.completedPomodoros.length = MAX_TASKS ∧
    getTaskCompletedPomodoros sampleCore 12 = none ∧
    getTaskInterruptedPomodoros sampleCore 255 = none ∧
    (run [(Command.setTotalTasks 0, 0)] sampleCore Preferences.empty).map
      (fun r => r.1.currentTaskId) = some 255 ∧
    (run interruptStray sampleCore Preferences.empty).isSome = false ∧
    (run selectStray sampleCore Preferences.empty).isSome = false := by
  decide

/-! ### C18: resetTaskStats -/

/-- C18 (`resetTaskStats()` persists) fails: `resetTaskStats()` never calls
`saveState`.  After a completed count of 5 for task 0 has been saved, the reset
zeroes the counter in the engine, the store still holds 5 under "comp0", and an
engine loaded from the store has the count 5 again. -/
theorem resetTaskStats_not_saved :
    (run resetStatsAfterSave countEditCore Preferences.empty).map
      (fun r => (r.1.completedPomodoros.getD 0 0, r.2 "comp0",
        (loadState r.1 r.2).completedPomodoros.getD 0 0)) =
      some (0, some (PrefValue.uchar 5), 5) ∧
    ∀ (c : TimerCore) (p : Preferences) (now : Nat),
      step Command.resetTaskStats now c p = some (resetTaskStats c, p) := by
  refine ⟨by decide, fun c p now => rfl⟩

/-! ### C19, C20: a user command during the alarm -/

/-- C19 (`alertActive` if and only if state Alert, in every reachable state) fails:
`reset()` and `startWork()` leave Alert without clearing `alertActive`.  From the
engine of a first start, a reset during the alarm gives Idle with the alert still
active, a restart gives Work with the alert still active. -/
theorem alertActive_outside_alert :
    (run resetDuringAlarm sampleCore Preferences.empty).map
      (fun r => (r.1.state, r.1.alertActive)) = some (TimerState.IDLE, true) ∧
    (run restartDuringAlarm sampleCore Preferences.empty).map
      (fun r => (r.1.state, r.1.alertActive)) = some (TimerState.WORK, true) := by
  decide

/-- C20 (`reset()` is final) fails for a reset during the alarm: the engine is Idle
with `remainingTime = 0` after the reset, and the tick at the end of the alarm
counts a completed pomodoro and starts a short break of 300 s. -/
theorem reset_during_alarm_not_final :
    (run resetDuringAlarm sampleCore Preferences.empty).map
      (fun r => (r.1.state, r.1.remainingTime, r.1.startTime, r.1.pausedTime,
        r.1.completedSessions, r.1.completedPomodoros.getD 0 0)) =
      some (TimerState.IDLE, 0, 0, 0, 0, 0) ∧
    (run (resetDuringAlarm ++ [(Command.update, 1502000)]) sampleCore Preferences.empty).map
      (fun r => (r.1.state, r.1.remainingTime, r.1.completedSessions,
        r.1.completedPomodoros.getD 0 0)) =
      some (TimerState.SHORT_BREAK, 300, 1, 1) := by
  decide

/-! ### C21: remaining time in Idle -/

/-- C21 (Idle or Alert implies `remainingTime = 0`, in every reachable state)
fails: `cancelWindup()` enters Idle without clearing `remainingTime`.  A wind-up
begun during a work period and cancelled leaves the engine Idle with 1500 s
remaining. -/
theorem idle_with_remaining_time :
    (run windupDuringWork sampleCore Preferences.empty).map
      (fun r => (r.1.state, r.1.remainingTime)) = some (TimerState.IDLE, 1500) := by
  decide

/-! ### C22: the remaining time is at most the duration -/

/-- The method `startBreak` sets the remaining time to the duration. -/
theorem startBreak_remaining (c : TimerCore) (now : Nat) :
    (startBreak c now).remainingTime ≤ (startBreak c now).duration := by
  unfold startBreak
  dsimp only
  split <;> exact Nat.le_refl _

/-- After `updateAlert` the remaining time is at most the duration if it was so
before. -/
theorem updateAlert_remaining (c : TimerCore) (p : Preferences) (now : Nat)
    (hinv : c.remainingTime ≤ c.duration) :
    (updateAlert c p now).1.remainingTime ≤ (updateAlert c p now).1.duration := by
  unfold updateAlert
  dsimp only
  repeat' split
  all_goals first | exact hinv | exact startBreak_remaining _ _ | exact Nat.zero_le _

/-- After `update` the remaining time is at most the duration if it was so
before. -/
theorem update_remaining (c : TimerCore) (p : Preferences) (now : Nat)
    (hinv : c.remainingTime ≤ c.duration) :
    (update c p now).1.remainingTime ≤ (update c p now).1.duration := by
  unfold update
  dsimp only
  repeat' split
  all_goals
    first
    | exact hinv
    | exact updateAlert_remaining _ _ _ hinv
    | exact Nat.zero_le _
    | exact Nat.sub_le _ _

/-- After `startWorkFromWindup` the remaining time is at most the duration if it
was so before. -/
theorem startWorkFromWindup_remaining (c : TimerCore) (now : Nat)
    (hinv : c.remainingTime ≤ c.duration) :
    (startWorkFromWindup c now).remainingTime ≤ (startWorkFromWindup c now).duration := by
  unfold startWorkFromWindup
  dsimp only
  split
  · exact hinv
  · exact Nat.le_refl _

/-- The method `confirmValue` changes neither the remaining time nor the
duration. -/
theorem confirmValue_timer (c : TimerCore) (p : Preferences) :
    (confirmValue c p).1.remainingTime = c.remainingTime ∧
    (confirmValue c p).1.duration = c.duration ∧
    (confirmValue c p).1.state = c.state ∧
    (confirmValue c p).1.alertActive = c.alertActive := by
  unfold confirmValue applyEditingValue
  dsimp only
  split
  · exact ⟨rfl, rfl, rfl, rfl⟩
  · split
    all_goals
      first
      | exact ⟨rfl, rfl, rfl, rfl⟩
      | (unfold setTotalTasks; dsimp only; split <;> exact ⟨rfl, rfl, rfl, rfl⟩)
      | (unfold setTaskCompletedPomodoros; split <;> exact ⟨rfl, rfl, rfl, rfl⟩)
      | (unfold setTaskInterruptedPomodoros; split <;> exact ⟨rfl, rfl, rfl, rfl⟩)

/-- One command keeps the remaining time at most the duration. -/
theorem step_remaining (cmd : Command) (now : Nat) (c : TimerCore) (p : Preferences)
    (r : TimerCore × Preferences) (hinv : c.remainingTime ≤ c.duration)
    (h : step cmd now c p = some r) :
    r.1.remainingTime ≤ r.1.duration := by
  cases cmd
  case selectMenuItem =>
    cases hs : selectMenuItem c with
    | none => simp [step, hs] at h
    | some c1 =>
      simp only [step, hs, Option.some.injEq] at h
      subst h
      have hf := selectMenuItem_frame c c1 hs
      rw [hf]
      exact hinv
  case interrupt =>
    simp only [step] at h
    unfold interrupt at h
    dsimp only at h
    repeat' split at h
    all_goals first | (cases h; first | exact hinv | exact Nat.zero_le _) | exact absurd h (by simp)
  case confirmValue =>
    simp only [step, Option.some.injEq] at h
    subst h
    have hf := confirmValue_timer c p
    rw [hf.1, hf.2.1]
    exact hinv
  case update =>
    simp only [step, Option.some.injEq] at h
    subst h
    exact update_remaining c p now hinv
  case updateAlert =>
    simp only [step, Option.some.injEq] at h
    subst h
    exact updateAlert_remaining c p now hinv
  case startBreak =>
    simp only [step, Option.some.injEq] at h
    subst h
    exact startBreak_remaining c now
  case startWorkFromWindup =>
    simp only [step, Option.some.injEq] at h
    subst h
    exact startWorkFromWindup_remaining c now hinv
  case incrementWindup d =>
    simp only [step, Option.some.injEq] at h
    subst h
    unfold incrementWindup
    dsimp only
    repeat' split
    all_goals first | exact hinv | exact startWorkFromWindup_remaining _ _ hinv
  all_goals
    simp only [step, Option.some.injEq] at h
    subst h
    first
    | exact hinv
    | exact Nat.le_refl _
    | exact Nat.zero_le _
    | (unfold pause; (repeat' split); all_goals exact hinv)
    | (unfold resume; (repeat' split); all_goals exact hinv)
    | (unfold openMenu; (repeat' split); all_goals exact hinv)
    | (unfold navigateMenu; (repeat' split); all_goals exact hinv)
    | (rw [adjustValue_frame]; exact hinv)
    | (unfold checkIdleTimeout; dsimp only; (repeat' split); all_goals exact hinv)
    | (unfold addTask; dsimp only; (repeat' split); all_goals exact hinv)
    | (unfold selectTask; (repeat' split); all_goals exact hinv)
    | (unfold startWindup; (repeat' split); all_goals first | exact hinv | exact Nat.le_refl _)
    | (unfold cancelWindup; (repeat' split); all_goals exact hinv)
    | (unfold setTotalTasks; dsimp only; (repeat' split); all_goals exact hinv)
    | (unfold setTaskCompletedPomodoros; (repeat' split); all_goals exact hinv)
    | (unfold setTaskInterruptedPomodoros; (repeat' split); all_goals exact hinv)

/-- A sequence of commands keeps the remaining time at most the duration. -/
theorem run_remaining (cmds : List (Command × Nat)) :
    ∀ (c : TimerCore) (p : Preferences) (r : TimerCore × Preferences),
      c.remainingTime ≤ c.duration → run cmds c p = some r →
      r.1.remainingTime ≤ r.1.duration := by
  induction cmds with
  | nil =>
    intro c p r hinv h
    simp only [run, Option.some.injEq] at h
    subst h
    exact hinv
  | cons x rest ih =>
    intro c p r hinv h
    obtain ⟨cmd, now⟩ := x
    cases hs : step cmd now c p with
    | none => simp [run, hs] at h
    | some r1 =>
      simp only [run, hs] at h
      exact ih r1.1 r1.2 r (step_remaining cmd now c p r1 hinv hs) h

/-- C22: `remainingTime <= duration` holds for a freshly constructed engine, on
every store and at every clock value; every public command, at every clock value
and for every argument, keeps it; so it holds after every sequence of commands
from a fresh engine, in particular in Work, ShortBreak and LongBreak. -/
theorem remainingTime_le_duration :
    (∀ (p : Preferences) (t : Nat),
      (construct p t).remainingTime ≤ (construct p t).duration) ∧
    (∀ (cmd : Command) (now : Nat) (c : TimerCore) (p : Preferences)
      (r : TimerCore × Preferences),
      c.remainingTime ≤ c.duration → step cmd now c p = some r →
      r.1.remainingTime ≤ r.1.duration) ∧
    (∀ (cmds : List (Command × Nat)) (p : Preferences) (t : Nat)
      (r : TimerCore × Preferences),
      run cmds (construct p t) p = some r → r.1.remainingTime ≤ r.1.duration) := by
  have hfresh : ∀ (p : Preferences) (t : Nat),
      (construct p t).remainingTime ≤ (construct p t).duration := by
    intro p t
    exact Nat.le_refl _
  exact ⟨hfresh, step_remaining,
    fun cmds p t r h => run_remaining cmds (construct p t) p r (hfresh p t) h⟩

/-- Witness of C22 on the sample session: it returns, in a short break with 293 s
of 300 s remaining. -/
theorem remainingTime_le_duration_witness :
    (run sampleSession sampleCore Preferences.empty).map
      (fun r => (r.1.state, r.1.remainingTime, r.1.duration)) =
      some (TimerState.SHORT_BREAK, 293, 300) ∧
    ∀ r, run sampleSession sampleCore Preferences.empty = some r →
      r.1.remainingTime ≤ r.1.duration :=
  ⟨by decide, fun r h => remainingTime_le_duration.2.2 sampleSession Preferences.empty 0 r h⟩

/-! ### C23: the menu and the timer -/

theorem ordinal_ofOrdinal : ∀ n, n < 17 → (MenuItem.ofOrdinal n).ordinal = n := by
  decide

theorem ofOrdinal_ordinal (item : MenuItem) : MenuItem.ofOrdinal item.ordinal = item := by
  cases item <;> rfl

theorem wrapInt8_range (x : Int) : -128 ≤ wrapInt8 x ∧ wrapInt8 x ≤ 127 := by
  unfold wrapInt8; omega

/-- One step up and one step down in the list view, from a valid item. -/
theorem navigateMenu_unit (c : TimerCore)
    (hm : c.menuState = MenuState.MENU_LIST)
    (hv : c.currentMenuItem.ordinal < 16) :
    navigateMenu c 1 =
      { c with currentMenuItem := MenuItem.ofOrdinal ((c.currentMenuItem.ordinal + 1) % 16) } ∧
    navigateMenu c (-1) =
      { c with currentMenuItem := MenuItem.ofOrdinal ((c.currentMenuItem.ordinal + 15) % 16) } := by
  unfold navigateMenu
  rw [if_neg (by simp [hm]), if_neg (by simp [hm])]
  dsimp only
  cases hcur : c.currentMenuItem <;> rw [hcur] at hv <;>
    first
    | exact absurd hv (by decide)
    | exact ⟨by congr 1, by congr 1⟩

/-- The engine after `n` steps up from a valid item. -/
theorem navigateSteps_up (n : Nat) : ∀ c : TimerCore,
    c.menuState = MenuState.MENU_LIST → c.currentMenuItem.ordinal < 16 →
    navigateSteps c 1 n =
      { c with currentMenuItem := MenuItem.ofOrdinal ((c.currentMenuItem.ordinal + n) % 16) } := by
  induction n with
  | zero =>
    intro c _ hv
    have h : MenuItem.ofOrdinal ((c.currentMenuItem.ordinal + 0) % 16) = c.currentMenuItem := by
      rw [Nat.add_zero, Nat.mod_eq_of_lt hv, ofOrdinal_ordinal]
    rw [h]
    rfl
  | succ n ih =>
    intro c hm hv
    have hlt : (c.currentMenuItem.ordinal + 1) % 16 < 17 := by omega
    have ho := ordinal_ofOrdinal _ hlt
    show navigateSteps (navigateMenu c 1) 1 n = _
    have e : ((c.currentMenuItem.ordinal + 1) % 16 + n) % 16 =
        (c.currentMenuItem.ordinal + (n + 1)) % 16 := by omega
    rw [(navigateMenu_unit c hm hv).1, ih]
    · dsimp only
      rw [ho, e]
    · exact hm
    · dsimp only
      rw [ho]
      omega

/-- The engine after `n` steps down from a valid item. -/
theorem navigateSteps_down (n : Nat) : ∀ c : TimerCore,
    c.menuState = MenuState.MENU_LIST → c.currentMenuItem.ordinal < 16 →
    navigateSteps c (-1) n =
      { c with currentMenuItem :=
          MenuItem.ofOrdinal ((c.currentMenuItem.ordinal + 15 * n) % 16) } := by
  induction n with
  | zero =>
    intro c _ hv
    have h : MenuItem.ofOrdinal ((c.currentMenuItem.ordinal + 15 * 0) % 16) =
        c.currentMenuItem := by
      rw [Nat.mul_zero, Nat.add_zero, Nat.mod_eq_of_lt hv, ofOrdinal_ordinal]
    rw [h]
    rfl
  | succ n ih =>
    intro c hm hv
    have hlt : (c.currentMenuItem.ordinal + 15) % 16 < 17 := by omega
    have ho := ordinal_ofOrdinal _ hlt
    show navigateSteps (navigateMenu c (-1)) (-1) n = _
    have e : ((c.currentMenuItem.ordinal + 15) % 16 + 15 * n) % 16 =
        (c.currentMenuItem.ordinal + 15 * (n + 1)) % 16 := by omega
    rw [(navigateMenu_unit c hm hv).2, ih]
    · dsimp only
      rw [ho, e]
    · exact hm
    · dsimp only
      rw [ho]
      omega

/-- For every direction the item after `navigateMenu` in the list view is a valid
enumerator. -/
theorem navigateMenu_valid (c : TimerCore) (d : Int)
    (hm : c.menuState = MenuState.MENU_LIST) :
    (navigateMenu c d).currentMenuItem.ordinal < 16 := by
  have hr := wrapInt8_range ((c.currentMenuItem.ordinal : Int) + d)
  have h16 : wrapInt8 (MenuItem.MENU_ITEM_COUNT.ordinal : Nat) = 16 := by decide
  have h15 : wrapInt8 ((MenuItem.MENU_ITEM_COUNT.ordinal : Nat) - 1) = 15 := by decide
  unfold navigateMenu
  rw [if_neg (by simp [hm])]
  dsimp only
  rw [h16, h15]
  split
  · decide
  · split
    · decide
    · have hlt : (wrapInt8 ((c.currentMenuItem.ordinal : Int) + d)).toNat < 17 := by omega
      rw [ordinal_ofOrdinal _ hlt]
      omega

/-- C24: in the list view with a valid current item (ordinal `i` below
`MENU_ITEM_COUNT`), `navigateMenu(d)` for `d` in {-1, +1} sets the ordinal to
`(i + d) mod MENU_ITEM_COUNT` and changes nothing else; one step up then one step
down, and one down then one up, give back the engine; `MENU_ITEM_COUNT` steps in
one direction give back the engine; and for every `int8_t` direction the item
after the call is a valid enumerator again. -/
theorem navigateMenu_cycles (c : TimerCore)
    (hm : c.menuState = MenuState.MENU_LIST)
    (hv : c.currentMenuItem.ordinal < MenuItem.MENU_ITEM_COUNT.ordinal) :
    (∀ d : Int, d = 1 ∨ d = -1 →
      ((navigateMenu c d).currentMenuItem.ordinal : Int) =
        (c.currentMenuItem.ordinal + d) % MenuItem.MENU_ITEM_COUNT.ordinal ∧
      navigateMenu c d =
        { c with currentMenuItem := (navigateMenu c d).currentMenuItem }) ∧
    navigateMenu (navigateMenu c 1) (-1) = c ∧
    navigateMenu (navigateMenu c (-1)) 1 = c ∧
    navigateSteps c 1 MenuItem.MENU_ITEM_COUNT.ordinal = c ∧
    navigateSteps c (-1) MenuItem.MENU_ITEM_COUNT.ordinal = c ∧
    (∀ d : Int, -128 ≤ d → d ≤ 127 →
      (navigateMenu c d).currentMenuItem.ordinal < MenuItem.MENU_ITEM_COUNT.ordinal) := by
  have hcount : MenuItem.MENU_ITEM_COUNT.ordinal = 16 := rfl
  rw [hcount] at hv ⊢
  have hu := (navigateMenu_unit c hm hv).1
  have hd := (navigateMenu_unit c hm hv).2
  have hup : (c.currentMenuItem.ordinal + 1) % 16 < 17 := by omega
  have hdn : (c.currentMenuItem.ordinal + 15) % 16 < 17 := by omega
  have hou := ordinal_ofOrdinal _ hup
  have hod := ordinal_ofOrdinal _ hdn
  have hself : ∀ k, k % 16 = c.currentMenuItem.ordinal →
      ({ c with currentMenuItem := MenuItem.ofOrdinal (k % 16) } : TimerCore) = c := by
    intro k hk
    rw [hk, ofOrdinal_ordinal]
  refine ⟨?_, ?_, ?_, ?_, ?_, ?_⟩
  · intro d hd1
    rcases hd1 with rfl | rfl
    · rw [hu]
      dsimp only
      rw [hou]
      exact ⟨by omega, rfl⟩
    · rw [hd]
      dsimp only
      rw [hod]
      exact ⟨by omega, rfl⟩
  · have h2 := (navigateMenu_unit
      { c with currentMenuItem := MenuItem.ofOrdinal ((c.currentMenuItem.ordinal + 1) % 16) }
      hm (by dsimp only; rw [hou]; omega)).2
    rw [hu, h2]
    dsimp only
    rw [hou]
    exact hself _ (by omega)
  · have h2 := (navigateMenu_unit
      { c with currentMenuItem := MenuItem.ofOrdinal ((c.currentMenuItem.ordinal + 15) % 16) }
      hm (by dsimp only; rw [hod]; omega)).1
    rw [hd, h2]
    dsimp only
    rw [hod]
    exact hself _ (by omega)
  · rw [navigateSteps_up 16 c hm hv]
    exact hself _ (by omega)
  · rw [navigateSteps_down 16 c hm hv]
    exact hself _ (by omega)
  · intro d _ _
    exact navigateMenu_valid c d hm

/-- Witness of C24 on the sample engine with the menu opened: from the first item
one step down wraps to the last item. -/
theorem navigateMenu_cycles_witness :
    (openMenu sampleCore).menuState = MenuState.MENU_LIST ∧
    (navigateMenu (openMenu sampleCore) (-1)).currentMenuItem = MenuItem.ALARM_FLASH ∧
    navigateMenu (navigateMenu (openMenu sampleCore) 1) (-1) = openMenu sampleCore := by
  have h := navigateMenu_cycles (openMenu sampleCore) (by decide) (by decide)
  exact ⟨by decide, by decide, h.2.1⟩

/-! ### C25: the remaining time within a period -/

/-- The elapsed time between two clock values of the same period. -/
theorem wrap32_offsets (t0 a b : Nat) (hab : a ≤ b) (hb : b < 4294967296) :
    wrap32 ((clockAfter t0 b : Nat) - (clockAfter t0 a : Nat)) = b - a := by
  unfold clockAfter wrap32; omega

/-- The start time after a resume, in offsets of the period. -/
theorem resume_offsets (t0 lag paused b : Nat) (h2 : paused ≤ b) (hb : b < 4294967296) :
    wrap32 ((clockAfter t0 lag : Nat) +
      (wrap32 ((clockAfter t0 b : Nat) - (clockAfter t0 paused : Nat)) : Nat)) =
      clockAfter t0 (lag + (b - paused)) := by
  rw [wrap32_offsets t0 paused b h2 hb]
  unfold clockAfter wrap32; omega

theorem running_not_paused (s : TimerState)
    (h : s = TimerState.WORK ∨ s = TimerState.SHORT_BREAK ∨ s = TimerState.LONG_BREAK) :
    s ≠ TimerState.PAUSED_WORK ∧ s ≠ TimerState.PAUSED_SHORT_BREAK ∧
    s ≠ TimerState.PAUSED_LONG_BREAK := by
  rcases h with h | h | h <;> subst h <;> decide

theorem paused_not_running (s : TimerState)
    (h : s = TimerState.PAUSED_WORK ∨ s = TimerState.PAUSED_SHORT_BREAK ∨
      s = TimerState.PAUSED_LONG_BREAK) :
    s ≠ TimerState.WORK ∧ s ≠ TimerState.SHORT_BREAK ∧ s ≠ TimerState.LONG_BREAK := by
  rcases h with h | h | h <;> subst h <;> decide

/-- A tick within a period: the remaining time does not grow, and the engine stays
within the period unless the tick expires it. -/
theorem update_inPeriod (t0 : Nat) (c : TimerCore) (p : Preferences) (a b : Nat)
    (h : InPeriod t0 c a) (hab : a ≤ b) (hb : b < 4294967296) :
    (update c p (clockAfter t0 b)).1.remainingTime ≤ c.remainingTime ∧
    ((update c p (clockAfter t0 b)).1.alertActive = false →
      InPeriod t0 (update c p (clockAfter t0 b)).1 b) := by
  obtain ⟨ha, ht0, lag, hlag, hst, hcase⟩ := h
  rcases hcase with ⟨hrun, hrem⟩ | ⟨hp, paused, hp1, hp2, hpt, hrem⟩
  · have hs : c.startTime < 4294967296 := by rw [hst]; exact clockAfter_lt _ _
    have he : elapsedMs (clockAfter t0 b) c.startTime = b - lag := by
      rw [elapsedMs_eq_wrap32 _ _ hs (clockAfter_lt _ _), hst]
      exact wrap32_offsets t0 lag b (by omega) hb
    have hmono : c.duration - (b - lag) / 1000 ≤ c.remainingTime := by omega
    rw [update_active_eq c p _ ha hrun, he]
    by_cases hexp : b - lag ≥ wrap32 (c.duration * 1000) ∨ (b - lag) / 1000 ≥ c.duration
    · rw [if_pos hexp]
      exact ⟨Nat.zero_le _, fun hf => absurd hf (by simp [startAlert])⟩
    · have hlt : (b - lag) / 1000 < c.duration :=
        Nat.lt_of_not_le (fun hge => hexp (Or.inr hge))
      rw [if_neg hexp, if_pos hlt]
      exact ⟨hmono, fun _ => ⟨ha, ht0, lag, by omega, hst, Or.inl ⟨hrun, Nat.le_refl _⟩⟩⟩
  · have hn := paused_not_running c.state hp
    have hu : update c p (clockAfter t0 b) = (c, p) := by
      simp [update, ha, hn.1, hn.2.1, hn.2.2]
    rw [hu]
    exact ⟨Nat.le_refl _, fun _ =>
      ⟨ha, ht0, lag, by omega, hst, Or.inr ⟨hp, paused, hp1, by omega, hpt, hrem⟩⟩⟩

/-- A pause within a period keeps the remaining time and the period. -/
theorem pause_inPeriod (t0 : Nat) (c : TimerCore) (a b : Nat)
    (h : InPeriod t0 c a) (hab : a ≤ b) :
    (pause c (clockAfter t0 b)).remainingTime = c.remainingTime ∧
    (pause c (clockAfter t0 b)).alertActive = false ∧
    InPeriod t0 (pause c (clockAfter t0 b)) b := by
  obtain ⟨ha, ht0, lag, hlag, hst, hcase⟩ := h
  rcases hcase with ⟨hrun, hrem⟩ | ⟨hp, paused, hp1, hp2, hpt, hrem⟩
  · have hrem2 : c.duration - (b - lag) / 1000 ≤ c.remainingTime := by omega
    rcases hrun with hs | hs | hs
    · have hu : pause c (clockAfter t0 b) =
          { c with pausedTime := clockAfter t0 b, state := TimerState.PAUSED_WORK } := by
        simp [pause, hs]
      rw [hu]
      exact ⟨rfl, ha, ha, ht0, lag, by omega, hst,
        Or.inr ⟨Or.inl rfl, b, by omega, Nat.le_refl _, rfl, hrem2⟩⟩
    · have hu : pause c (clockAfter t0 b) =
          { c with pausedTime := clockAfter t0 b, state := TimerState.PAUSED_SHORT_BREAK } := by
        simp [pause, hs]
      rw [hu]
      exact ⟨rfl, ha, ha, ht0, lag, by omega, hst,
        Or.inr ⟨Or.inr (Or.inl rfl), b, by omega, Nat.le_refl _, rfl, hrem2⟩⟩
    · have hu : pause c (clockAfter t0 b) =
          { c with pausedTime := clockAfter t0 b, state := TimerState.PAUSED_LONG_BREAK } := by
        simp [pause, hs]
      rw [hu]
      exact ⟨rfl, ha, ha, ht0, lag, by omega, hst,
        Or.inr ⟨Or.inr (Or.inr rfl), b, by omega, Nat.le_refl _, rfl, hrem2⟩⟩
  · have hn := paused_not_running c.state hp
    have hu : pause c (clockAfter t0 b) = c := by
      simp [pause, hn.1, hn.2.1, hn.2.2]
    rw [hu]
    exact ⟨rfl, ha, ha, ht0, lag, by omega, hst,
      Or.inr ⟨hp, paused, hp1, by omega, hpt, hrem⟩⟩

/-- A resume within a period keeps the remaining time and the period. -/
theorem resume_inPeriod (t0 : Nat) (c : TimerCore) (a b : Nat)
    (h : InPeriod t0 c a) (hab : a ≤ b) (hb : b < 4294967296) :
    (resume c (clockAfter t0 b)).remainingTime = c.remainingTime ∧
    (resume c (clockAfter t0 b)).alertActive = false ∧
    InPeriod t0 (resume c (clockAfter t0 b)) b := by
  obtain ⟨ha, ht0, lag, hlag, hst, hcase⟩ := h
  rcases hcase with ⟨hrun, hrem⟩ | ⟨hp, paused, hp1, hp2, hpt, hrem⟩
  · have hn := running_not_paused c.state hrun
    have hu : resume c (clockAfter t0 b) = c := by
      simp [resume, hn.1, hn.2.1, hn.2.2]
    rw [hu]
    exact ⟨rfl, ha, ha, ht0, lag, by omega, hst, Or.inl ⟨hrun, by omega⟩⟩
  · have hnew := resume_offsets t0 lag paused b (by omega) hb
    have hsame : b - (lag + (b - paused)) = paused - lag := by omega
    have hrem2 : c.duration - (b - (lag + (b - paused))) / 1000 ≤ c.remainingTime := by
      rw [hsame]; exact hrem
    rcases hp with hs | hs | hs
    · have hu : resume c (clockAfter t0 b) =
          { c with
            startTime := clockAfter t0 (lag + (b - paused))
            state := TimerState.WORK } := by
        rw [← hnew, ← hst, ← hpt]
        simp [resume, hs]
      rw [hu]
      exact ⟨rfl, ha, ha, ht0, lag + (b - paused), by omega, rfl,
        Or.inl ⟨Or.inl rfl, hrem2⟩⟩
    · have hu : resume c (clockAfter t0 b) =
          { c with
            startTime := clockAfter t0 (lag + (b - paused))
            state := TimerState.SHORT_BREAK } := by
        rw [← hnew, ← hst, ← hpt]
        simp [resume, hs]
      rw [hu]
      exact ⟨rfl, ha, ha, ht0, lag + (b - paused), by omega, rfl,
        Or.inl ⟨Or.inr (Or.inl rfl), hrem2⟩⟩
    · have hu : resume c (clockAfter t0 b) =
          { c with
            startTime := clockAfter t0 (lag + (b - paused))
            state := TimerState.LONG_BREAK } := by
        rw [← hnew, ← hst, ← hpt]
        simp [resume, hs]
      rw [hu]
      exact ⟨rfl, ha, ha, ht0, lag + (b - paused), by omega, rfl,
        Or.inl ⟨Or.inr (Or.inr rfl), hrem2⟩⟩

/-- One call of a period within the period: it returns, the remaining time does
not grow, and the engine stays within the period unless the call expires it. -/
theorem step_inPeriod (t0 : Nat) (cmd : Command) (c : TimerCore) (p : Preferences)
    (a b : Nat) (h : InPeriod t0 c a) (hab : a ≤ b) (hb : b < 4294967296)
    (hc : cmd.isPeriodCall = true) :
    ∃ r, step cmd (clockAfter t0 b) c p = some r ∧ r.1.remainingTime ≤ c.remainingTime ∧
      (r.1.alertActive = false → InPeriod t0 r.1 b) := by
  cases cmd <;> first | exact Bool.noConfusion hc | skip
  case update =>
    exact ⟨_, rfl, update_inPeriod t0 c p a b h hab hb⟩
  case pause =>
    have hp := pause_inPeriod t0 c a b h hab
    exact ⟨_, rfl, Nat.le_of_eq hp.1, fun _ => hp.2.2⟩
  case resume =>
    have hr := resume_inPeriod t0 c a b h hab hb
    exact ⟨_, rfl, Nat.le_of_eq hr.1, fun _ => hr.2.2⟩

/-- The remaining times of the calls of a period, from the one before the first
call on, never grow. -/
theorem periodTrace_chain (t0 : Nat) (calls : List (Command × Nat)) :
    ∀ (c : TimerCore) (p : Preferences) (a : Nat), InPeriod t0 c a → periodCalls a calls = true →
      List.Chain (fun x y => y ≤ x) c.remainingTime (periodTrace t0 calls c p) := by
  induction calls with
  | nil => intro c p a _ _; exact List.Chain.nil
  | cons x rest ih =>
    intro c p a h hcalls
    obtain ⟨cmd, b⟩ := x
    simp only [periodCalls, Bool.and_eq_true, decide_eq_true_eq] at hcalls
    obtain ⟨⟨⟨hcall, hab⟩, hb⟩, hrest⟩ := hcalls
    obtain ⟨r, hs, hle, hin⟩ := step_inPeriod t0 cmd c p a b h hab hb hcall
    simp only [periodTrace, hs]
    refine List.Chain.cons hle ?_
    cases hA : r.1.alertActive
    · simp only [Bool.false_eq_true, if_false]
      exact ih r.1 r.2 b (hin hA) hrest
    · simp only [if_true]
      exact List.Chain.nil

/-- Counterexample to C25 as stated, a period started during the alarm of the one
before: the one-minute work period started at 60000 ms has 60 s remaining, and the
tick at 62000 ms, which ends the alarm, replaces it by a short break with 300 s
remaining. -/
theorem remainingTime_grows_after_alarm :
    (run (shortWorkDuringAlarm.take 4) sampleCore Preferences.empty).map
      (fun r => (r.1.state, r.1.alertActive, r.1.remainingTime)) =
      some (TimerState.WORK, true, 60) ∧
    (run shortWorkDuringAlarm sampleCore Preferences.empty).map
      (fun r => (r.1.state, r.1.remainingTime)) = some (TimerState.SHORT_BREAK, 300) := by
  decide

/-- C25 (amended): after a period is started with no alert active (`startWork`,
`startBreak`, or `startWorkFromWindup` in WindUp) at clock value `t0`, for every
sequence of `update()`, `pause()` and `resume()` calls at non-decreasing offsets
below `2^32` ms after `t0`, up to the call that expires the period, the remaining
time after each call is at most the remaining time before it. -/
theorem remainingTime_monotone (c : TimerCore) (p : Preferences) (t0 : Nat)
    (calls : List (Command × Nat))
    (ha : c.alertActive = false) (ht0 : t0 < 4294967296)
    (hcalls : periodCalls 0 calls = true) :
    List.Chain (fun x y => y ≤ x) (startWork c t0).remainingTime
      (periodTrace t0 calls (startWork c t0) p) ∧
    List.Chain (fun x y => y ≤ x) (startBreak c t0).remainingTime
      (periodTrace t0 calls (startBreak c t0) p) ∧
    (c.state = TimerState.WIND_UP →
      List.Chain (fun x y => y ≤ x) (startWorkFromWindup c t0).remainingTime
        (periodTrace t0 calls (startWorkFromWindup c t0) p)) := by
  have hclock : t0 = clockAfter t0 0 := by
    unfold clockAfter wrap32; omega
  refine ⟨?_, ?_, ?_⟩
  · apply periodTrace_chain t0 calls _ p 0 _ hcalls
    exact ⟨ha, ht0, 0, Nat.le_refl _, hclock, Or.inl ⟨Or.inl rfl, Nat.sub_le _ _⟩⟩
  · apply periodTrace_chain t0 calls _ p 0 _ hcalls
    unfold startBreak
    dsimp only
    split
    · exact ⟨ha, ht0, 0, Nat.le_refl _, hclock,
        Or.inl ⟨Or.inr (Or.inr rfl), Nat.sub_le _ _⟩⟩
    · exact ⟨ha, ht0, 0, Nat.le_refl _, hclock,
        Or.inl ⟨Or.inr (Or.inl rfl), Nat.sub_le _ _⟩⟩
  · intro hs
    apply periodTrace_chain t0 calls _ p 0 _ hcalls
    unfold startWorkFromWindup
    rw [if_neg (by simp [hs])]
    exact ⟨ha, ht0, 0, Nat.le_refl _, hclock, Or.inl ⟨Or.inl rfl, Nat.sub_le _ _⟩⟩

/-- Witness of C25 (amended): a one-minute work period started at clock value
5000 on the sample engine, with ticks, a pause of 20 s and the tick of its
expiry; and the same calls on a period started from a wind-up of 5000000 s, whose
duration in milliseconds does not fit 32 bits. -/
theorem remainingTime_monotone_witness :
    periodCalls 0 pausedMinute = true ∧
    periodTrace 5000 pausedMinute (startWork { sampleCore with workDuration := 1 } 5000)
      Preferences.empty = [59, 30, 30, 30, 30, 29, 1, 0] ∧
    List.Chain (fun x y => y ≤ x)
      (startWork { sampleCore with workDuration := 1 } 5000).remainingTime
      (periodTrace 5000 pausedMinute (startWork { sampleCore with workDuration := 1 } 5000)
        Preferences.empty) ∧
    List.Chain (fun x y => y ≤ x)
      (startWorkFromWindup { windupCore with windupValue := 5000000 } 5000).remainingTime
      (periodTrace 5000 pausedMinute
        (startWorkFromWindup { windupCore with windupValue := 5000000 } 5000)
        Preferences.empty) :=
  ⟨by decide, by decide,
    (remainingTime_monotone { sampleCore with workDuration := 1 } Preferences.empty 5000
      pausedMinute rfl (by decide) (by decide)).1,
    (remainingTime_monotone { windupCore with windupValue := 5000000 } Preferences.empty 5000
      pausedMinute rfl (by decide) (by decide)).2.2 rfl⟩

/-! ### C26: one step of the wind-up -/

/-- The mixed sum `windupValue + direction * 60`, formed in `uint32_t` and stored
in `int32_t`, is the exact sum for a wind-up value of at most 255 minutes and an
`int8_t` direction. -/
theorem wrapInt32_windup_sum (v : Nat) (d : Int) (hv : v ≤ 15300)
    (hd1 : -128 ≤ d) (hd2 : d ≤ 127) :
    wrapInt32 (wrap32 ((v : Int) + d * 60)) = (v : Int) + d * 60 := by
  unfold wrapInt32 wrap32; omega

theorem wrap32_toNat (x : Int) (h0 : 0 ≤ x) (h1 : x < 4294967296) :
    wrap32 x = x.toNat := by
  unfold wrap32; omega

theorem wrapInt32_minutes (w : Nat) (hw : w < 256) :
    wrapInt32 ((w * 60 : Nat) : Int) = (w : Int) * 60 := by
  unfold wrapInt32; omega

/-- The clamped value written by `incrementWindup`. -/
theorem windup_clamped (v w : Nat) (d : Int) (hw : w < 256) (hv : v ≤ w * 60)
    (hd1 : -128 ≤ d) (hd2 : d ≤ 127) :
    wrap32
      (if wrap32 (if (v : Int) + d * 60 < 0 then 0 else (v : Int) + d * 60) > w * 60 then
        (w : Int) * 60
      else if (v : Int) + d * 60 < 0 then 0 else (v : Int) + d * 60) =
      (min ((w : Int) * 60) (max 0 ((v : Int) + 60 * d))).toNat := by
  have hz : wrap32 0 = 0 := by decide
  by_cases h0 : (v : Int) + d * 60 < 0
  · rw [if_pos h0, hz, if_neg (Nat.not_lt_zero _), hz]
    simp only [min_def, max_def]
    split_ifs <;> omega
  · have hin : wrap32 ((v : Int) + d * 60) = ((v : Int) + d * 60).toNat :=
      wrap32_toNat _ (by omega) (by omega)
    rw [if_neg h0, hin]
    by_cases h1 : ((v : Int) + d * 60).toNat > w * 60
    · rw [if_pos h1, wrap32_minutes w hw]
      simp only [min_def, max_def]
      split_ifs <;> omega
    · rw [if_neg h1, hin]
      simp only [min_def, max_def]
      split_ifs <;> omega

/-- The method `incrementWindup` in WindUp, with the clamped value
`v = min(workDuration*60, max(0, windupValue + 60*direction))`. -/
theorem incrementWindup_eq (c : TimerCore) (d : Int) (now : Nat)
    (hs : c.state = TimerState.WIND_UP) (hw : c.workDuration < 256)
    (hv : c.windupValue ≤ c.workDuration * 60)
    (hd1 : -128 ≤ d) (hd2 : d ≤ 127) :
    incrementWindup c d now =
      if (min ((c.workDuration : Int) * 60) (max 0 ((c.windupValue : Int) + 60 * d))).toNat ≥
          c.workDuration * 60 then
        startWorkFromWindup
          { c with windupValue :=
              (min ((c.workDuration : Int) * 60)
                (max 0 ((c.windupValue : Int) + 60 * d))).toNat } now
      else
        { c with windupValue :=
            (min ((c.workDuration : Int) * 60)
              (max 0 ((c.windupValue : Int) + 60 * d))).toNat } := by
  have hguard : ¬ (c.state ≠ TimerState.WIND_UP) := by simp [hs]
  have hv2 : c.windupValue ≤ 15300 := by omega
  have hsum := wrapInt32_windup_sum c.windupValue d hv2 hd1 hd2
  have hmax := wrap32_minutes c.workDuration hw
  have hmaxi := wrapInt32_minutes c.workDuration hw
  have hcl := windup_clamped c.windupValue c.workDuration d hw hv hd1 hd2
  unfold incrementWindup
  rw [if_neg hguard]
  dsimp only
  rw [hsum, hmax, hmaxi, hcl]

/-- C26: for an engine in WindUp with `windupValue <= workDuration*60` and every
`int8_t` direction `d`, `incrementWindup(d)` computes
`v = min(workDuration*60, max(0, windupValue + 60*d))` without wrap-around.  When
`v < workDuration*60` the engine stays in WindUp with `windupValue = v` and
nothing else changes; when `v = workDuration*60` the engine is in Work with
`duration = remainingTime = v`, `startTime` the clock value and `windupValue = 0`. -/
theorem incrementWindup_spec (c : TimerCore) (d : Int) (now : Nat)
    (hs : c.state = TimerState.WIND_UP) (hw : c.workDuration < 256)
    (hv : c.windupValue ≤ c.workDuration * 60)
    (hd1 : -128 ≤ d) (hd2 : d ≤ 127) :
    (min ((c.workDuration : Int) * 60) (max 0 ((c.windupValue : Int) + 60 * d)) <
        (c.workDuration : Int) * 60 →
      incrementWindup c d now =
        { c with windupValue :=
            (min ((c.workDuration : Int) * 60)
              (max 0 ((c.windupValue : Int) + 60 * d))).toNat }) ∧
    (min ((c.workDuration : Int) * 60) (max 0 ((c.windupValue : Int) + 60 * d)) =
        (c.workDuration : Int) * 60 →
      incrementWindup c d now =
        { c with
          duration := c.workDuration * 60
          remainingTime := c.workDuration * 60
          startTime := now
          state := TimerState.WORK
          windupValue := 0 }) := by
  have hguard : ¬ (c.state ≠ TimerState.WIND_UP) := by simp [hs]
  have heq := incrementWindup_eq c d now hs hw hv hd1 hd2
  constructor
  · intro hlt
    rw [heq, if_neg (by omega)]
  · intro hfull
    have hn : (min ((c.workDuration : Int) * 60)
        (max 0 ((c.windupValue : Int) + 60 * d))).toNat = c.workDuration * 60 := by
      rw [hfull]; omega
    rw [heq, hn, if_pos (Nat.le_refl _)]
    unfold startWorkFromWindup
    dsimp only
    rw [if_neg hguard]

/-- Witness of C26 on the sample engine in WindUp at 24 of 25 minutes: one step
down gives 23 minutes, two steps up at once start the work period of 1500 s. -/
theorem incrementWindup_spec_witness :
    windupCore.state = TimerState.WIND_UP ∧
    windupCore.windupValue ≤ windupCore.workDuration * 60 ∧
    incrementWindup windupCore (-1) 7000 = { windupCore with windupValue := 1380 } ∧
    incrementWindup windupCore 2 7000 =
      { windupCore with
        duration := windupCore.workDuration * 60
        remainingTime := windupCore.workDuration * 60
        startTime := 7000
        state := TimerState.WORK
        windupValue := 0 } :=
  ⟨rfl, by decide,
    (incrementWindup_spec windupCore (-1) 7000 rfl (by decide) (by decide) (by decide)
      (by decide)).1 (by decide),
    (incrementWindup_spec windupCore 2 7000 rfl (by decide) (by decide) (by decide)
      (by decide)).2 (by decide)⟩

/-! ### C27: tick cadence -/

/-- C27: for an engine in Work, ShortBreak or LongBreak with no alert active, if
the tick at `t1` does not expire the period, the tick at `t1` followed by the tick
at `t2` gives exactly the engine and store of the single tick at `t2`. -/
theorem update_tick_cadence (c : TimerCore) (p : Preferences) (t1 t2 : Nat)
    (hstate : c.state = TimerState.WORK ∨ c.state = TimerState.SHORT_BREAK ∨
      c.state = TimerState.LONG_BREAK)
    (halert : c.alertActive = false)
    (hrun : (update c p t1).1.state ≠ TimerState.ALERT) :
    update (update c p t1).1 (update c p t1).2 t2 = update c p t2 := by
  by_cases h1 : elapsedMs t1 c.startTime ≥ wrap32 (c.duration * 1000) ∨
      elapsedMs t1 c.startTime / 1000 ≥ c.duration
  · exfalso
    apply hrun
    simp only [update, halert, hstate, h1]
    simp [startAlert]
  · have e1 : update c p t1 =
        ({ c with remainingTime :=
            if elapsedMs t1 c.startTime / 1000 < c.duration then
              c.duration - elapsedMs t1 c.startTime / 1000 else 0 }, p) := by
      simp only [update, halert, hstate, h1]
      simp
    rw [e1]
    simp only [update, halert, hstate]
    simp only [Bool.false_eq_true, if_false, if_true]

/-- Witness of C27 on the sample engine in Work since clock 0: ticks at 61 s and
at 125 s, and a single tick at 125 s. -/
theorem update_tick_cadence_witness :
    (update workingCore Preferences.empty 61000).1.state ≠ TimerState.ALERT ∧
    update (update workingCore Preferences.empty 61000).1
      (update workingCore Preferences.empty 61000).2 125000 =
      update workingCore Preferences.empty 125000 :=
  ⟨by decide, update_tick_cadence workingCore Preferences.empty 61000 125000
    (Or.inl rfl) rfl (by decide)⟩

/-! ### C28: the dual expiry check -/

/-- C28: for an engine whose `duration*1000` fits in 32 bits, the dual check of
`update` on an elapsed time `e` (millisecond comparison or seconds comparison)
holds exactly when the millisecond comparison holds, and `update` is equal to the
version with the millisecond comparison alone, at every clock value. -/
theorem dual_expiry_check_redundant (c : TimerCore) (p : Preferences) (now : Nat)
    (hdur : c.duration * 1000 < 4294967296) :
    (∀ e : Nat, e < 4294967296 →
      ((e ≥ wrap32 (c.duration * 1000) ∨ e / 1000 ≥ c.duration) ↔
        e ≥ c.duration * 1000)) ∧
    update c p now = updateMsOnly c p now := by
  have hms : wrap32 (c.duration * 1000) = c.duration * 1000 := by
    unfold wrap32; omega
  have hiff : ∀ e : Nat, ((e ≥ c.duration * 1000 ∨ e / 1000 ≥ c.duration) ↔
      e ≥ c.duration * 1000) := by
    intro e; omega
  refine ⟨fun e _ => ?_, ?_⟩
  · rw [hms]; exact hiff e
  · simp only [update, updateMsOnly, hms, hiff]

/-- Witness of C28 on the sample engine in Work (duration 1500 s), at the tick of
1499999 ms. -/
theorem dual_expiry_check_redundant_witness :
    workingCore.duration * 1000 < 4294967296 ∧
    update workingCore Preferences.empty 1499999 =
      updateMsOnly workingCore Preferences.empty 1499999 :=
  ⟨by decide, (dual_expiry_check_redundant workingCore Preferences.empty 1499999
    (by decide)).2⟩

/-! ### C29: select and confirm -/

/-- C29: for every menu item and every well-formed engine in the list view with
`currentTaskId < totalTasks <= MAX_TASKS`, `selectMenuItem()` returns, and
`confirmValue()` right after it leaves the engine as it was before the two calls
apart from `editingValue`: every setting, `totalTasks`, `currentTaskId`, every
per-task counter and the timer are unchanged and `menuState` is ListView again. -/
theorem select_confirm_unchanged (c : TimerCore) (p : Preferences)
    (hwf : c.WellFormed)
    (hm : c.menuState = MenuState.MENU_LIST)
    (ht : c.currentTaskId < c.totalTasks) (hn : c.totalTasks ≤ MAX_TASKS) :
    ∃ c1, selectMenuItem c = some c1 ∧
      (confirmValue c1 p).1 = { c with editingValue := c1.editingValue } ∧
      (confirmValue c1 p).1.menuState = MenuState.MENU_LIST := by
  obtain ⟨hlc, hli⟩ := wellFormed_lengths c hwf
  have hcur : c.currentTaskId < MAX_TASKS := by omega
  have hic : c.currentTaskId < c.completedPomodoros.length := by omega
  have hii : c.currentTaskId < c.interruptedPomodoros.length := by omega
  have hnot : ¬ (c.totalTasks ≤ c.currentTaskId) := by omega
  cases hitem : c.currentMenuItem <;> cases hsel : selectMenuItem c <;>
    simp [selectMenuItem, hm, hitem, readAt_of_lt _ _ hic, readAt_of_lt _ _ hii] at hsel <;>
    subst hsel <;> refine ⟨_, rfl, ?_, ?_⟩
  all_goals
    simp [confirmValue, applyEditingValue, hitem, hm, persist, setWorkDuration,
      setShortBreakDuration, setLongBreakDuration, setPomodorosBeforeLongBreak,
      setTotalTasks, setTaskCompletedPomodoros, setTaskInterruptedPomodoros,
      setIdleTimeoutBattery, setIdleTimeoutUSB, setSleepOnUSB, setBrightnessLevel,
      setTheme, setWindupEnabled, setAlarmDuration, setAlarmVibration, setAlarmFlash,
      hcur, hnot, set_getD_self _ _ hic, set_getD_self _ _ hii]

/-- Witness of C29 on the sample engine with the menu opened at the work-duration
item. -/
theorem select_confirm_unchanged_witness :
    (openMenu sampleCore).WellFormed ∧
    (openMenu sampleCore).currentTaskId < (openMenu sampleCore).totalTasks ∧
    ∃ c1, selectMenuItem (openMenu sampleCore) = some c1 ∧
      (confirmValue c1 Preferences.empty).1 =
        { openMenu sampleCore with editingValue := c1.editingValue } ∧
      (confirmValue c1 Preferences.empty).1.menuState = MenuState.MENU_LIST :=
  ⟨by decide, by decide,
    select_confirm_unchanged (openMenu sampleCore) Preferences.empty (by decide) (by decide)
      (by decide) (by decide)⟩

/-! ### C30: an edit that is not confirmed -/

/-- A run of `adjustValue` steps is the fold of `adjustValue` over the steps; the
store is not touched. -/
theorem run_adjustValues (ds : List (Int × Nat)) (rest : List (Command × Nat)) :
    ∀ (c : TimerCore) (p : Preferences),
      run (ds.map (fun d => (Command.adjustValue d.1, d.2)) ++ rest) c p =
        run rest (ds.foldl (fun c d => adjustValue c d.1) c) p := by
  induction ds with
  | nil => intro c p; rfl
  | cons d ds ih =>
    intro c p
    show run (ds.map (fun d => (Command.adjustValue d.1, d.2)) ++ rest) (adjustValue c d.1) p = _
    rw [ih]
    rfl

/-- Two changes of `editingValue` in a row are one. -/
theorem editingValue_frame_trans (c c1 c2 : TimerCore)
    (h1 : c1 = { c with editingValue := c1.editingValue })
    (h2 : c2 = { c1 with editingValue := c2.editingValue }) :
    c2 = { c with editingValue := c2.editingValue } := by
  have e : ({ c1 with editingValue := c2.editingValue } : TimerCore) =
      { c with editingValue := c2.editingValue } := by rw [h1]
  exact h2.trans e

/-- A fold of `adjustValue` changes `editingValue` only. -/
theorem foldl_adjustValue_frame (ds : List (Int × Nat)) :
    ∀ c : TimerCore,
      ds.foldl (fun c d => adjustValue c d.1) c =
        { c with editingValue := (ds.foldl (fun c d => adjustValue c d.1) c).editingValue } := by
  induction ds with
  | nil => intro c; rfl
  | cons d ds ih =>
    intro c
    rw [List.foldl_cons]
    have h1 := adjustValue_frame c d.1
    have h2 := ih (adjustValue c d.1)
    generalize adjustValue c d.1 = c1 at h1 h2 ⊢
    generalize List.foldl (fun c d => adjustValue c d.1) c1 ds = c2 at h2 ⊢
    exact editingValue_frame_trans c c1 c2 h1 h2

/-- The engine after an abandoned edit: selected, adjusted, closed. -/
theorem abandoned_frame (c c1 c2 : TimerCore)
    (hs : c1 = { c with menuState := c1.menuState, editingValue := c1.editingValue })
    (hf : c2 = { c1 with editingValue := c2.editingValue }) :
    closeMenu c2 = { c with menuState := MenuState.CLOSED, editingValue := c2.editingValue } := by
  have e1 : closeMenu c2 =
      { c1 with menuState := MenuState.CLOSED, editingValue := c2.editingValue } := by
    unfold closeMenu
    rw [hf]
  have e2 : ({ c1 with menuState := MenuState.CLOSED, editingValue := c2.editingValue } :
      TimerCore) = { c with menuState := MenuState.CLOSED, editingValue := c2.editingValue } := by
    rw [hs]
  exact e1.trans e2

/-- C30: `selectMenuItem()` (where it returns), `adjustValue(d)` for every `d`,
`navigateMenu(d)` and `closeMenu()` leave the store as it is and change only
`menuState`, `editingValue` and `currentMenuItem` of the engine.  An abandoned
edit (`selectMenuItem`, any sequence of `adjustValue` calls, `closeMenu`) returns
whenever `currentTaskId` is inside the counter arrays, and then the store is the
one before and the engine differs from the one before only in `menuState`
(Closed) and `editingValue`. -/
theorem unconfirmed_edit_no_effect (c : TimerCore) (p : Preferences) :
    (∀ now r, step Command.selectMenuItem now c p = some r →
      r.2 = p ∧
      r.1 = { c with menuState := r.1.menuState, editingValue := r.1.editingValue }) ∧
    (∀ d now, step (Command.adjustValue d) now c p =
      some ({ c with editingValue := (adjustValue c d).editingValue }, p)) ∧
    (∀ d now, step (Command.navigateMenu d) now c p =
      some ({ c with currentMenuItem := (navigateMenu c d).currentMenuItem }, p)) ∧
    (∀ now, step Command.closeMenu now c p =
      some ({ c with menuState := MenuState.CLOSED }, p)) ∧
    (∀ t0 ds t1 r, run (abandonedEdit t0 ds t1) c p = some r →
      r.2 = p ∧
      r.1 = { c with menuState := MenuState.CLOSED, editingValue := r.1.editingValue }) ∧
    (c.WellFormed → c.currentTaskId < MAX_TASKS →
      ∀ t0 ds t1, (run (abandonedEdit t0 ds t1) c p).isSome = true) := by
  have hrun : ∀ t0 ds t1 c1, selectMenuItem c = some c1 →
      run (abandonedEdit t0 ds t1) c p =
        some (closeMenu (ds.foldl (fun c d => adjustValue c d.1) c1), p) := by
    intro t0 ds t1 c1 h1
    show (match step Command.selectMenuItem t0 c p with
      | none => none
      | some r => run (ds.map (fun d : Int × Nat => (Command.adjustValue d.1, d.2)) ++
          [(Command.closeMenu, t1)]) r.1 r.2) = _
    simp only [step, h1]
    rw [run_adjustValues]
    rfl
  have hnone : ∀ t0 ds t1, selectMenuItem c = none →
      run (abandonedEdit t0 ds t1) c p = none := by
    intro t0 ds t1 h1
    show (match step Command.selectMenuItem t0 c p with
      | none => none
      | some r => run (ds.map (fun d : Int × Nat => (Command.adjustValue d.1, d.2)) ++
          [(Command.closeMenu, t1)]) r.1 r.2) = _
    simp only [step, h1]
  refine ⟨?_, ?_, ?_, ?_, ?_, ?_⟩
  · intro now r h
    cases h1 : selectMenuItem c with
    | none => simp [step, h1] at h
    | some c1 =>
      simp only [step, h1, Option.some.injEq] at h
      subst h
      exact ⟨rfl, selectMenuItem_frame c c1 h1⟩
  · intro d now
    show some (adjustValue c d, p) = _
    rw [← adjustValue_frame]
  · intro d now
    show some (navigateMenu c d, p) = _
    rw [← navigateMenu_frame]
  · intro now
    rfl
  · intro t0 ds t1 r h
    cases h1 : selectMenuItem c with
    | none => rw [hnone t0 ds t1 h1] at h; exact absurd h (by simp)
    | some c1 =>
      rw [hrun t0 ds t1 c1 h1, Option.some.injEq] at h
      subst h
      refine ⟨rfl, ?_⟩
      exact abandoned_frame c c1 _ (selectMenuItem_frame c c1 h1)
        (foldl_adjustValue_frame ds c1)
  · intro hwf hcur t0 ds t1
    obtain ⟨hlc, hli⟩ := wellFormed_lengths c hwf
    have hic : c.currentTaskId < c.completedPomodoros.length := by omega
    have hii : c.currentTaskId < c.interruptedPomodoros.length := by omega
    cases h1 : selectMenuItem c with
    | none =>
      exfalso
      by_cases hm : c.menuState = MenuState.MENU_LIST
      · cases hitem : c.currentMenuItem <;>
          simp [selectMenuItem, hm, hitem, readAt_of_lt _ _ hic, readAt_of_lt _ _ hii] at h1
      · simp [selectMenuItem, hm] at h1
    | some c1 => rw [hrun t0 ds t1 c1 h1]; rfl

/-- Witness of C30 on the sample engine with the menu opened: the work duration
selected, stepped up twice and the menu closed. -/
theorem unconfirmed_edit_no_effect_witness :
    (openMenu sampleCore).WellFormed ∧ (openMenu sampleCore).currentTaskId < MAX_TASKS ∧
    (run (abandonedEdit 0 [(1, 100), (1, 200)] 300) (openMenu sampleCore)
      Preferences.empty).isSome = true ∧
    (run (abandonedEdit 0 [(1, 100), (1, 200)] 300) (openMenu sampleCore)
      Preferences.empty).map (fun r => (r.1.workDuration, r.1.editingValue, r.1.menuState)) =
      some (25, 27, MenuState.CLOSED) :=
  ⟨by decide, by decide,
    (unconfirmed_edit_no_effect (openMenu sampleCore) Preferences.empty).2.2.2.2.2
      (by decide) (by decide) 0 [(1, 100), (1, 200)] 300,
    by decide⟩

end Pomodoro
